import Mathlib

/-!
Fitters dashboard calendar widget: verification development.

Shallow embedding of `app/calendar-widget.js`.

Conventions of the embedding

* A JavaScript `Date` is its time value: an integer number of milliseconds
  since 1970-01-01T00:00:00Z.  All dates are assumed to be valid (inside the
  range of `TimeClip`), so every time value is an exact integer.
* The abstract operations of the language standard on time values (`Day`,
  `TimeWithinDay`, `DayFromYear`, `YearFromTime`, `MonthFromTime`,
  `DateFromTime`, `WeekDay`, `MakeDay`, `MakeDate`, `LocalTime`, `UTC`) are
  transcribed under the names `day`, `timeWithinDay`, ... below.
* The local time zone is a fixed offset `tza` (milliseconds east of UTC), an
  explicit parameter of every operation that reads or writes local time.
  Daylight-saving transitions inside the grid are not modelled.
* The strings that the code takes apart character by character (postcodes
  and coverage areas) are lists of characters; the other strings are `String`.
* A Number that the code obtains from a string of digits is the natural
  number that the double represents: `parseInt` rounds the integer of the
  digits to the nearest double (`toNumber`).
* The case mappings `toUpperCase` and `toLowerCase` are those of ASCII; a
  character outside ASCII is left as it is, and the comparison of the
  postcode matcher with its specification is stated for ASCII strings.
* A global variable that a function reads or writes is a parameter or a field
  of `State`; what a function takes from the runtime or from the host (the
  clock, the answers of the host) is a parameter.
-/

namespace CalendarWidget

/-! ## Time values -/

/-- Milliseconds per day. -/
def msPerDay : Int := 86400000

/-- Standard operation `Day(t)`: the day number of a time value. -/
def day (t : Int) : Int := t / msPerDay

/-- Standard operation `TimeWithinDay(t)`. -/
def timeWithinDay (t : Int) : Int := t % msPerDay

/-- Standard operation `DayFromYear(y)`: day number of 1 January of year `y`. -/
def dayFromYear (y : Int) : Int :=
  365 * (y - 1970) + (y - 1969) / 4 - (y - 1901) / 100 + (y - 1601) / 400

/-- Standard operation `DaysInYear(y)`. -/
def daysInYear (y : Int) : Int :=
  if y % 4 ≠ 0 then 365
  else if y % 100 ≠ 0 then 366
  else if y % 400 ≠ 0 then 365
  else 366

/-- Year of a day number: the largest `y` with `dayFromYear y ≤ d`, computed
from an estimate that is off by at most one (see `yearFromDay_spec`). -/
def yearFromDay (d : Int) : Int :=
  let y := 1970 + (400 * d) / 146097
  if dayFromYear (y + 1) ≤ d then y + 1
  else if dayFromYear y ≤ d then y
  else y - 1

/-- Standard operation `YearFromTime(t)`. -/
def yearFromTime (t : Int) : Int := yearFromDay (day t)

/-- Standard operation `InLeapYear(t)`, as 0 or 1, on a day number. -/
def inLeapYear (d : Int) : Int :=
  if daysInYear (yearFromDay d) = 366 then 1 else 0

/-- Standard operation `DayWithinYear(t)`, on a day number. -/
def dayWithinYear (d : Int) : Int := d - dayFromYear (yearFromDay d)

/-- Number of days before the first of month `m` (0 = January) in a year
with leap indicator `l`. -/
def monthStart (m : Int) (l : Int) : Int :=
  if m = 0 then 0
  else if m = 1 then 31
  else if m = 2 then 59 + l
  else if m = 3 then 90 + l
  else if m = 4 then 120 + l
  else if m = 5 then 151 + l
  else if m = 6 then 181 + l
  else if m = 7 then 212 + l
  else if m = 8 then 243 + l
  else if m = 9 then 273 + l
  else if m = 10 then 304 + l
  else 334 + l

/-- Table of `MonthFromTime`: the month (0 = January) of the day `w` within
a year with leap indicator `l`. -/
def monthOfDayWithinYear (w l : Int) : Int :=
  if w < 31 then 0
  else if w < 59 + l then 1
  else if w < 90 + l then 2
  else if w < 120 + l then 3
  else if w < 151 + l then 4
  else if w < 181 + l then 5
  else if w < 212 + l then 6
  else if w < 243 + l then 7
  else if w < 273 + l then 8
  else if w < 304 + l then 9
  else if w < 334 + l then 10
  else 11

/-- Standard operation `MonthFromTime(t)` (0 = January), on a day number. -/
def monthFromDay (d : Int) : Int :=
  monthOfDayWithinYear (dayWithinYear d) (inLeapYear d)

/-- Standard operation `DateFromTime(t)` (day of the month, from 1), on a day
number. -/
def dateFromDay (d : Int) : Int :=
  dayWithinYear d - monthStart (monthFromDay d) (inLeapYear d) + 1

/-- Standard operation `WeekDay(t)` on a day number: 0 = Sunday, ..., 6 =
Saturday (day 0 was a Thursday). -/
def weekDay (d : Int) : Int := (d + 4) % 7

/-- Standard operation `MakeDay(year, month, date)`: the day number of the
first of the month `month` (counted from January of `year`, any integer),
plus `date - 1`. -/
def makeDay (year month date : Int) : Int :=
  let ym := year + month / 12
  let mn := month % 12
  dayFromYear ym + monthStart mn (if daysInYear ym = 366 then 1 else 0) + date - 1

/-- Standard operation `MakeDate(day, time)`. -/
def makeDate (d time : Int) : Int := d * msPerDay + time

/-- Standard operation `LocalTime(t)` for the fixed offset `tza`. -/
def localTime (tza t : Int) : Int := t + tza

/-- Standard operation `UTC(t)` for the fixed offset `tza`. -/
def utc (tza t : Int) : Int := t - tza

/-! ## Methods of `Date` used by the widget -/

/-- Method `getFullYear()`. -/
def getFullYear (tza t : Int) : Int := yearFromTime (localTime tza t)

/-- Method `getMonth()`. -/
def getMonth (tza t : Int) : Int := monthFromDay (day (localTime tza t))

/-- Method `getDate()`. -/
def getDate (tza t : Int) : Int := dateFromDay (day (localTime tza t))

/-- Method `getDay()`. -/
def getDay (tza t : Int) : Int := weekDay (day (localTime tza t))

/-- Method `setDate(dt)`: the new time value of the receiver `t`. -/
def setDate (tza t dt : Int) : Int :=
  let lt := localTime tza t
  let newDate :=
    makeDate (makeDay (yearFromTime lt) (monthFromDay (day lt)) dt) (timeWithinDay lt)
  utc tza newDate

/-- Method `getUTCFullYear()`. -/
def getUTCFullYear (t : Int) : Int := yearFromTime t

/-- Method `getUTCDate()`. -/
def getUTCDate (t : Int) : Int := dateFromDay (day t)

/-- Method `getUTCDay()`. -/
def getUTCDay (t : Int) : Int := weekDay (day t)

/-- Method `setUTCDate(dt)`: the new time value of the receiver `t`. -/
def setUTCDate (t dt : Int) : Int :=
  makeDate (makeDay (yearFromTime t) (monthFromDay (day t)) dt) (timeWithinDay t)

/-- Function `Date.UTC(year, month, date)`; a year from 0 to 99 stands for
1900 + year. -/
def dateUTC (year month date : Int) : Int :=
  let yr := if 0 ≤ year ∧ year ≤ 99 then 1900 + year else year
  makeDate (makeDay yr month date) 0

/-- A calendar date: what the ten characters `YYYY-MM-DD` (or `DD/MM/YY`)
of a formatted date denote.  `month` counts from 1. -/
structure CivilDate where
  year : Int
  month : Int
  dayOfMonth : Int
deriving DecidableEq, Repr

/-- Calendar date of a day number. -/
def civilOfDay (d : Int) : CivilDate :=
  { year := yearFromDay d, month := monthFromDay d + 1, dayOfMonth := dateFromDay d }

/-- Day number of a calendar date. -/
def CivilDate.toDay (c : CivilDate) : Int := makeDay c.year (c.month - 1) c.dayOfMonth

/-- Expression `d.toISOString().split('T')[0]`: the calendar date, in UTC, of
the time value. -/
def toISODate (t : Int) : CivilDate := civilOfDay (day t)

/-- Expression `d.toLocaleDateString('en-GB', ...)`: the calendar date, in
local time, of the time value (rendered `DD/MM/YY`). -/
def toLocaleDate (tza t : Int) : CivilDate := civilOfDay (day (localTime tza t))

/-! ## Week grid -/

/-- Function `getWeekNumber(date)`.  The quotient by 86400000 is exact and
`Math.ceil(x / 7)` of an integer `x` is `(x + 6) / 7` rounded down. -/
def getWeekNumber (tza date : Int) : Int :=
  let d := dateUTC (getFullYear tza date) (getMonth tza date) (getDate tza date)
  let dayNum := if getUTCDay d = 0 then 7 else getUTCDay d
  let d := setUTCDate d (getUTCDate d + 4 - dayNum)
  let yearStart := dateUTC (getUTCFullYear d) 0 1
  ((d - yearStart) / 86400000 + 1 + 6) / 7

/-- One element of the array returned by `getThreeWeekDays`.  The `label`
string `WK<n>\n<DD/MM/YY>` is kept as its two components. -/
structure WeekDescriptor where
  date : CivilDate
  labelWeek : Int
  labelDate : CivilDate
  isToday : Bool
  weekStart : CivilDate
  weekEnd : CivilDate
  fullDate : Int
deriving DecidableEq, Repr

/-- Body of the loop of `getThreeWeekDays` for loop variable `i`: the
descriptor pushed onto `weeks`. -/
def weekDescriptor (tza today start i : Int) : WeekDescriptor :=
  let monday := setDate tza start (getDate tza start + i * 7)
  let weekStart := monday
  let weekEnd := setDate tza monday (getDate tza monday + 6)
  let isCurrentWeek := decide (today ≥ weekStart) && decide (today ≤ weekEnd)
  let dateString := toISODate monday
  let weekNumber := getWeekNumber tza monday
  let formattedDate := toLocaleDate tza monday
  { date := dateString
    labelWeek := weekNumber
    labelDate := formattedDate
    isToday := isCurrentWeek
    weekStart := toISODate weekStart
    weekEnd := toISODate weekEnd
    fullDate := monday }

/-- Loop `for (let i = -1; i < 13; i++) { ...; weeks.push(...) }`. -/
def weeksLoop (tza today start : Int) (i : Int) (weeks : List WeekDescriptor) :
    List WeekDescriptor :=
  if i < 13 then
    weeksLoop tza today start (i + 1) (weeks ++ [weekDescriptor tza today start i])
  else weeks
termination_by (13 - i).toNat
decreasing_by omega

/-- The Monday from which `getThreeWeekDays` counts: `start` after the two
calls of `setDate`. -/
def gridStart (tza currentDate weekOffset : Int) : Int :=
  let start := currentDate
  let start := setDate tza start (getDate tza start + weekOffset)
  let dayOfWeek := getDay tza start
  let mondayOffset := if dayOfWeek = 0 then -6 else 1 - dayOfWeek
  setDate tza start (getDate tza start + mondayOffset)

/-- Function `getThreeWeekDays()`.  The globals `currentDate` and
`weekOffset` and the instant `today = new Date()` are parameters. -/
def getThreeWeekDays (tza currentDate weekOffset today : Int) : List WeekDescriptor :=
  weeksLoop tza today (gridStart tza currentDate weekOffset) (-1) []

/-! ## ISO 8601 week numbers, in the words of the specification -/

/-- Monday on or before the day `d` (the Monday of the Monday-to-Sunday week
of `d`). -/
def mondayOfWeek (d : Int) : Int := d - (d + 3) % 7

/-- Thursday of the Monday-to-Sunday week of the day `d`. -/
def thursdayOfWeek (d : Int) : Int := mondayOfWeek d + 3

/-- ISO 8601 week number of the day `d`, in the words of the specification:
the number of the week of `d`, counted from the week containing 4 January
(of the year of the Thursday of the week of `d`) as week 1. -/
def isoWeekNumber (d : Int) : Int :=
  let y := yearFromDay (thursdayOfWeek d)
  let jan4 := makeDay y 0 4
  (mondayOfWeek d - mondayOfWeek jan4) / 7 + 1

/-- Day number of 15 October 1582, the first day of the Gregorian calendar. -/
def firstGregorianDay : Int := -141427

/-! ## Strings and regular expressions of the postcode matcher -/

/-- Characters matched by `\s` in a regular expression and removed by
`trim()`: white space and line terminators. -/
def isWhiteSpace (c : Char) : Bool :=
  decide (c.toNat ∈ [0x9, 0xA, 0xB, 0xC, 0xD, 0x20, 0xA0, 0x1680, 0x2028, 0x2029, 0x202F,
      0x205F, 0x3000, 0xFEFF])
    || decide (0x2000 ≤ c.toNat ∧ c.toNat ≤ 0x200A)

/-- Method `trim()`. -/
def trim (s : List Char) : List Char :=
  ((s.dropWhile isWhiteSpace).reverse.dropWhile isWhiteSpace).reverse

/-- Character class `[A-Z]`. -/
def isUpperAZ (c : Char) : Bool := decide (65 ≤ c.toNat ∧ c.toNat ≤ 90)

/-- Character class `\d`. -/
def isDigit (c : Char) : Bool := decide (48 ≤ c.toNat ∧ c.toNat ≤ 57)

/-- Upper-case form of one character of ASCII: the letters `a` to `z` are
mapped to `A` to `Z`, every other character of ASCII to itself.  The mapping
of the characters outside ASCII belongs to the Unicode tables of the runtime
and is not modelled: such a character is left as it is, and the comparison
of the matcher with its specification is stated for ASCII strings
(`PostcodeDomain`). -/
def upperChar (c : Char) : Char :=
  if 97 ≤ c.toNat ∧ c.toNat ≤ 122 then Char.ofNat (c.toNat - 32) else c

/-- Method `toUpperCase()`, on the strings of ASCII characters (see
`upperChar`). -/
def toUpperCase (s : List Char) : List Char := s.map upperChar

/-- The integer that a string of decimal digits denotes (`mathInt` in the
definition of `parseInt`). -/
def decimalValue (s : List Char) : Nat :=
  s.foldl (fun acc c => 10 * acc + (c.toNat - 48)) 0

/-- Rounding of a natural number `n > 2^53` to 53 significant binary digits,
to the nearest and to the even significand in a tie: with `2^e` the weight of
the last kept digit, `n = q * 2^e + r` and `2^52 ≤ q < 2^53`. -/
def roundToDouble (n : Nat) : Nat :=
  let e := Nat.log 2 n - 52
  let q := n / 2 ^ e
  let r := n % 2 ^ e
  if 2 * r < 2 ^ e ∨ (2 * r = 2 ^ e ∧ q % 2 = 0) then q * 2 ^ e else (q + 1) * 2 ^ e

/-- The natural number that stands for the Number `Infinity`: it is above
every finite double. -/
def infinity : Nat := 2 ^ 1024

/-- The Number value of a natural number, which is the nearest double
(conversion of a mathematical value to a Number in the language standard).
The numbers up to `2^53` are Number values; above, the value is rounded, and
a rounding that reaches `2^1024` gives `Infinity`.  Comparing these natural
numbers is comparing the Numbers. -/
def toNumber (n : Nat) : Nat :=
  if n ≤ 2 ^ 53 then n else min (roundToDouble n) infinity

/-- Function `parseInt` on a string of decimal digits: the Number value of
the integer that the digits denote.  Every digit counts; the language
standard also lets an engine read the digits after the 20th as zeros, which
changes no comparison with a number below `2^53`. -/
def parseInt (s : List Char) : Nat := toNumber (decimalValue s)

/-- Character class `[;,]`. -/
def isDelimiter (c : Char) : Bool := decide (c = ';') || decide (c = ',')

/-- Method `split(/[;,]/)`: the segments between delimiters, empty ones
included; the empty string gives one empty segment. -/
def splitDelimiters : List Char → List (List Char)
  | [] => [[]]
  | c :: cs =>
    if isDelimiter c then [] :: splitDelimiters cs
    else
      match splitDelimiters cs with
      | [] => [[c]]
      | seg :: segs => (c :: seg) :: segs

/-- Regular expression `/^([A-Z]+)(\d+)$/`: the two groups of a match.  The
three classes of the expression are disjoint, so the only possible match
takes the longest run of letters, then the longest run of digits, and must
then be at the end of the string. -/
def matchSingle (s : List Char) : Option (List Char × List Char) :=
  let letters := s.takeWhile isUpperAZ
  let rest := s.dropWhile isUpperAZ
  let digits := rest.takeWhile isDigit
  let tail := rest.dropWhile isDigit
  if letters ≠ [] ∧ digits ≠ [] ∧ tail = [] then some (letters, digits) else none

/-- Regular expression `/^([A-Z]+)(\d+)-(\d+)$/`: the three groups of a
match (longest run of letters, longest run of digits, a hyphen, longest run
of digits, end of the string). -/
def matchRange (s : List Char) : Option (List Char × List Char × List Char) :=
  let letters := s.takeWhile isUpperAZ
  let rest := s.dropWhile isUpperAZ
  let startNum := rest.takeWhile isDigit
  match rest.dropWhile isDigit with
  | [] => none
  | c :: rest2 =>
    let endNum := rest2.takeWhile isDigit
    let tail := rest2.dropWhile isDigit
    if c = '-' ∧ letters ≠ [] ∧ startNum ≠ [] ∧ endNum ≠ [] ∧ tail = [] then
      some (letters, startNum, endNum)
    else none

/-! ## Postcode coverage -/

/-- Expression `inputPostcode.replace(/\s+/g, '').toUpperCase()` of
`matchesPostcodeRange`: the value of `cleanInput`. -/
def cleanPostcode (inputPostcode : List Char) : List Char :=
  toUpperCase (inputPostcode.filter (fun c => !isWhiteSpace c))

/-- Expression
`coverageString.split(/[;,]/).map(area => area.trim()).filter(area => area.length > 0)`
of `matchesPostcodeRange`: the value of `areas`. -/
def coverageTokens (coverageString : List Char) : List (List Char) :=
  ((splitDelimiters coverageString).map trim).filter (fun area => decide (area.length > 0))

/-- Callback of the last `areas.some(...)` of `matchesPostcodeRange`. -/
def rangeCallback (cleanInput area : List Char) : Bool :=
  match matchRange area with
  | some (letters, startNum, endNum) =>
    let start := parseInt startNum
    let end_ := parseInt endNum
    match matchSingle cleanInput with
    | none => decide (cleanInput = toUpperCase area)
    | some (inputLetters, inputNumStr) =>
      let inputNum := parseInt inputNumStr
      decide (inputLetters = letters) && decide (inputNum ≥ start) && decide (inputNum ≤ end_)
  | none =>
    match matchSingle area with
    | some _ => decide (cleanInput = toUpperCase area)
    | none => false

/-- Function `matchesPostcodeRange(inputPostcode, coverageAreas)` on two
strings (`exactMatch`, `partialMatch` and `result` of the source are the
three tests in turn). -/
def matchesPostcodeRange (inputPostcode coverageAreas : List Char) : Bool :=
  if inputPostcode = [] ∨ coverageAreas = [] then false
  else
    let cleanInput := cleanPostcode inputPostcode
    let areas := coverageTokens coverageAreas
    let exactMatch := areas.any (fun area => decide (cleanInput = toUpperCase area))
    if exactMatch then true
    else
      let startMatch := areas.any (fun area => cleanInput.isPrefixOf (toUpperCase area))
      if startMatch then true
      else areas.any (fun area => rangeCallback cleanInput area)

/-! ## The specification of the postcode matcher, in its own words -/

/-- A string of one or more upper-case letters (`LETTERS`). -/
def IsLetters (s : List Char) : Prop := s ≠ [] ∧ ∀ c ∈ s, isUpperAZ c = true

/-- A string of one or more decimal digits (a number). -/
def IsNumber (s : List Char) : Prop := s ≠ [] ∧ ∀ c ∈ s, isDigit c = true

/-- The token is a numeric range `LETTERS start-end` and the cleaned input is
the same `LETTERS` followed by a number `n` with `start ≤ n ≤ end`, the three
numbers being the integers that the digits denote. -/
def InTokenRange (cleanInput token : List Char) : Prop :=
  ∃ letters startNum endNum inputNum : List Char,
    IsLetters letters ∧ IsNumber startNum ∧ IsNumber endNum ∧ IsNumber inputNum
      ∧ token = letters ++ startNum ++ '-' :: endNum
      ∧ cleanInput = letters ++ inputNum
      ∧ decimalValue startNum ≤ decimalValue inputNum
      ∧ decimalValue inputNum ≤ decimalValue endNum

/-- The three ways in which a token covers the cleaned input: it equals the
input ignoring case, it starts with the input ignoring case, or it is a
numeric range that contains the input. -/
def TokenCovers (cleanInput token : List Char) : Prop :=
  toUpperCase token = cleanInput
    ∨ cleanInput <+: toUpperCase token
    ∨ InTokenRange cleanInput token

/-- Character class of the ASCII letters, of either case. -/
def isLetter (c : Char) : Bool :=
  decide (65 ≤ c.toNat ∧ c.toNat ≤ 90) || decide (97 ≤ c.toNat ∧ c.toNat ≤ 122)

/-- The token `LETTERS start-end` written for a range given by its three
parts. -/
def rangeToken (r : List Char × List Char × List Char) : List Char :=
  r.1 ++ r.2.1 ++ '-' :: r.2.2

/-- A range token in the format of the coverage strings: letters, a number,
a hyphen, a number. -/
def IsRange (r : List Char × List Char × List Char) : Prop :=
  IsLetters r.1 ∧ IsNumber r.2.1 ∧ IsNumber r.2.2

/-- A string of ASCII characters. -/
def IsAscii (s : List Char) : Prop := ∀ c ∈ s, c.toNat < 128

/-- The number of a cleaned input is an integer below `2^53`: if the input
is `LETTERS` followed by a number, that number is below `2^53`. -/
def SafeInput (cleanInput : List Char) : Prop :=
  ∀ letters digits : List Char, cleanInput = letters ++ digits → IsLetters letters →
    IsNumber digits → decimalValue digits < 2 ^ 53

/-- The inputs for which the postcode matcher is compared with its
specification: both strings are ASCII, where `toUpperCase` is the mapping of
`upperChar`, and the number of the input is below `2^53`, where the comparisons
of `parseInt` values are comparisons of integers. -/
def PostcodeDomain (inputPostcode coverageAreas : List Char) : Prop :=
  IsAscii inputPostcode ∧ IsAscii coverageAreas ∧ SafeInput (cleanPostcode inputPostcode)

/-! ## Paginated queries to the host -/

/-- Field `info` of a response of `ZOHO.CRM.API.coql`; `more_records` may
be absent. -/
structure CoqlInfo where
  more_records : Option Bool
deriving DecidableEq, Repr

/-- A response of `ZOHO.CRM.API.coql` with records of type `α`; `data` and
`info` may be absent. -/
structure CoqlResponse (α : Type) where
  data : Option (List α)
  info : Option CoqlInfo
deriving Repr

/-- The host behind `ZOHO.CRM.API.coql`: what the `n`-th call (counted from
0) answers to a query, a rejection (`error`) or a response.  The answer may
depend on the query and on the number of earlier calls in any way. -/
abbrev CoqlHost (α : Type) := Nat → String → Except String (CoqlResponse α)

/-- Value returned by `loadFitters` and `loadOrdersForDateRange`: the field
`data` and the fields `total_count` and `pages_loaded` of `info`. -/
structure LoadedRecords (α : Type) where
  data : List α
  total_count : Nat
  pages_loaded : Nat
deriving Repr

/-- Run of a page loop: the queries sent to the host, in order, and either
the value returned or the message of the error thrown. -/
structure LoadRun (α : Type) where
  queries : List String
  outcome : Except String (LoadedRecords α)

/-- Expression `response.info?.more_records || false`, as a truth value. -/
def moreRecords {α : Type} (response : CoqlResponse α) : Bool :=
  match response.info with
  | some info => info.more_records.getD false
  | none => false

/-- Loop `while (hasMoreRecords) { ... }` shared, word for word, by
`loadFitters` and `loadOrdersForDateRange`, from the state `allRecords`,
`currentPage`, `hasMoreRecords`; `selectQuery` builds the query of a page,
`failure` is the text put before the message of a caught error and `queries`
the queries sent so far. -/
def pageLoop {α : Type} (host : CoqlHost α) (selectQuery : Nat → String) (failure : String)
    (allRecords : List α) (currentPage : Nat) (hasMoreRecords : Bool)
    (queries : List String) : LoadRun α :=
  if hasMoreRecords then
    let coqlQuery := selectQuery currentPage
    match host queries.length coqlQuery with
    | .error message =>
      { queries := queries ++ [coqlQuery], outcome := .error (failure ++ message) }
    | .ok response =>
      let allRecords :=
        match response.data with
        | some data => if data.length > 0 then allRecords ++ data else allRecords
        | none => allRecords
      let hasMoreRecords := moreRecords response
      let currentPage := currentPage + 1
      if currentPage > 50 then
        { queries := queries ++ [coqlQuery]
          outcome := .ok { data := allRecords, total_count := allRecords.length,
                           pages_loaded := currentPage - 1 } }
      else
        pageLoop host selectQuery failure allRecords currentPage hasMoreRecords
          (queries ++ [coqlQuery])
  else
    { queries := queries
      outcome := .ok { data := allRecords, total_count := allRecords.length,
                       pages_loaded := currentPage - 1 } }
termination_by 51 - currentPage
decreasing_by omega

/-- Query of page `currentPage` in `loadFitters`. -/
def fittersQuery (currentPage : Nat) : String :=
  "select id,First_Name,Last_Name,Email,Home_Phone,Mobile,Fitter_Skillset_2,"
    ++ "Skills_They_Can_t_Do,Postcode_Area_New,Work_Consistency,Insurance_Status,PL_Date,"
    ++ "PL_Insurance_Number,Fitter_Status,Terms_Masdouk from Contacts where "
    ++ "(Fitter_Status = 'Live + Current' or "
    ++ "Fitter_Status = 'Live + Current (To Be Audited)') limit 200 offset "
    ++ toString ((currentPage - 1) * 200)

/-- Query of page `currentPage` in `loadOrdersForDateRange`. -/
def ordersQuery (startDate endDate : String) (currentPage : Nat) : String :=
  "select id,Fitter,Lead,Job_Type,Start_Date,Customer_Name,Postcode,Street,Mobile,Showroom,"
    ++ "Designer,Surveyor,Grand_Total,Balance from Ordering where Start_Date >= '"
    ++ startDate ++ "' and Start_Date <= '" ++ endDate ++ "' limit 200 offset "
    ++ toString ((currentPage - 1) * 200)

/-- Function `loadFitters()`. -/
def loadFitters {α : Type} (host : CoqlHost α) : LoadRun α :=
  pageLoop host fittersQuery "Failed to load fitters: " [] 1 true []

/-- Function `loadOrdersForDateRange(startDate, endDate)`. -/
def loadOrdersForDateRange {α : Type} (host : CoqlHost α) (startDate endDate : String) :
    LoadRun α :=
  pageLoop host (ordersQuery startDate endDate) "Failed to load orders for date range: " [] 1
    true []

/-- An answer of the host reports `more_records`: it is a response whose
`info.more_records` is true. -/
def reportsMore {α : Type} (answer : Except String (CoqlResponse α)) : Bool :=
  match answer with
  | .ok response => moreRecords response
  | .error _ => false

/-! ## Case and substrings -/

/-- Lower-case form of one character.  Only the letters `A` to `Z` are
mapped; the case mapping of characters outside ASCII is not modelled. -/
def lowerChar (c : Char) : Char :=
  if 65 ≤ c.toNat ∧ c.toNat ≤ 90 then Char.ofNat (c.toNat + 32) else c

/-- Method `toLowerCase()`. -/
def toLowerCase (s : List Char) : List Char := s.map lowerChar

/-- Method `s.includes(t)`: `t` occurs in `s` as a run of consecutive
characters. -/
def includes (s t : List Char) : Bool := s.tails.any (fun u => t.isPrefixOf u)

/-! ## Records of the widget -/

/-- A value of a lookup field of a host record (`Fitter`, `Lead`, `Designer`,
`Surveyor`): absent, `null`, a string, or an object with optional `id` and
`name`. -/
inductive FieldValue where
  | undefined
  | null
  | text (s : String)
  | record (id : Option String) (name : Option String)
deriving DecidableEq, Repr

/-- Truth value of an optional string: present and not empty. -/
def truthy (s : Option String) : Bool :=
  match s with
  | some v => decide (v ≠ "")
  | none => false

/-- Expression `v || fallback` on an optional string. -/
def orElseText (s : Option String) (fallback : String) : String :=
  match s with
  | some v => if v ≠ "" then v else fallback
  | none => fallback

/-- Expression `field?.id || field`: the `id` of an object when it has one,
the value itself otherwise. -/
def idOrSelf (field : FieldValue) : FieldValue :=
  match field with
  | .record (some id) _ => if id ≠ "" then .text id else field
  | _ => field

/-- Conversion of a field value to a string inside a template literal. -/
def FieldValue.toText (v : FieldValue) : String :=
  match v with
  | .undefined => "undefined"
  | .null => "null"
  | .text s => s
  | .record _ _ => "[object Object]"

/-- Truth value of a field value. -/
def FieldValue.truthy (v : FieldValue) : Bool :=
  match v with
  | .undefined => false
  | .null => false
  | .text s => decide (s ≠ "")
  | .record _ _ => true

/-- A value of a data field of a fitter that the host gives as a string or
as a list of strings (`Skills_They_Can_t_Do`, `Fitter_Skillset_2`): absent,
`null`, a string, or a list. -/
inductive FieldData where
  | undefined
  | null
  | text (s : String)
  | list (items : List String)
deriving DecidableEq, Repr

/-- An element of the global array `fitters`, as built by
`processFittersData` (which keeps `Skills_They_Can_t_Do` as the host gives
it) or by `loadDemoData`; a field that a demo fitter lacks is the empty
string. -/
structure Fitter where
  id : String
  firstName : String
  lastName : String
  name : String
  email : String
  phone : String
  skillset : String
  skillsShortage : FieldData
  postcodesCovered : String
  workConsistency : String
  insuranceStatus : String
  plDate : String
  plInsuranceNo : String
  termsMasdouk : String
  fitterStatus : String
deriving DecidableEq, Repr

/-- A record of the module `Ordering` as the host returns it; every field
but `id` may be absent. -/
structure OrderRecord where
  id : String
  Fitter : FieldValue
  Lead : FieldValue
  Job_Type : Option String
  Start_Date : Option String
  Customer_Name : Option String
  Postcode : Option String
  Street : Option String
  Mobile : Option String
  Showroom : Option String
  Designer : FieldValue
  Surveyor : FieldValue
  Grand_Total : Option String
  Balance : Option String
deriving DecidableEq, Repr

/-- An element of the global array `orders`, as built by
`processOrdersData`. -/
structure Order where
  id : String
  title : String
  fitterId : FieldValue
  fitterName : String
  customerName : String
  jobType : String
  postcode : String
  address : String
  mobile : String
  showroom : String
  designer : FieldValue
  surveyor : FieldValue
  goods : String
  install : String
  fitterPostcode : String
  fitterWorkConsistency : String
  date : String
  startTime : String
  endTime : String
  meetingType : String
  meetingStatus : String
deriving DecidableEq, Repr

/-- Argument of `processOrdersData`: only its field `data` is read, and it
may be absent. -/
structure OrdersResponse where
  data : Option (List OrderRecord)
deriving Repr

/-- What `processOrdersData` takes from the runtime: the date of today as
`new Date().toISOString().split('T')[0]` gives it, and the text
`parseFloat(x).toFixed(2)` of an amount (floating point, not modelled). -/
structure Runtime where
  todayISO : String
  toFixed2 : String → String

/-- An element of the global array `holidays`, as built by
`loadHolidaysData`. -/
structure Holiday where
  fitterId : String
  fitterName : String
  holidayId : String
  title : String
  status : String
  activeStatus : String
  weekCommencing : Option String
  createdTime : Option String
  modifiedTime : Option String
deriving DecidableEq, Repr

/-- The global object `filters`. -/
structure Filters where
  fitter : String
  customer : String
  jobType : String
  skillset : String
  skillsShortage : List String
  postcode : String
deriving DecidableEq, Repr

/-- The global variables of the widget that the functions below read or
write; `currentDate` is a time value. -/
structure State where
  fitters : List Fitter
  orders : List Order
  holidays : List Holiday
  filters : Filters
  currentDate : Int
  weekOffset : Int

/-- Customer name of an order in `processOrdersData`: `Customer_Name`, else
what `Lead` gives, else `Unknown Customer`. -/
def customerNameOf (order : OrderRecord) : String :=
  if truthy order.Customer_Name then order.Customer_Name.getD ""
  else
    match order.Lead with
    | .text s => if s ≠ "" then s else "Unknown Customer"
    | .record id name =>
      if truthy name then name.getD ""
      else if truthy id then "Customer " ++ id.getD ""
      else "Unknown Customer"
    | _ => "Unknown Customer"

/-- Date of an order in `processOrdersData`: `Start_Date` up to its first
`T`, or today when there is none. -/
def orderDateOf (rt : Runtime) (order : OrderRecord) : String :=
  if truthy order.Start_Date then
    let orderDate := order.Start_Date.getD ""
    if orderDate.contains 'T' then (orderDate.splitOn "T").headD "" else orderDate
  else rt.todayISO

/-- Amount of an order in `processOrdersData`. -/
def amountOf (rt : Runtime) (amount : Option String) : String :=
  if truthy amount then "£" ++ rt.toFixed2 (amount.getD "") else "£0.00"

/-- Expression `field?.id || field || null` of `processOrdersData`. -/
def idOrSelfOrNull (field : FieldValue) : FieldValue :=
  if (idOrSelf field).truthy then idOrSelf field else .null

/-- Callback of the `map` in `processOrdersData`: the order built from one
record, with the global `fitters`. -/
def processOrder (rt : Runtime) (fitters : List Fitter) (order : OrderRecord) : Order :=
  let fitterId := idOrSelf order.Fitter
  let fitter := fitters.find? (fun f => decide (FieldValue.text f.id = fitterId))
  let customerName := customerNameOf order
  let orderDate := orderDateOf rt order
  let processedPostcode := orElseText order.Postcode ""
  { id := order.id
    title := customerName ++ " - " ++ orElseText order.Job_Type "Installation"
    fitterId := fitterId
    fitterName := orElseText (fitter.map (fun f => f.name)) ("Fitter " ++ fitterId.toText)
    customerName := customerName
    jobType := orElseText order.Job_Type "Installation"
    postcode := processedPostcode
    address := orElseText order.Street ""
    mobile := orElseText order.Mobile ""
    showroom := orElseText order.Showroom ""
    designer := idOrSelfOrNull order.Designer
    surveyor := idOrSelfOrNull order.Surveyor
    goods := amountOf rt order.Grand_Total
    install := amountOf rt order.Balance
    fitterPostcode := orElseText (fitter.map (fun f => f.postcodesCovered)) ""
    fitterWorkConsistency := orElseText (fitter.map (fun f => f.workConsistency)) ""
    date := orderDate
    startTime := "09:00"
    endTime := "17:00"
    meetingType := "Installation"
    meetingStatus := "Scheduled" }

/-- Function `processOrdersData(ordersResponse)`: the assignment
`orders = (ordersResponse.data || []).map(...)` on the global state. -/
def processOrdersData (rt : Runtime) (s : State) (ordersResponse : OrdersResponse) : State :=
  { s with orders := (ordersResponse.data.getD []).map (processOrder rt s.fitters) }

/-- The object assigned to `filters` at the start, by `initializeCalendar`
and by `clearAllFilters`. -/
def noFilters : Filters :=
  { fitter := "", customer := "", jobType := "", skillset := "", skillsShortage := []
    postcode := "" }

/-- The global variables as they are declared: empty arrays, no filters,
`currentDate = new Date()` and `weekOffset = 0`. -/
def initialState (now : Int) : State :=
  { fitters := [], orders := [], holidays := [], filters := noFilters, currentDate := now
    weekOffset := 0 }

/-! ## Skills shortage strings -/

/-- Loop `for (let i = 0; i < str.length; i++) { ... }` of
`parseSkillsShortageString` over the characters still to read, from the state
`result`, `current`, `parenCount`; gives `result` and `current` at the end of
the loop. -/
def parseLoop : List Char → List (List Char) → List Char → Int →
    List (List Char) × List Char
  | [], result, current, _ => (result, current)
  | char :: rest, result, current, parenCount =>
    if char = '(' then parseLoop rest result (current ++ [char]) (parenCount + 1)
    else if char = ')' then parseLoop rest result (current ++ [char]) (parenCount - 1)
    else if char = ',' ∧ parenCount = 0 then
      if trim current ≠ [] then parseLoop rest (result ++ [trim current]) [] parenCount
      else parseLoop rest result current parenCount
    else parseLoop rest result (current ++ [char]) parenCount

/-- Statement `if (current.trim()) { result.push(current.trim()); }`: the
new value of `result`. -/
def pushCurrent (result : List (List Char)) (current : List Char) : List (List Char) :=
  if trim current ≠ [] then result ++ [trim current] else result

/-- Function `parseSkillsShortageString(str)`. -/
def parseSkillsShortageString (str : List Char) : List (List Char) :=
  let state := parseLoop str [] [] 0
  let result := pushCurrent state.1 state.2
  result.filter (fun item => decide (item.length > 0))

/-! ## The specification of the skills shortage parser, in its own words -/

/-- Parenthesis depth after the character `c` read at depth `depth`. -/
def depthAfter (depth : Nat) (c : Char) : Nat :=
  if c = '(' then depth + 1 else if c = ')' then depth - 1 else depth

/-- The parentheses of the string are balanced, read from depth `depth`:
no closing parenthesis comes at depth 0 and the depth is 0 at the end. -/
def balancedFrom : Nat → List Char → Bool
  | depth, [] => decide (depth = 0)
  | depth, c :: cs =>
    if c = ')' ∧ depth = 0 then false else balancedFrom (depthAfter depth c) cs

/-- The segments obtained by cutting the string, read from depth `depth`, at
the commas at parenthesis depth 0. -/
def topLevelSegments : Nat → List Char → List (List Char)
  | _, [] => [[]]
  | depth, c :: cs =>
    if c = ',' ∧ depth = 0 then [] :: topLevelSegments depth cs
    else
      match topLevelSegments (depthAfter depth c) cs with
      | [] => [[c]]
      | seg :: segs => (c :: seg) :: segs

/-- The trimmed non-empty segments of a list of segments, in order. -/
def trimmedNonEmpty (segments : List (List Char)) : List (List Char) :=
  (segments.map trim).filter (fun item => decide (item ≠ []))

/-! ## Filtering and display -/

/-- Expression
`text.split(/[;,]/).map(s => s.trim().toLowerCase()).filter(s => s.length > 0)`
of `filterFitters`. -/
def shortagesOfText (text : List Char) : List (List Char) :=
  ((splitDelimiters text).map (fun s => toLowerCase (trim s))).filter
    (fun s => decide (s.length > 0))

/-- Value of `shortages` in `filterFitters` for `fitter.skillsShortage`: an
absent value is replaced by the empty string, a list is taken apart with
`parseSkillsShortageString`, a string is split on `;` and `,`. -/
def shortagesOf (skillsShortage : FieldData) : List (List Char) :=
  match skillsShortage with
  | .list items =>
    (items.flatMap (fun item => (parseSkillsShortageString item.toList).map toLowerCase)).filter
      (fun s => decide (s.length > 0))
  | .text text => shortagesOfText text.toList
  | _ => shortagesOfText []

/-- Value of `hasAnySelectedShortage` in `filterFitters`. -/
def hasAnySelectedShortage (selected : List String) (shortages : List (List Char)) : Bool :=
  selected.any (fun selectedShortage =>
    shortages.any (fun shortage =>
      includes (toLowerCase shortage) (toLowerCase selectedShortage.toList)
        || includes (toLowerCase selectedShortage.toList) (toLowerCase shortage)))

/-- Callback of `fitters.filter(...)` in the statement that `filterFitters`
returns. -/
def passesFilters (s : State) (fitter : Fitter) : Bool :=
  if s.filters.fitter ≠ "" ∧ fitter.name ≠ s.filters.fitter then false
  else if s.filters.skillset ≠ "" ∧ (fitter.skillset = ""
      ∨ includes (toLowerCase fitter.skillset.toList) (toLowerCase s.filters.skillset.toList)
          = false) then false
  else if s.filters.skillsShortage.length > 0
      ∧ hasAnySelectedShortage s.filters.skillsShortage (shortagesOf fitter.skillsShortage)
          = true then false
  else if s.filters.postcode ≠ ""
      ∧ matchesPostcodeRange s.filters.postcode.toList fitter.postcodesCovered.toList
          = false then false
  else if s.filters.customer ≠ ""
      ∧ (s.orders.filter (fun order => decide (order.fitterId = FieldValue.text fitter.id)
          && decide (order.customerName = s.filters.customer))).length = 0 then false
  else if s.filters.jobType ≠ ""
      ∧ (s.orders.filter (fun order => decide (order.fitterId = FieldValue.text fitter.id)
          && decide (order.jobType = s.filters.jobType))).length = 0 then false
  else true

/-- Function `filterFitters()`: its first statement returns. -/
def filterFitters (s : State) : List Fitter :=
  s.fitters.filter (passesFilters s)

/-- Value of `filteredOrders` in `updateCounts`: the orders that are
counted. -/
def countedOrders (s : State) : List Order :=
  s.orders.filter (fun order =>
    match s.fitters.find? (fun f => decide (FieldValue.text f.id = order.fitterId)) with
    | none => false
    | some fitter =>
      if s.filters.fitter ≠ ""
          ∧ includes (toLowerCase fitter.name.toList) (toLowerCase s.filters.fitter.toList)
              = false then false
      else if s.filters.customer ≠ "" ∧ order.customerName ≠ s.filters.customer then false
      else if s.filters.jobType ≠ "" ∧ order.jobType ≠ s.filters.jobType then false
      else if s.filters.skillset ≠ "" ∧ (fitter.skillset = ""
          ∨ includes (toLowerCase fitter.skillset.toList) (toLowerCase s.filters.skillset.toList)
              = false) then false
      else true)

/-- Function `updateCounts()`: the text written into the element
`eventCount`. -/
def updateCounts (s : State) : String :=
  toString (countedOrders s).length ++ " orders"

/-- Method `sort(compare)` of an array.  The method is a stable sort, and
with a consistent comparator every stable sort gives the same array; it is
taken here as the insertion sort. -/
def sortBy {α : Type} (compare : α → α → Int) (l : List α) : List α :=
  l.insertionSort (fun a b => compare a b ≤ 0)

/-- Comparator of `filteredFitters.sort(...)` in `updateCalendarBody`;
`localeCompare` is the method of that name of the runtime. -/
def compareFitters (localeCompare : String → String → Int) (a b : Fitter) : Int :=
  if a.name = "Unassigned Fitter" ∧ b.name ≠ "Unassigned Fitter" then -1
  else if b.name = "Unassigned Fitter" ∧ a.name ≠ "Unassigned Fitter" then 1
  else if a.name = "Supply Only" ∧ b.name ≠ "Supply Only" ∧ b.name ≠ "Unassigned Fitter" then -1
  else if b.name = "Supply Only" ∧ a.name ≠ "Supply Only" ∧ a.name ≠ "Unassigned Fitter" then 1
  else localeCompare a.name b.name

/-- Comparator of `weekOrders.sort(...)` in `createWeekCell`. -/
def compareOrders (localeCompare : String → String → Int) (a b : Order) : Int :=
  let dateCompare := localeCompare a.date b.date
  if dateCompare ≠ 0 then dateCompare else localeCompare a.startTime b.startTime

/-- Expression `new Date(text)` for the text `YYYY-MM-DD` of a calendar
date: midnight of that day in UTC. -/
def dateOfISO (c : CivilDate) : Int := c.toDay * msPerDay

/-- Function `createWeekCell(fitter, week)`: the orders for which an element
is put into the cell, in order.  `parseDate` is `new Date(text)` of the
runtime on the date of an order, `none` for an invalid date. -/
def createWeekCell (parseDate : String → Option Int) (localeCompare : String → String → Int)
    (s : State) (fitter : Fitter) (week : WeekDescriptor) : List Order :=
  let weekOrders := s.orders.filter (fun order =>
    if order.fitterId ≠ FieldValue.text fitter.id then false
    else
      let weekStart := dateOfISO week.weekStart
      let weekEnd := dateOfISO week.weekEnd
      match parseDate order.date with
      | none => false
      | some orderDate =>
        if ¬ (orderDate ≥ weekStart ∧ orderDate ≤ weekEnd) then false
        else if s.filters.customer ≠ ""
            ∧ includes (toLowerCase order.customerName.toList)
                (toLowerCase s.filters.customer.toList) = false then false
        else if s.filters.jobType ≠ ""
            ∧ includes (toLowerCase order.jobType.toList)
                (toLowerCase s.filters.jobType.toList) = false then false
        else true)
  sortBy (compareOrders localeCompare) weekOrders

/-- Function `createFitterRow(fitter, weeks)`: the cells of the row. -/
def createFitterRow (parseDate : String → Option Int) (localeCompare : String → String → Int)
    (s : State) (fitter : Fitter) (weeks : List WeekDescriptor) : List (List Order) :=
  weeks.map (fun week => createWeekCell parseDate localeCompare s fitter week)

/-- Function `updateCalendarBody(weeks)`: the rows put into the calendar
body, each with its fitter and the orders of its cells. -/
def updateCalendarBody (parseDate : String → Option Int)
    (localeCompare : String → String → Int) (s : State) (weeks : List WeekDescriptor) :
    List (Fitter × List (List Order)) :=
  let filteredFitters := filterFitters s
  let sortedFitters := sortBy (compareFitters localeCompare) filteredFitters
  sortedFitters.map (fun fitter =>
    (fitter, createFitterRow parseDate localeCompare s fitter weeks))

/-! ## The filters, in the words of the specification -/

/-- The items of a comma/semicolon-delimited string: its segments between
delimiters, trimmed, the empty ones left out. -/
def delimitedItems (text : List Char) : List (List Char) :=
  trimmedNonEmpty (splitDelimiters text)

/-- A comparator is consistent: its sign is antisymmetric and the relation
`compare a b ≤ 0` is transitive. -/
def ConsistentComparator {α : Type} (compare : α → α → Int) : Prop :=
  (∀ a b, compare a b < 0 ↔ 0 < compare b a)
    ∧ (∀ a b c, compare a b ≤ 0 → compare b c ≤ 0 → compare a c ≤ 0)

/-- Comparison of two strings by their characters, a consistent
`localeCompare`. -/
def compareText (a b : String) : Int :=
  if a < b then -1 else if a = b then 0 else 1

/-! ## Audit status -/

/-- The argument of `calculateAuditStatus`: the eight fields of a fitter that
the function reads.  The skill set and the skills shortage may be absent, a
string or a list; the other fields may be absent or a string. -/
structure FitterRecord where
  skillset : FieldData
  postcodesCovered : Option String
  skillsShortage : FieldData
  workConsistency : Option String
  termsMasdouk : Option String
  insuranceStatus : Option String
  plInsuranceNo : Option String
  plDate : Option String
deriving DecidableEq, Repr

/-- Function `isDataAvailable(value)`, as a truth value. -/
def isDataAvailable (value : Option String) : Bool :=
  match value with
  | none => false
  | some v =>
    decide (v ≠ "") && decide (v ≠ "N/A") && decide (v ≠ "Not Set")
      && decide (v ≠ "Not specified") && decide (v ≠ "Not provided")

/-- Function `calculateAuditStatus(fitter)`. -/
def calculateAuditStatus (fitter : FitterRecord) : String :=
  let hasSkillset :=
    match fitter.skillset with
    | .list items => decide (items.length > 0)
    | .text s =>
      if s ≠ "" then decide (trim s.toList ≠ []) && decide (s ≠ "Missing Data") else false
    | _ => false
  let hasPostcodeArea := isDataAvailable fitter.postcodesCovered
  let hasSkillsShortage :=
    match fitter.skillsShortage with
    | .list _ => true
    | .text s => decide (s ≠ "Missing Data")
    | _ => false
  let hasWorkConsistency := isDataAvailable fitter.workConsistency
  let hasTermsConditions := isDataAvailable fitter.termsMasdouk
  let hasInsuranceStatus := isDataAvailable fitter.insuranceStatus
  let hasInsuranceDetails :=
    isDataAvailable fitter.plInsuranceNo && isDataAvailable fitter.plDate
  if !hasSkillset || !hasPostcodeArea || !hasSkillsShortage || !hasWorkConsistency
      || !hasTermsConditions || !hasInsuranceStatus || !hasInsuranceDetails then
    "incomplete"
  else "complete"

/-! ## The audited items, in the words of the specification -/

/-- The texts that stand for missing data in a field. -/
def missingDataTexts : List String := ["", "N/A", "Not Set", "Not specified", "Not provided"]

/-- An item is present: the field has a value and it is none of the texts
that stand for missing data. -/
def IsPresent (value : Option String) : Prop :=
  ∃ v, value = some v ∧ v ∉ missingDataTexts

/-- A non-empty skillset: a list with at least one element, or a string with
a character that is not white space, other than the text `Missing Data`. -/
def NonEmptySkillset (skillset : FieldData) : Prop :=
  match skillset with
  | .list items => items ≠ []
  | .text s => (∃ c ∈ s.toList, isWhiteSpace c = false) ∧ s ≠ "Missing Data"
  | _ => False

/-- A skills-shortage field is present: a list or a string, empty or not,
other than the text `Missing Data`. -/
def ShortageFieldPresent (skillsShortage : FieldData) : Prop :=
  match skillsShortage with
  | .list _ => True
  | .text s => s ≠ "Missing Data"
  | _ => False

/-- All seven audited items of a fitter are present. -/
def AllItemsPresent (fitter : FitterRecord) : Prop :=
  NonEmptySkillset fitter.skillset
    ∧ IsPresent fitter.postcodesCovered
    ∧ ShortageFieldPresent fitter.skillsShortage
    ∧ IsPresent fitter.workConsistency
    ∧ IsPresent fitter.termsMasdouk
    ∧ IsPresent fitter.insuranceStatus
    ∧ (IsPresent fitter.plInsuranceNo ∧ IsPresent fitter.plDate)

/-! ## Calendar navigation -/

/-- Function `goToPreviousWeek()`: the assignment `weekOffset -= 98`.  The
display is then redrawn from the new state, and the orders of the new range
are loaded later, when the host answers. -/
def goToPreviousWeek (s : State) : State :=
  { s with weekOffset := s.weekOffset - 98 }

/-- Function `goToNextWeek()`: the assignment `weekOffset += 98`. -/
def goToNextWeek (s : State) : State :=
  { s with weekOffset := s.weekOffset + 98 }

/-- The grid shown for a state: `getThreeWeekDays()` on its `currentDate`
and `weekOffset`. -/
def gridOf (tza today : Int) (s : State) : List WeekDescriptor :=
  getThreeWeekDays tza s.currentDate s.weekOffset today

/-! ## Holidays -/

/-- A record of the related list `Fitter1` as the host returns it. -/
structure HolidayRecord where
  id : String
  Name : Option String
  name : Option String
  Status : Option String
  status : Option String
  Active_Status : Option String
  active_status : Option String
  Week_Commencing : Option String
  Created_Time : Option String
  Modified_Time : Option String
deriving DecidableEq, Repr

/-- A response of `ZOHO.CRM.API.getRelatedRecords`; `data` may be absent. -/
structure RelatedResponse where
  data : Option (List HolidayRecord)
deriving Repr

/-- The host behind `ZOHO.CRM.API.getRelatedRecords`: what the `n`-th call
(counted from 0) answers for a record id, a rejection (`error`), no response
object (`none`) or a response. -/
abbrev RelatedHost := Nat → String → Except String (Option RelatedResponse)

/-- Callback of `fitters.map(async (fitter) => ...)` in `loadHolidaysData`:
the holidays of one fitter, the `n`-th of the array. -/
def holidaysOfFitter (host : RelatedHost) (n : Nat) (fitter : Fitter) : List Holiday :=
  match host n fitter.id with
  | .error _ => []
  | .ok none => []
  | .ok (some response) =>
    match response.data with
    | none => []
    | some data =>
      if data.length > 0 then
        data.map (fun holiday =>
          { fitterId := fitter.id
            fitterName := fitter.name
            holidayId := holiday.id
            title := orElseText holiday.Name (orElseText holiday.name "Holiday")
            status := orElseText holiday.Status (orElseText holiday.status "On Holiday")
            activeStatus :=
              orElseText holiday.Active_Status (orElseText holiday.active_status "Booked")
            weekCommencing := holiday.Week_Commencing
            createdTime := holiday.Created_Time
            modifiedTime := holiday.Modified_Time })
      else []

/-- Function `loadHolidaysData()`: the state when its promise is settled. -/
def loadHolidaysData (host : RelatedHost) (s : State) : State :=
  if s.fitters.length = 0 then s
  else
    let allHolidays := s.fitters.enum.map (fun p => holidaysOfFitter host p.1 p.2)
    let allHolidaysFlat := allHolidays.flatten
    { s with holidays := allHolidaysFlat.filter (fun holiday => holiday.activeStatus = "Booked") }

/-- Function `refreshCalendarData()`: the holidays are loaded again, then the
display is redrawn. -/
def refreshCalendarData (host : RelatedHost) (s : State) : State :=
  loadHolidaysData host s

/-- An element of `data` in a response of `ZOHO.CRM.API.updateRecord`. -/
structure UpdateResult where
  status : Option String
deriving DecidableEq, Repr

/-- A response of `ZOHO.CRM.API.updateRecord`. -/
structure UpdateResponse where
  data : Option (List UpdateResult)
deriving DecidableEq, Repr

/-- Function `deleteHoliday(holidayId, fitterId)`: the state when its promise
is settled.  `confirmed` is the answer to the dialog, `updateAnswer` the
answer of the host to `updateRecord` (a rejection, no response object, or a
response) and `host` answers the queries of the reload. -/
def deleteHoliday (confirmed : Bool) (updateAnswer : Except String (Option UpdateResponse))
    (host : RelatedHost) (holidayId : String) (s : State) : State :=
  if !confirmed then s
  else
    match updateAnswer with
    | .error _ => s
    | .ok none => s
    | .ok (some response) =>
      match response.data with
      | some (result :: _) =>
        if result.status = some "success" then
          refreshCalendarData host
            { s with holidays := s.holidays.filter (fun holiday => holiday.holidayId ≠ holidayId) }
        else s
      | _ => s

/-- Every holiday of the list has `activeStatus` equal to `Booked`. -/
def AllBooked (holidays : List Holiday) : Prop :=
  ∀ holiday ∈ holidays, holiday.activeStatus = "Booked"

/-! ## Demo data -/

/-- A fitter of the demo data: the six fields that `loadDemoData` gives. -/
def demoFitter (id name skillset skillsShortage postcodesCovered workConsistency : String) :
    Fitter :=
  { id := id, firstName := "", lastName := "", name := name, email := "", phone := ""
    skillset := skillset, skillsShortage := .text skillsShortage
    postcodesCovered := postcodesCovered, workConsistency := workConsistency
    insuranceStatus := "", plDate := "", plInsuranceNo := "", termsMasdouk := ""
    fitterStatus := "" }

/-- The array assigned to `fitters` by `loadDemoData`. -/
def demoFitters : List Fitter :=
  [ demoFitter "unassigned" "Unassigned Fitter" "General" "" "All" "N/A",
    demoFitter "supply" "Supply Only" "Supply" "" "All" "N/A",
    demoFitter "1" "Aaron Cartwright" "Tiled Bathrooms, Wetwall Bathrooms"
      "Complex (Pumps, Wetrooms)" "G1-80" "High",
    demoFitter "2" "David Hamilton" "Tiled Bathrooms" "" "EH1-55" "Medium",
    demoFitter "3" "Stephen Clark" "Laminate Kitchens, Mistral Kitchens"
      "Painting (Painting, Wallpapering)" "FK1-20" "High",
    demoFitter "4" "David Shaw" "Tiled Bathrooms" "" "G12, EH6" "Low",
    demoFitter "5" "David McLellan" "Tiled Bathrooms, Wetwall Bathrooms" "" "FK15" "Medium",
    demoFitter "6" "Craig Feeney" "Tiled Bathrooms, Wetwall Bathrooms" "" "ML1-10" "High",
    demoFitter "7" "Kieron Scullion" "Laminate Kitchens, Mistral" "" "G1-80" "Medium",
    demoFitter "8" "Stevie Watson EH" "Tiled Bathrooms, Wetwall Bathrooms" "" "EH1-55" "Low" ]

/-- Decimal text of a natural number, with zeros in front up to `width`
digits. -/
def padZeros (width n : Nat) : String :=
  String.mk (List.replicate (width - (Nat.toDigits 10 n).length) '0' ++ Nat.toDigits 10 n)

/-- The text `YYYY-MM-DD` of a calendar date, as in
`d.toISOString().split('T')[0]`; a year outside 0..9999 is written with a
sign and six digits. -/
def isoDateString (c : CivilDate) : String :=
  let year :=
    if 0 ≤ c.year ∧ c.year ≤ 9999 then padZeros 4 c.year.toNat
    else (if c.year < 0 then "-" else "+") ++ padZeros 6 c.year.natAbs
  year ++ "-" ++ padZeros 2 c.month.toNat ++ "-" ++ padZeros 2 c.dayOfMonth.toNat

/-- An order of the demo data: the fields that `loadDemoData` gives; the
other fields are absent. -/
def demoOrder (id title fitterId fitterName customerName jobType postcode date : String) :
    Order :=
  { id := id, title := title, fitterId := .text fitterId, fitterName := fitterName
    customerName := customerName, jobType := jobType, postcode := postcode
    address := "", mobile := "", showroom := "", designer := .undefined
    surveyor := .undefined, goods := "", install := "", fitterPostcode := ""
    fitterWorkConsistency := "", date := date, startTime := "09:00", endTime := "17:00"
    meetingType := "Installation", meetingStatus := "Scheduled" }

/-- The array assigned to `orders` by `loadDemoData`, at the instant
`today`. -/
def demoOrders (tza today : Int) : List Order :=
  let currentWeekStart := setDate tza today (getDate tza today - getDay tza today + 1)
  [ demoOrder "1" "Henderson - Kitchen Installation" "1" "Aaron Cartwright" "Henderson"
      "Kitchen" "EH10 5PF"
      (isoDateString (toISODate (currentWeekStart + 7 * 24 * 60 * 60 * 1000))),
    demoOrder "2" "Crawford - Bathroom Installation" "2" "David Hamilton" "Crawford"
      "Bathroom" "ML6 7QN"
      (isoDateString (toISODate (currentWeekStart + 14 * 24 * 60 * 60 * 1000))),
    demoOrder "3" "Smith - Kitchen Installation" "3" "Stephen Clark" "Smith"
      "Kitchen" "G12 8AB"
      (isoDateString (toISODate (currentWeekStart + 21 * 24 * 60 * 60 * 1000))) ]

/-- Function `loadDemoData()`: the two assignments to `fitters` and `orders`;
the rest of the function redraws the display. -/
def loadDemoData (tza today : Int) (s : State) : State :=
  { s with fitters := demoFitters, orders := demoOrders tza today }

/-- Object `ZOHO.CRM.API`: whether it has a member `coql`. -/
structure ZohoApi where
  coql : Bool
deriving DecidableEq, Repr

/-- Object `ZOHO.CRM`; `API` may be absent. -/
structure ZohoCrm where
  API : Option ZohoApi
deriving DecidableEq, Repr

/-- The global `ZOHO` when it is defined: whether it has a member
`embeddedApp`, and its member `CRM`, which may be absent. -/
structure ZohoSdk where
  embeddedApp : Bool
  CRM : Option ZohoCrm
deriving DecidableEq, Repr

/-- Condition
`typeof ZOHO !== 'undefined' && ZOHO.embeddedApp && ZOHO.CRM && ZOHO.CRM.API && ZOHO.CRM.API.coql`
of `loadCalendarData`; `none` is an undefined `ZOHO`. -/
def sdkReady (zoho : Option ZohoSdk) : Bool :=
  match zoho with
  | none => false
  | some sdk =>
    sdk.embeddedApp &&
      (match sdk.CRM with
       | none => false
       | some crm =>
         match crm.API with
         | none => false
         | some api => api.coql)

/-- What `loadCalendarData` has done when it returns: the state, and whether
it has called `loadRealData`, whose work goes on after the return, when the
host answers. -/
structure CalendarLoad where
  state : State
  realDataRequested : Bool

/-- Function `loadCalendarData()`. -/
def loadCalendarData (zoho : Option ZohoSdk) (tza today : Int) (s : State) : CalendarLoad :=
  if sdkReady zoho then { state := s, realDataRequested := true }
  else { state := loadDemoData tza today s, realDataRequested := false }

/-- The host SDK is unavailable: `ZOHO` is undefined, or `embeddedApp` is
missing, or `CRM.API.coql` is missing. -/
def SdkUnavailable (zoho : Option ZohoSdk) : Prop :=
  zoho = none
    ∨ ∃ sdk, zoho = some sdk
        ∧ (sdk.embeddedApp = false
          ∨ ¬ ∃ crm api, sdk.CRM = some crm ∧ crm.API = some api ∧ api.coql = true)

/-! ## Creating a holiday -/

/-- Number of UTF-16 code units of a character: two outside the basic
plane. -/
def codeUnits (c : Char) : Nat := if c.toNat < 0x10000 then 1 else 2

/-- Property `length` of a string: its number of UTF-16 code units.  A string
is a list of Unicode characters here, so unpaired surrogates are not
modelled. -/
def jsLength (s : List Char) : Nat := (s.map codeUnits).sum

/-- The object `recordData` that `createHolidayRecord` sends to the host. -/
structure HolidayData where
  Name : String
  Fitter : String
  Week_Commencing : String
  Active_Status : String
deriving DecidableEq, Repr

/-- The object `details` of an element of `data` in a response of
`ZOHO.CRM.API.insertRecord`. -/
structure InsertDetails where
  id : Option String
deriving DecidableEq, Repr

/-- An element of `data` in a response of `ZOHO.CRM.API.insertRecord`. -/
structure InsertResult where
  status : Option String
  message : Option String
  details : Option InsertDetails
deriving DecidableEq, Repr

/-- A response of `ZOHO.CRM.API.insertRecord`. -/
structure InsertResponse where
  data : Option (List InsertResult)
deriving DecidableEq, Repr

/-- The host behind `ZOHO.CRM.API.insertRecord` for the entity
`Fitter_Unavailability`: what it answers for a record, a rejection with the
`message` of its error, no response object (`none`) or a response. -/
abbrev InsertHost := HolidayData → Except String (Option InsertResponse)

/-- The object that `createHolidayRecord` returns: `holidayId` is present in
the object with `success: true`, `error` in the one with `success: false`,
and either may be `undefined`. -/
structure CreateResult where
  success : Bool
  holidayId : Option String
  error : Option String
deriving DecidableEq, Repr

/-- The object `recordData` built by `createHolidayRecord`. -/
def recordDataOf (fitterId weekStart : String) (holidayTitle : List Char) : HolidayData :=
  { Name := String.mk holidayTitle
    Fitter := fitterId
    Week_Commencing := weekStart
    Active_Status := "Booked" }

/-- Function `createHolidayRecord(fitterId, fitterName, weekStart,
holidayTitle)`: the value of its promise.  `typeError` is the message of the
error that the engine raises when `result.details` is `undefined` and its
`id` is read; the `catch` block turns it into a result like any rejection of
the host. -/
def createHolidayRecord (insertRecord : InsertHost) (typeError : String)
    (fitterId : String) (_fitterName : Option String) (weekStart : String)
    (holidayTitle : List Char) : CreateResult :=
  let recordData := recordDataOf fitterId weekStart holidayTitle
  match insertRecord recordData with
  | .error message => { success := false, holidayId := none, error := some message }
  | .ok none =>
    { success := false, holidayId := none, error := some "Unexpected response format" }
  | .ok (some response) =>
    match response.data with
    | some (result :: _) =>
      if result.status = some "success" then
        match result.details with
        | some details => { success := true, holidayId := details.id, error := none }
        | none => { success := false, holidayId := none, error := some typeError }
      else { success := false, holidayId := none, error := result.message }
    | _ => { success := false, holidayId := none, error := some "Unexpected response format" }

/-- The property `dataset` of the element `createHolidayModal`: each entry is
a string or absent. -/
structure ModalDataset where
  fitterId : Option String
  fitterName : Option String
  weekStart : Option String
deriving DecidableEq, Repr

/-- What `handleCreateHolidaySubmit` reads from the document: the dataset of
the element `createHolidayModal` and the `value` of the element
`holidayTitle` (`none` where `getElementById` gives `null`), and whether the
button `saveCreateHoliday` exists. -/
structure HolidayForm where
  createHolidayModal : Option ModalDataset
  holidayTitle : Option String
  saveCreateHoliday : Bool
deriving DecidableEq, Repr

/-- Arguments of one call of `createHolidayRecord`. -/
structure CreateCall where
  fitterId : String
  fitterName : Option String
  weekStart : String
  holidayTitle : List Char
deriving DecidableEq, Repr

/-- What one run of `handleCreateHolidaySubmit` has done when its promise is
settled: the calls of `createHolidayRecord` and the records that these sent
to the host, the texts shown by `alert`, whether `closeCreateHolidayModal`
was called, whether the promise is rejected, and the global variables. -/
structure SubmitRun where
  calls : List CreateCall
  inserted : List HolidayData
  alerts : List String
  modalClosed : Bool
  rejected : Bool
  state : State

/-- Function `handleCreateHolidaySubmit()`.  `insertRecord` and `host` are
the answers of the host to the insertion and to the reload of the holidays.
The label of the button, changed during the call and restored in the
`finally` block, is not part of the run; reading it from a missing button
raises an error outside the `try` block, which rejects the promise before
`createHolidayRecord` is reached. -/
def handleCreateHolidaySubmit (insertRecord : InsertHost) (typeError : String)
    (host : RelatedHost) (form : HolidayForm) (s : State) : SubmitRun :=
  let nothing (alerts : List String) (rejected : Bool) : SubmitRun :=
    { calls := [], inserted := [], alerts := alerts, modalClosed := false
      rejected := rejected, state := s }
  match form.createHolidayModal, form.holidayTitle with
  | some modal, some value =>
    let holidayTitle := trim value.toList
    if holidayTitle.isEmpty then nothing ["Please enter a holiday title"] false
    else if jsLength holidayTitle > 30 then
      nothing ["Holiday title must be 30 characters or less"] false
    else
      match modal.fitterId, modal.weekStart with
      | some fitterId, some weekStart =>
        if fitterId = "" ∨ weekStart = "" then nothing ["Error: Missing required data"] false
        else if !form.saveCreateHoliday then nothing [] true
        else
          let fitterName := modal.fitterName
          let call : CreateCall :=
            { fitterId := fitterId, fitterName := fitterName, weekStart := weekStart
              holidayTitle := holidayTitle }
          let result :=
            createHolidayRecord insertRecord typeError fitterId fitterName weekStart
              holidayTitle
          if result.success then
            { calls := [call], inserted := [recordDataOf fitterId weekStart holidayTitle]
              alerts := ["Holiday created successfully!"], modalClosed := true
              rejected := false, state := refreshCalendarData host s }
          else
            { calls := [call], inserted := [recordDataOf fitterId weekStart holidayTitle]
              alerts := ["Error creating holiday: " ++ result.error.getD "undefined"]
              modalClosed := false, rejected := false, state := s }
      | _, _ => nothing ["Error: Missing required data"] false
  | _, _ => nothing [] false

/-- A value of the dataset is present: it exists and is not the empty
string. -/
def IsGiven (value : Option String) : Prop := ∃ text, value = some text ∧ text ≠ ""

/-- The condition of the claim on what is submitted: the title, after
trimming, is not empty and has at most 30 characters, and `fitterId` and
`weekStart` are both present.  Characters are counted one by one, so a
character outside the basic plane counts once. -/
def ValidSubmission (form : HolidayForm) : Prop :=
  ∃ modal value, form.createHolidayModal = some modal ∧ form.holidayTitle = some value
    ∧ trim value.toList ≠ [] ∧ (trim value.toList).length ≤ 30
    ∧ IsGiven modal.fitterId ∧ IsGiven modal.weekStart

/-- The test that the code makes before it calls `createHolidayRecord`: as
`ValidSubmission`, with the length counted in UTF-16 code units as the
property `length` does, and with the button `saveCreateHoliday` in the
document. -/
def AcceptedSubmission (form : HolidayForm) : Prop :=
  ∃ modal value, form.createHolidayModal = some modal ∧ form.holidayTitle = some value
    ∧ trim value.toList ≠ [] ∧ jsLength (trim value.toList) ≤ 30
    ∧ IsGiven modal.fitterId ∧ IsGiven modal.weekStart ∧ form.saveCreateHoliday = true

/-! # Theorems -/

/-! ## Facts about the calendar operations -/

theorem dayFromYear_succ (y : Int) : dayFromYear (y + 1) = dayFromYear y + daysInYear y := by
  unfold dayFromYear daysInYear
  split_ifs <;> omega

theorem yearFromDay_spec (d : Int) :
    dayFromYear (yearFromDay d) ≤ d ∧ d < dayFromYear (yearFromDay d + 1) := by
  unfold yearFromDay
  simp only
  split_ifs with h1 h2
  · refine ⟨h1, ?_⟩
    unfold dayFromYear at *
    omega
  · exact ⟨h2, by omega⟩
  · refine ⟨?_, by simpa using (by omega : d < dayFromYear (1970 + 400 * d / 146097))⟩
    unfold dayFromYear at *
    omega

theorem dayWithinYear_bounds (d : Int) :
    0 ≤ dayWithinYear d ∧ dayWithinYear d < daysInYear (yearFromDay d) := by
  have h := yearFromDay_spec d
  rw [dayFromYear_succ] at h
  unfold dayWithinYear
  omega

theorem daysInYear_cases (y : Int) : daysInYear y = 365 ∨ daysInYear y = 366 := by
  unfold daysInYear
  split_ifs <;> omega

theorem monthOfDayWithinYear_range (w l : Int) :
    0 ≤ monthOfDayWithinYear w l ∧ monthOfDayWithinYear w l ≤ 11 := by
  unfold monthOfDayWithinYear
  omega

theorem monthFromDay_range (d : Int) : 0 ≤ monthFromDay d ∧ monthFromDay d ≤ 11 :=
  monthOfDayWithinYear_range _ _

theorem inLeapYear_eq (d : Int) :
    (if daysInYear (yearFromDay d) = 366 then (1 : Int) else 0) = inLeapYear d := rfl

theorem makeDay_roundtrip (d n : Int) :
    makeDay (yearFromDay d) (monthFromDay d) (dateFromDay d + n) = d + n := by
  have hm := monthFromDay_range d
  have h12 : monthFromDay d / 12 = 0 := by omega
  have h12m : monthFromDay d % 12 = monthFromDay d := by omega
  unfold makeDay dateFromDay
  simp only [h12, h12m, add_zero, inLeapYear_eq]
  unfold dayWithinYear
  omega

theorem day_mul_msPerDay (x : Int) : day (x * msPerDay) = x := by
  unfold day msPerDay
  omega

theorem timeWithinDay_mul_msPerDay (x : Int) : timeWithinDay (x * msPerDay) = 0 := by
  unfold timeWithinDay msPerDay
  omega

theorem day_add_mul (t n : Int) : day (t + n * msPerDay) = day t + n := by
  unfold day msPerDay
  omega

theorem setDate_getDate_add (tza t n : Int) :
    setDate tza t (getDate tza t + n) = t + n * msPerDay := by
  unfold setDate getDate yearFromTime
  simp only [makeDay_roundtrip]
  unfold makeDate utc localTime day timeWithinDay msPerDay
  omega

theorem setUTCDate_getUTCDate_add (t n : Int) :
    setUTCDate t (getUTCDate t + n) = t + n * msPerDay := by
  unfold setUTCDate getUTCDate yearFromTime
  simp only [makeDay_roundtrip]
  unfold makeDate day timeWithinDay msPerDay
  omega

theorem civilOfDay_toDay (d : Int) : (civilOfDay d).toDay = d := by
  unfold CivilDate.toDay civilOfDay
  simpa using makeDay_roundtrip d 0

/-! ## Facts about the week grid -/

theorem weeksLoop_eq (tza today start : Int) (n : Nat) :
    ∀ (i : Int) (weeks : List WeekDescriptor), i + n = 13 →
      weeksLoop tza today start i weeks
        = weeks ++ (List.range n).map (fun (k : Nat) => weekDescriptor tza today start (i + (k : Int))) := by
  induction n with
  | zero =>
    intro i weeks h
    rw [weeksLoop]
    have : ¬ i < 13 := by omega
    simp [this]
  | succ n ih =>
    intro i weeks h
    rw [weeksLoop]
    have hi : i < 13 := by omega
    simp only [hi, if_true]
    rw [ih (i + 1) _ (by push_cast at h; omega)]
    rw [List.range_succ_eq_map]
    simp only [List.map_cons, List.map_map, List.append_assoc, List.singleton_append,
      Nat.cast_zero, add_zero]
    congr 2
    apply List.map_congr_left
    intro k _
    simp only [Function.comp, Nat.cast_succ]
    congr 1
    omega

theorem getThreeWeekDays_eq_map (tza currentDate weekOffset today : Int) :
    getThreeWeekDays tza currentDate weekOffset today
      = (List.range 14).map (fun (k : Nat) =>
          weekDescriptor tza today (gridStart tza currentDate weekOffset) ((k : Int) - 1)) := by
  unfold getThreeWeekDays
  rw [weeksLoop_eq tza today _ 14 (-1) [] (by norm_num)]
  simp only [List.nil_append]
  apply List.map_congr_left
  intro k _
  have e : (-1 : Int) + (k : Int) = (k : Int) - 1 := by omega
  simp only [e]

/-- The Monday from which the grid counts is the Monday on or before the day
reached from `currentDate` by `weekOffset` days, at the time of day of
`currentDate`. -/
theorem gridStart_eq (tza currentDate weekOffset : Int) :
    gridStart tza currentDate weekOffset
      = currentDate + weekOffset * msPerDay
        - ((day (localTime tza currentDate) + weekOffset + 3) % 7) * msPerDay := by
  unfold gridStart
  simp only [setDate_getDate_add]
  unfold getDay weekDay localTime
  have h : day (currentDate + weekOffset * msPerDay + tza) = day (currentDate + tza) + weekOffset := by
    unfold day msPerDay; omega
  rw [h]
  unfold msPerDay
  split_ifs <;> omega

theorem getDay_gridStart (tza currentDate weekOffset : Int) :
    getDay tza (gridStart tza currentDate weekOffset) = 1 := by
  rw [gridStart_eq]
  unfold getDay weekDay localTime day msPerDay
  omega

/-- The descriptor of loop variable `i` holds the instant `i` weeks after
`start`, and is flagged when `today` lies between that instant and the
instant six days later. -/
theorem weekDescriptor_fullDate (tza today start i : Int) :
    (weekDescriptor tza today start i).fullDate = start + i * 7 * msPerDay
      ∧ (weekDescriptor tza today start i).isToday
          = (decide (today ≥ start + i * 7 * msPerDay)
              && decide (today ≤ start + i * 7 * msPerDay + 6 * msPerDay)) := by
  constructor
  · unfold weekDescriptor
    simp only [setDate_getDate_add]
  · unfold weekDescriptor
    simp only [setDate_getDate_add]

theorem getThreeWeekDays_getElem (tza currentDate weekOffset today : Int) (k : Nat)
    (hk : k < 14) :
    (getThreeWeekDays tza currentDate weekOffset today)[k]?
      = some (weekDescriptor tza today (gridStart tza currentDate weekOffset) ((k : Int) - 1)) := by
  rw [getThreeWeekDays_eq_map]
  simp [List.getElem?_map, List.getElem?_range hk]

theorem yearFromDay_ge (d : Int) (h : -141437 ≤ d) : 1582 ≤ yearFromDay d := by
  unfold yearFromDay dayFromYear
  simp only
  omega

theorem dateUTC_zero (y : Int) (h : 100 ≤ y) : dateUTC y 0 1 = dayFromYear y * msPerDay := by
  unfold dateUTC makeDate makeDay monthStart
  have : ¬ (0 ≤ y ∧ y ≤ 99) := by omega
  simp [this]

theorem dateUTC_local (tza date : Int) (h : -141437 ≤ day (localTime tza date)) :
    dateUTC (getFullYear tza date) (getMonth tza date) (getDate tza date)
      = day (localTime tza date) * msPerDay := by
  have hy := yearFromDay_ge _ h
  unfold dateUTC getFullYear getMonth getDate yearFromTime
  have : ¬ (0 ≤ yearFromDay (day (localTime tza date)) ∧ yearFromDay (day (localTime tza date)) ≤ 99) := by
    omega
  simp only [this, if_false]
  have := makeDay_roundtrip (day (localTime tza date)) 0
  simp only [add_zero] at this
  rw [this]
  unfold makeDate
  omega

/-- Closed form of `getWeekNumber` on dates of the Gregorian calendar. -/
theorem getWeekNumber_eq (tza date : Int) (h : firstGregorianDay ≤ day (localTime tza date)) :
    getWeekNumber tza date
      = (thursdayOfWeek (day (localTime tza date))
          - dayFromYear (yearFromDay (thursdayOfWeek (day (localTime tza date)))) + 7) / 7 := by
  unfold firstGregorianDay at h
  unfold getWeekNumber
  simp only
  rw [dateUTC_local tza date (by omega)]
  generalize day (localTime tza date) = D at *
  unfold getUTCDay getUTCFullYear yearFromTime
  rw [day_mul_msPerDay]
  have hth : (if weekDay D = 0 then (7 : Int) else weekDay D) = D + 4 - thursdayOfWeek D := by
    unfold weekDay thursdayOfWeek mondayOfWeek
    omega
  rw [hth]
  have e : getUTCDate (D * msPerDay) + 4 - (D + 4 - thursdayOfWeek D)
      = getUTCDate (D * msPerDay) + (thursdayOfWeek D - D) := by omega
  rw [e, setUTCDate_getUTCDate_add]
  have e2 : D * msPerDay + (thursdayOfWeek D - D) * msPerDay = thursdayOfWeek D * msPerDay := by
    unfold msPerDay; omega
  rw [e2, day_mul_msPerDay]
  have hT : -141437 ≤ thursdayOfWeek D := by
    unfold thursdayOfWeek mondayOfWeek; omega
  rw [dateUTC_zero _ (by have := yearFromDay_ge _ hT; omega)]
  generalize thursdayOfWeek D = T
  generalize dayFromYear (yearFromDay T) = Y
  unfold msPerDay
  omega

theorem thursdayOfWeek_mod (d : Int) : thursdayOfWeek d % 7 = 0 := by
  unfold thursdayOfWeek mondayOfWeek
  omega

/-- Claim C3: on every date of the Gregorian calendar (from 15 October 1582)
`getWeekNumber` returns the ISO 8601 week number of the local calendar day,
the result lies between 1 and 53, and it is the same for every date whose
local calendar day lies in the same Monday-to-Sunday week. -/
theorem getWeekNumber_iso (tza date : Int)
    (h : firstGregorianDay ≤ day (localTime tza date)) :
    getWeekNumber tza date = isoWeekNumber (day (localTime tza date))
      ∧ 1 ≤ getWeekNumber tza date ∧ getWeekNumber tza date ≤ 53
      ∧ ∀ other : Int, firstGregorianDay ≤ day (localTime tza other) →
          mondayOfWeek (day (localTime tza other)) = mondayOfWeek (day (localTime tza date)) →
          getWeekNumber tza other = getWeekNumber tza date := by
  refine ⟨?_, ?_, ?_, ?_⟩
  · rw [getWeekNumber_eq tza date h]
    unfold isoWeekNumber
    simp only
    have hmod := thursdayOfWeek_mod (day (localTime tza date))
    have hmk : makeDay (yearFromDay (thursdayOfWeek (day (localTime tza date)))) 0 4
        = dayFromYear (yearFromDay (thursdayOfWeek (day (localTime tza date)))) + 3 := by
      unfold makeDay monthStart
      simp
      omega
    rw [hmk]
    have hth : mondayOfWeek (day (localTime tza date))
        = thursdayOfWeek (day (localTime tza date)) - 3 := by
      unfold thursdayOfWeek; omega
    rw [hth]
    generalize thursdayOfWeek (day (localTime tza date)) = T at *
    generalize dayFromYear (yearFromDay T) = Y
    unfold mondayOfWeek
    omega
  · rw [getWeekNumber_eq tza date h]
    have := yearFromDay_spec (thursdayOfWeek (day (localTime tza date)))
    omega
  · rw [getWeekNumber_eq tza date h]
    have hs := yearFromDay_spec (thursdayOfWeek (day (localTime tza date)))
    rw [dayFromYear_succ] at hs
    have := daysInYear_cases (yearFromDay (thursdayOfWeek (day (localTime tza date))))
    omega
  · intro other ho hm
    rw [getWeekNumber_eq tza date h, getWeekNumber_eq tza other ho]
    unfold thursdayOfWeek
    rw [hm]

/-- Witness for claim C3, at a concrete date: 1 July 2024, 00:30 local time, one
hour east of UTC. -/
theorem getWeekNumber_iso_witness :
    firstGregorianDay ≤ day (localTime 3600000 1719790200000)
      ∧ (getWeekNumber 3600000 1719790200000 = isoWeekNumber (day (localTime 3600000 1719790200000))
      ∧ 1 ≤ getWeekNumber 3600000 1719790200000 ∧ getWeekNumber 3600000 1719790200000 ≤ 53
      ∧ ∀ other : Int, firstGregorianDay ≤ day (localTime 3600000 other) →
          mondayOfWeek (day (localTime 3600000 other))
            = mondayOfWeek (day (localTime 3600000 1719790200000)) →
          getWeekNumber 3600000 other = getWeekNumber 3600000 1719790200000) :=
  ⟨by decide, getWeekNumber_iso 3600000 1719790200000 (by decide)⟩

/-- Claim C1: for every reference date, offset and instant `today`, in every
time zone, `getThreeWeekDays` returns exactly 14 week descriptors. -/
theorem getThreeWeekDays_length (tza currentDate weekOffset today : Int) :
    (getThreeWeekDays tza currentDate weekOffset today).length = 14 := by
  rw [getThreeWeekDays_eq_map]
  simp

/-- Claim C2, evaluated where the code departs from it: one hour east of UTC,
with `currentDate` = Monday 1 July 2024, 00:30 local time (30 June 2024,
23:30 UTC) and `weekOffset = 0`, every descriptor holds a local Monday in
`fullDate`, but its `weekStart` string is the date of a Sunday and its
`weekEnd` string the date of a Saturday; the second descriptor starts on
2024-06-30 and ends on 2024-07-06. -/
theorem getThreeWeekDays_weekStart_sunday :
    (getThreeWeekDays 3600000 1719790200000 0 1719790200000).all
        (fun w => decide (getDay 3600000 w.fullDate = 1)
          && decide (weekDay w.weekStart.toDay = 0) && decide (weekDay w.weekEnd.toDay = 6)
          && decide (w.date = w.weekStart)) = true
      ∧ (getThreeWeekDays 3600000 1719790200000 0 1719790200000).map
            (fun w => (w.weekStart, w.weekEnd, toLocaleDate 3600000 w.fullDate))
          = [(⟨2024, 6, 23⟩, ⟨2024, 6, 29⟩, ⟨2024, 6, 24⟩),
             (⟨2024, 6, 30⟩, ⟨2024, 7, 6⟩, ⟨2024, 7, 1⟩),
             (⟨2024, 7, 7⟩, ⟨2024, 7, 13⟩, ⟨2024, 7, 8⟩),
             (⟨2024, 7, 14⟩, ⟨2024, 7, 20⟩, ⟨2024, 7, 15⟩),
             (⟨2024, 7, 21⟩, ⟨2024, 7, 27⟩, ⟨2024, 7, 22⟩),
             (⟨2024, 7, 28⟩, ⟨2024, 8, 3⟩, ⟨2024, 7, 29⟩),
             (⟨2024, 8, 4⟩, ⟨2024, 8, 10⟩, ⟨2024, 8, 5⟩),
             (⟨2024, 8, 11⟩, ⟨2024, 8, 17⟩, ⟨2024, 8, 12⟩),
             (⟨2024, 8, 18⟩, ⟨2024, 8, 24⟩, ⟨2024, 8, 19⟩),
             (⟨2024, 8, 25⟩, ⟨2024, 8, 31⟩, ⟨2024, 8, 26⟩),
             (⟨2024, 9, 1⟩, ⟨2024, 9, 7⟩, ⟨2024, 9, 2⟩),
             (⟨2024, 9, 8⟩, ⟨2024, 9, 14⟩, ⟨2024, 9, 9⟩),
             (⟨2024, 9, 15⟩, ⟨2024, 9, 21⟩, ⟨2024, 9, 16⟩),
             (⟨2024, 9, 22⟩, ⟨2024, 9, 28⟩, ⟨2024, 9, 23⟩)] := by
  rw [getThreeWeekDays_eq_map]
  decide

/-- Claim C4, evaluated where the code departs from it: in UTC, with
`currentDate` = Sunday 7 July 2024, 10:00:00.000, `weekOffset = 0` and
`today` one millisecond later, the calendar day of `today` (7 July 2024) is
the Sunday of the second generated week (1 July to 7 July 2024), so it lies
inside the grid, and yet no descriptor has `isToday = true`. -/
theorem getThreeWeekDays_sunday_not_flagged :
    (getThreeWeekDays 0 1720346400000 0 1720346400001).all (fun w => !w.isToday) = true
      ∧ ((getThreeWeekDays 0 1720346400000 0 1720346400001).map
            (fun w => (toLocaleDate 0 w.fullDate, w.weekEnd))).take 3
          = [(⟨2024, 6, 24⟩, ⟨2024, 6, 30⟩), (⟨2024, 7, 1⟩, ⟨2024, 7, 7⟩),
             (⟨2024, 7, 8⟩, ⟨2024, 7, 14⟩)]
      ∧ toLocaleDate 0 1720346400001 = ⟨2024, 7, 7⟩ := by
  rw [getThreeWeekDays_eq_map]
  decide

/-! ## Facts about the regular expressions -/

theorem takeWhile_dropWhile_append (p : Char → Bool) :
    ∀ (xs ys : List Char), (∀ c ∈ xs, p c = true) → (∀ y ∈ ys.head?, p y = false) →
      (xs ++ ys).takeWhile p = xs ∧ (xs ++ ys).dropWhile p = ys := by
  intro xs
  induction xs with
  | nil =>
    intro ys _ hy
    cases ys with
    | nil => simp
    | cons y ys =>
      have : p y = false := hy y (by simp)
      simp [List.takeWhile, List.dropWhile, this]
  | cons x xs ih =>
    intro ys hx hy
    have hx1 : p x = true := hx x (by simp)
    have := ih ys (fun c hc => hx c (by simp [hc])) hy
    simp [List.takeWhile, List.dropWhile, hx1, this]

theorem isUpperAZ_of_isDigit {c : Char} (h : isDigit c = true) : isUpperAZ c = false := by
  unfold isDigit at h
  unfold isUpperAZ
  simp only [decide_eq_true_eq, decide_eq_false_iff_not] at *
  omega

theorem head_not_upper_of_digits {d : List Char} (hd : ∀ c ∈ d, isDigit c = true) :
    ∀ y ∈ d.head?, isUpperAZ y = false := by
  intro y hy
  cases d with
  | nil => simp at hy
  | cons a d =>
    simp at hy
    subst hy
    exact isUpperAZ_of_isDigit (hd _ (by simp))

theorem matchSingle_eq_some_iff (s l d : List Char) :
    matchSingle s = some (l, d) ↔
      s = l ++ d ∧ l ≠ [] ∧ (∀ c ∈ l, isUpperAZ c = true) ∧ d ≠ [] ∧ (∀ c ∈ d, isDigit c = true) := by
  constructor
  · intro h
    unfold matchSingle at h
    simp only at h
    split_ifs at h with hc
    obtain ⟨h1, h2, h3⟩ := hc
    simp only [Option.some.injEq, Prod.mk.injEq] at h
    obtain ⟨hl, hd⟩ := h
    have e1 := List.takeWhile_append_dropWhile isUpperAZ s
    have e2 := List.takeWhile_append_dropWhile isDigit (s.dropWhile isUpperAZ)
    rw [h3, List.append_nil] at e2
    refine ⟨?_, ?_, ?_, ?_, ?_⟩
    · rw [← hl, ← hd, e2, e1]
    · rw [← hl]; exact h1
    · intro c hc; rw [← hl] at hc; exact List.mem_takeWhile_imp hc
    · rw [← hd]; exact h2
    · intro c hc; rw [← hd] at hc; exact List.mem_takeWhile_imp hc
  · rintro ⟨rfl, hl, hlu, hd, hdd⟩
    obtain ⟨t1, t2⟩ := takeWhile_dropWhile_append isUpperAZ l d hlu (head_not_upper_of_digits hdd)
    obtain ⟨t3, t4⟩ := takeWhile_dropWhile_append isDigit d [] hdd (by simp)
    rw [List.append_nil] at t3 t4
    unfold matchSingle
    simp only [t1, t2, t3, t4]
    simp [hl, hd]

theorem matchRange_eq_some_iff (s l a b : List Char) :
    matchRange s = some (l, a, b) ↔
      s = l ++ a ++ '-' :: b ∧ l ≠ [] ∧ (∀ c ∈ l, isUpperAZ c = true)
        ∧ a ≠ [] ∧ (∀ c ∈ a, isDigit c = true) ∧ b ≠ [] ∧ (∀ c ∈ b, isDigit c = true) := by
  constructor
  · intro h
    unfold matchRange at h
    simp only at h
    have e1 := List.takeWhile_append_dropWhile isUpperAZ s
    have e2 := List.takeWhile_append_dropWhile isDigit (s.dropWhile isUpperAZ)
    split at h
    · simp at h
    · rename_i c rest2 hr
      have e3 := List.takeWhile_append_dropWhile isDigit rest2
      split_ifs at h with hc
      obtain ⟨h0, h1, h2, h3, h4⟩ := hc
      simp only [Option.some.injEq, Prod.mk.injEq] at h
      obtain ⟨hl, ha, hb⟩ := h
      rw [h4, List.append_nil] at e3
      rw [hr] at e2
      refine ⟨?_, ?_, ?_, ?_, ?_, ?_, ?_⟩
      · rw [← hl, ← ha, ← hb, e3, ← h0, List.append_assoc, e2, e1]
      · rw [← hl]; exact h1
      · intro x hx; rw [← hl] at hx; exact List.mem_takeWhile_imp hx
      · rw [← ha]; exact h2
      · intro x hx; rw [← ha] at hx; exact List.mem_takeWhile_imp hx
      · rw [← hb]; exact h3
      · intro x hx; rw [← hb] at hx; exact List.mem_takeWhile_imp hx
  · rintro ⟨rfl, hl, hlu, ha, had, hb, hbd⟩
    have hhead : ∀ y ∈ (a ++ '-' :: b).head?, isUpperAZ y = false := by
      intro y hy
      cases a with
      | nil => exact absurd rfl ha
      | cons x a =>
        simp at hy
        subst hy
        exact isUpperAZ_of_isDigit (had _ (by simp))
    have hdash : ∀ y ∈ ('-' :: b).head?, isDigit y = false := by
      intro y hy
      simp at hy
      subst hy
      decide
    rw [List.append_assoc]
    obtain ⟨t1, t2⟩ := takeWhile_dropWhile_append isUpperAZ l (a ++ '-' :: b) hlu hhead
    obtain ⟨t3, t4⟩ := takeWhile_dropWhile_append isDigit a ('-' :: b) had hdash
    obtain ⟨t5, t6⟩ := takeWhile_dropWhile_append isDigit b [] hbd (by simp)
    rw [List.append_nil] at t5 t6
    unfold matchRange
    simp only [t1, t2, t3, t4, t5, t6]
    simp [hl, ha, hb]

/-! ## Decimal numerals -/

theorem digitChar_isDigit (k : Nat) (h : k < 10) :
    isDigit (Nat.digitChar k) = true ∧ (Nat.digitChar k).toNat - 48 = k := by
  interval_cases k <;> decide

theorem decimalValue_foldl (s : List Char) (acc : Nat) :
    s.foldl (fun acc c => 10 * acc + (c.toNat - 48)) acc
      = acc * 10 ^ s.length + decimalValue s := by
  unfold decimalValue
  induction s generalizing acc with
  | nil => simp
  | cons c s ih =>
    simp only [List.foldl_cons, List.length_cons]
    rw [ih (10 * acc + (c.toNat - 48)), ih (10 * 0 + (c.toNat - 48))]
    ring

theorem decimalValue_cons (c : Char) (s : List Char) :
    decimalValue (c :: s) = (c.toNat - 48) * 10 ^ s.length + decimalValue s := by
  have := decimalValue_foldl s (10 * 0 + (c.toNat - 48))
  unfold decimalValue at *
  simp only [List.foldl_cons]
  rw [this]
  ring

theorem toDigitsCore_spec (fuel : Nat) :
    ∀ (n : Nat) (ds : List Char), n < fuel → (∀ c ∈ ds, isDigit c = true) →
      (∀ c ∈ Nat.toDigitsCore 10 fuel n ds, isDigit c = true)
        ∧ Nat.toDigitsCore 10 fuel n ds ≠ []
        ∧ decimalValue (Nat.toDigitsCore 10 fuel n ds) = n * 10 ^ ds.length + decimalValue ds := by
  induction fuel with
  | zero => intro n ds h; omega
  | succ fuel ih =>
    intro n ds hn hds
    have hd := digitChar_isDigit (n % 10) (Nat.mod_lt _ (by norm_num))
    have hds2 : ∀ c ∈ Nat.digitChar (n % 10) :: ds, isDigit c = true := by
      intro c hc
      rcases List.mem_cons.1 hc with rfl | hc
      · exact hd.1
      · exact hds c hc
    unfold Nat.toDigitsCore
    simp only
    split_ifs with h0
    · refine ⟨hds2, by simp, ?_⟩
      rw [decimalValue_cons, hd.2]
      have : n = n % 10 := by omega
      rw [← this]
    · obtain ⟨i1, i2, i3⟩ := ih (n / 10) (Nat.digitChar (n % 10) :: ds) (by omega) hds2
      refine ⟨i1, i2, ?_⟩
      rw [i3, decimalValue_cons, hd.2, List.length_cons, pow_succ]
      have : n = 10 * (n / 10) + n % 10 := (Nat.div_add_mod n 10).symm
      generalize n / 10 = q at *
      generalize n % 10 = r at *
      subst this
      ring

theorem toDigits_isNumber (n : Nat) : IsNumber (Nat.toDigits 10 n) := by
  obtain ⟨h1, h2, _⟩ := toDigitsCore_spec (n + 1) n [] (by omega) (by simp)
  exact ⟨h2, h1⟩

theorem decimalValue_toDigits (n : Nat) : decimalValue (Nat.toDigits 10 n) = n := by
  obtain ⟨_, _, h3⟩ := toDigitsCore_spec (n + 1) n [] (by omega) (by simp)
  simpa [decimalValue, Nat.toDigits] using h3

/-! ## Number values -/

/-- The weight of the last kept digit of a number above `2^53`. -/
theorem log_bounds {n : Nat} (h : 2 ^ 53 < n) :
    53 ≤ Nat.log 2 n ∧ 2 ^ (52 + (Nat.log 2 n - 52)) ≤ n
      ∧ n < 2 ^ (53 + (Nat.log 2 n - 52)) := by
  have h1 : 53 ≤ Nat.log 2 n := Nat.le_log_of_pow_le (by norm_num) (le_of_lt h)
  have h2 : 2 ^ Nat.log 2 n ≤ n := Nat.pow_log_le_self 2 (by omega)
  have h3 : n < 2 ^ (Nat.log 2 n).succ := Nat.lt_pow_succ_log_self (by norm_num) n
  have e1 : 52 + (Nat.log 2 n - 52) = Nat.log 2 n := by omega
  have e2 : 53 + (Nat.log 2 n - 52) = (Nat.log 2 n).succ := by omega
  rw [e1, e2]
  exact ⟨h1, h2, h3⟩

/-- The rounded value lies between the two neighbours `q * 2^e` and
`(q + 1) * 2^e`, themselves between `2^(52+e)` and `2^(53+e)`. -/
theorem roundToDouble_bounds {n : Nat} (h : 2 ^ 53 < n) :
    2 ^ (52 + (Nat.log 2 n - 52)) ≤ roundToDouble n
      ∧ roundToDouble n ≤ 2 ^ (53 + (Nat.log 2 n - 52))
      ∧ n / 2 ^ (Nat.log 2 n - 52) * 2 ^ (Nat.log 2 n - 52) ≤ roundToDouble n
      ∧ roundToDouble n ≤ (n / 2 ^ (Nat.log 2 n - 52) + 1) * 2 ^ (Nat.log 2 n - 52) := by
  obtain ⟨_, h2, h3⟩ := log_bounds h
  unfold roundToDouble
  simp only
  generalize Nat.log 2 n - 52 = e at *
  have hu : 0 < 2 ^ e := by positivity
  have hq1 : 2 ^ 52 ≤ n / 2 ^ e := by
    rw [Nat.le_div_iff_mul_le hu, ← pow_add]
    exact h2
  have hq2 : n / 2 ^ e < 2 ^ 53 := by
    rw [Nat.div_lt_iff_lt_mul hu, ← pow_add]
    exact h3
  have hlow : 2 ^ (52 + e) ≤ n / 2 ^ e * 2 ^ e := by
    rw [pow_add]
    exact Nat.mul_le_mul_right _ hq1
  have hhigh : (n / 2 ^ e + 1) * 2 ^ e ≤ 2 ^ (53 + e) := by
    rw [pow_add]
    exact Nat.mul_le_mul_right _ hq2
  have hstep : n / 2 ^ e * 2 ^ e ≤ (n / 2 ^ e + 1) * 2 ^ e :=
    Nat.mul_le_mul_right _ (Nat.le_succ _)
  split_ifs
  · exact ⟨hlow, le_trans hstep hhigh, le_refl _, hstep⟩
  · exact ⟨le_trans hlow hstep, hhigh, hstep, le_refl _⟩

/-- Rounding keeps the order of the numbers above `2^53`. -/
theorem roundToDouble_mono {m n : Nat} (hm : 2 ^ 53 < m) (hmn : m ≤ n) :
    roundToDouble m ≤ roundToDouble n := by
  have hn : 2 ^ 53 < n := lt_of_lt_of_le hm hmn
  obtain ⟨_, bm2, bm3, bm4⟩ := roundToDouble_bounds hm
  obtain ⟨bn1, _, bn3, bn4⟩ := roundToDouble_bounds hn
  obtain ⟨lm1, _, _⟩ := log_bounds hm
  obtain ⟨ln1, _, _⟩ := log_bounds hn
  have hlog : Nat.log 2 m ≤ Nat.log 2 n := Nat.log_mono_right hmn
  rcases Nat.lt_or_ge (Nat.log 2 m) (Nat.log 2 n) with hlt | hge
  · have : 2 ^ (53 + (Nat.log 2 m - 52)) ≤ 2 ^ (52 + (Nat.log 2 n - 52)) :=
      Nat.pow_le_pow_right (by norm_num) (by omega)
    exact le_trans bm2 (le_trans this bn1)
  · have he : Nat.log 2 m = Nat.log 2 n := le_antisymm hlog hge
    rw [he] at bm4
    have hq : m / 2 ^ (Nat.log 2 n - 52) ≤ n / 2 ^ (Nat.log 2 n - 52) :=
      Nat.div_le_div_right hmn
    rcases Nat.lt_or_ge (m / 2 ^ (Nat.log 2 n - 52)) (n / 2 ^ (Nat.log 2 n - 52)) with hql | hqg
    · exact le_trans bm4 (le_trans (Nat.mul_le_mul_right _ hql) bn3)
    · have hqe : m / 2 ^ (Nat.log 2 n - 52) = n / 2 ^ (Nat.log 2 n - 52) := le_antisymm hq hqg
      have hr : m % 2 ^ (Nat.log 2 n - 52) ≤ n % 2 ^ (Nat.log 2 n - 52) := by
        have d1 := Nat.div_add_mod m (2 ^ (Nat.log 2 n - 52))
        have d2 := Nat.div_add_mod n (2 ^ (Nat.log 2 n - 52))
        rw [hqe] at d1
        omega
      unfold roundToDouble
      simp only [he, hqe]
      generalize n / 2 ^ (Nat.log 2 n - 52) = q at *
      generalize 2 ^ (Nat.log 2 n - 52) = u at *
      have hstep : q * u ≤ (q + 1) * u := Nat.mul_le_mul_right _ (Nat.le_succ _)
      split_ifs with c1 c2 c2
      · exact le_refl _
      · exact hstep
      · exfalso
        apply c1
        rcases c2 with c2 | ⟨c2, c3⟩
        · exact Or.inl (by omega)
        · rcases Nat.lt_or_ge (2 * (m % u)) u with c4 | c4
          · exact Or.inl c4
          · exact Or.inr ⟨by omega, c3⟩
      · exact le_refl _

/-- The value that stands for `Infinity` is above `2^53`. -/
theorem pow_le_infinity : 2 ^ 53 ≤ infinity := by
  unfold infinity
  norm_num

/-- A number up to `2^53` is its own Number value. -/
theorem toNumber_of_le {n : Nat} (h : n ≤ 2 ^ 53) : toNumber n = n := by
  unfold toNumber
  rw [if_pos h]

/-- The Number value of a number above `2^53` is at least `2^53`. -/
theorem le_toNumber {n : Nat} (h : 2 ^ 53 < n) : 2 ^ 53 ≤ toNumber n := by
  obtain ⟨b1, _, _, _⟩ := roundToDouble_bounds h
  obtain ⟨l1, _, _⟩ := log_bounds h
  have hp : (2 : Nat) ^ 53 ≤ 2 ^ (52 + (Nat.log 2 n - 52)) :=
    Nat.pow_le_pow_right (by norm_num) (by omega)
  unfold toNumber
  rw [if_neg (by omega)]
  exact le_min (le_trans hp b1) pow_le_infinity

/-- The conversion to a Number keeps the order. -/
theorem toNumber_mono {m n : Nat} (h : m ≤ n) : toNumber m ≤ toNumber n := by
  rcases Nat.lt_or_ge (2 ^ 53) m with hm | hm
  · have hn : 2 ^ 53 < n := lt_of_lt_of_le hm h
    unfold toNumber
    rw [if_neg (by omega), if_neg (by omega)]
    exact min_le_min (roundToDouble_mono hm h) (le_refl _)
  · rw [toNumber_of_le hm]
    rcases Nat.lt_or_ge (2 ^ 53) n with hn | hn
    · exact le_trans hm (le_toNumber hn)
    · rw [toNumber_of_le hn]
      exact h

/-- Below `2^53` the comparisons of Number values are the comparisons of the
integers. -/
theorem toNumber_le_iff {a n b : Nat} (hn : n < 2 ^ 53) :
    (toNumber a ≤ toNumber n ↔ a ≤ n) ∧ (toNumber n ≤ toNumber b ↔ n ≤ b) := by
  rw [toNumber_of_le (le_of_lt hn)]
  constructor
  · constructor
    · intro h
      rcases Nat.lt_or_ge (2 ^ 53) a with ha | ha
      · have := le_toNumber ha
        omega
      · rwa [toNumber_of_le ha] at h
    · intro h
      rw [toNumber_of_le (by omega)]
      exact h
  · constructor
    · intro h
      rcases Nat.lt_or_ge (2 ^ 53) b with hb | hb
      · omega
      · rwa [toNumber_of_le hb] at h
    · intro h
      have := toNumber_mono h
      rwa [toNumber_of_le (le_of_lt hn)] at this

/-- The number `2^53 + 1` is rounded to `2^53`. -/
theorem toNumber_example : toNumber 9007199254740993 = 9007199254740992 := by
  have hlog : Nat.log 2 9007199254740993 = 53 := by
    rw [Nat.log_eq_iff (Or.inl (by norm_num))]
    norm_num
  have hinf := pow_le_infinity
  unfold toNumber roundToDouble
  rw [hlog]
  norm_num at hinf ⊢
  exact hinf

/-- The integer of a number is below the power of ten of its length. -/
theorem decimalValue_lt_pow {digits : List Char} (h : ∀ c ∈ digits, isDigit c = true) :
    decimalValue digits < 10 ^ digits.length := by
  induction digits with
  | nil => simp [decimalValue]
  | cons c s ih =>
    have hc : isDigit c = true := h c (by simp)
    have hs := ih (fun x hx => h x (by simp [hx]))
    unfold isDigit at hc
    simp only [decide_eq_true_eq] at hc
    rw [decimalValue_cons, List.length_cons, pow_succ]
    have : (c.toNat - 48) * 10 ^ s.length ≤ 9 * 10 ^ s.length :=
      Nat.mul_le_mul_right _ (by omega)
    omega

/-- Function `parseInt` gives the integer of the digits when that integer is
at most `2^53`. -/
theorem parseInt_of_le {s : List Char} (h : decimalValue s ≤ 2 ^ 53) :
    parseInt s = decimalValue s := by
  unfold parseInt
  exact toNumber_of_le h

/-- Function `parseInt` keeps the order of the integers. -/
theorem parseInt_mono {s t : List Char} (h : decimalValue s ≤ decimalValue t) :
    parseInt s ≤ parseInt t := by
  unfold parseInt
  exact toNumber_mono h

/-! ## Facts about the postcode matcher -/

theorem rangeCallback_covers {cleanInput area : List Char} (hsafe : SafeInput cleanInput)
    (h : rangeCallback cleanInput area = true) : TokenCovers cleanInput area := by
  unfold rangeCallback at h
  split at h
  · rename_i letters startNum endNum hr
    simp only at h
    split at h
    · left
      simpa [eq_comm] using h
    · rename_i inputLetters inputNumStr hs
      simp only [Bool.and_eq_true, decide_eq_true_eq, ge_iff_le] at h
      obtain ⟨⟨h1, h2⟩, h3⟩ := h
      subst h1
      obtain ⟨e1, l1, l2, a1, a2, b1, b2⟩ := (matchRange_eq_some_iff _ _ _ _).1 hr
      obtain ⟨e2, _, _, n1, n2⟩ := (matchSingle_eq_some_iff _ _ _).1 hs
      have hlt := hsafe inputLetters inputNumStr e2 ⟨l1, l2⟩ ⟨n1, n2⟩
      have hcmp := @toNumber_le_iff (decimalValue startNum) (decimalValue inputNumStr)
        (decimalValue endNum) hlt
      unfold parseInt at h2 h3
      right; right
      exact ⟨inputLetters, startNum, endNum, inputNumStr, ⟨l1, l2⟩, ⟨a1, a2⟩, ⟨b1, b2⟩, ⟨n1, n2⟩,
        e1, e2, hcmp.1.1 h2, hcmp.2.1 h3⟩
  · split at h
    · left
      simpa [eq_comm] using h
    · simp at h

theorem rangeCallback_of_inTokenRange {cleanInput area : List Char}
    (h : InTokenRange cleanInput area) : rangeCallback cleanInput area = true := by
  obtain ⟨letters, startNum, endNum, inputNum, hl, ha, hb, hn, e1, e2, h1, h2⟩ := h
  have hr := (matchRange_eq_some_iff area letters startNum endNum).2
    ⟨e1, hl.1, hl.2, ha.1, ha.2, hb.1, hb.2⟩
  have hs := (matchSingle_eq_some_iff cleanInput letters inputNum).2
    ⟨e2, hl.1, hl.2, hn.1, hn.2⟩
  unfold rangeCallback
  simp [hr, hs, parseInt_mono h1, parseInt_mono h2]

theorem matchesPostcodeRange_eq (inputPostcode coverageAreas : List Char)
    (hi : inputPostcode ≠ []) (hc : coverageAreas ≠ []) :
    matchesPostcodeRange inputPostcode coverageAreas
      = ((coverageTokens coverageAreas).any
            (fun area => decide (cleanPostcode inputPostcode = toUpperCase area))
          || (coverageTokens coverageAreas).any
            (fun area => (cleanPostcode inputPostcode).isPrefixOf (toUpperCase area))
          || (coverageTokens coverageAreas).any
            (fun area => rangeCallback (cleanPostcode inputPostcode) area)) := by
  unfold matchesPostcodeRange
  simp only [hi, hc, or_self, if_false]
  split_ifs with h1 h2
  · simp [h1]
  · simp [h2]
  · simp [h1, h2]

theorem covers_of_matchesPostcodeRange {inputPostcode coverageAreas : List Char}
    (hi : inputPostcode ≠ []) (hc : coverageAreas ≠ [])
    (hsafe : SafeInput (cleanPostcode inputPostcode))
    (h : matchesPostcodeRange inputPostcode coverageAreas = true) :
    ∃ token ∈ coverageTokens coverageAreas,
      TokenCovers (cleanPostcode inputPostcode) token := by
  rw [matchesPostcodeRange_eq _ _ hi hc] at h
  simp only [Bool.or_eq_true, List.any_eq_true, decide_eq_true_eq] at h
  rcases h with (⟨t, ht, h⟩ | ⟨t, ht, h⟩) | ⟨t, ht, h⟩
  · exact ⟨t, ht, Or.inl h.symm⟩
  · exact ⟨t, ht, Or.inr (Or.inl (List.isPrefixOf_iff_prefix.1 h))⟩
  · exact ⟨t, ht, rangeCallback_covers hsafe h⟩

theorem matchesPostcodeRange_of_covers {inputPostcode coverageAreas : List Char}
    (hi : inputPostcode ≠ []) (hc : coverageAreas ≠ [])
    (h : ∃ token ∈ coverageTokens coverageAreas,
      TokenCovers (cleanPostcode inputPostcode) token) :
    matchesPostcodeRange inputPostcode coverageAreas = true := by
  rw [matchesPostcodeRange_eq _ _ hi hc]
  simp only [Bool.or_eq_true, List.any_eq_true, decide_eq_true_eq]
  obtain ⟨t, ht, h | h | h⟩ := h
  · exact Or.inl (Or.inl ⟨t, ht, h.symm⟩)
  · exact Or.inl (Or.inr ⟨t, ht, List.isPrefixOf_iff_prefix.2 h⟩)
  · exact Or.inr ⟨t, ht, rangeCallback_of_inTokenRange h⟩

/-- Function `parseInt` rounds above `2^53`: the input `G9007199254740993`
is found in the range `G9007199254740992-9007199254740992`, because
`2^53 + 1` is rounded to `2^53`. -/
theorem matchesPostcodeRange_rounded :
    parseInt "9007199254740993".toList = 9007199254740992
      ∧ matchesPostcodeRange "G9007199254740993".toList
          "G9007199254740992-9007199254740992".toList = true := by
  have hn : parseInt "9007199254740993".toList = 9007199254740992 := by
    have hv : decimalValue "9007199254740993".toList = 9007199254740993 := by decide
    unfold parseInt
    rw [hv]
    exact toNumber_example
  have ha : parseInt "9007199254740992".toList = 9007199254740992 := by decide
  refine ⟨hn, ?_⟩
  rw [matchesPostcodeRange_eq _ _ (by decide) (by decide)]
  have htok : coverageTokens "G9007199254740992-9007199254740992".toList
      = ["G9007199254740992-9007199254740992".toList] := by decide
  have hclean : cleanPostcode "G9007199254740993".toList = "G9007199254740993".toList := by
    decide
  have hr : matchRange "G9007199254740992-9007199254740992".toList
      = some (['G'], "9007199254740992".toList, "9007199254740992".toList) := by decide
  have hs : matchSingle "G9007199254740993".toList
      = some (['G'], "9007199254740993".toList) := by decide
  have hcb : rangeCallback "G9007199254740993".toList
      "G9007199254740992-9007199254740992".toList = true := by
    unfold rangeCallback
    rw [hr]
    simp only [hs, hn, ha]
    decide
  rw [htok, hclean]
  simp only [List.any_cons, List.any_nil, Bool.or_false, hcb, Bool.or_true]

/-- A cleaned input of at most 15 characters has a number below `2^53`. -/
theorem safeInput_of_length {cleanInput : List Char} (h : cleanInput.length ≤ 15) :
    SafeInput cleanInput := by
  intro letters digits hcut _ hd
  have hlen : digits.length ≤ 15 := by
    rw [hcut, List.length_append] at h
    omega
  have h1 := decimalValue_lt_pow hd.2
  have h2 : 10 ^ digits.length ≤ 10 ^ 15 := Nat.pow_le_pow_right (by norm_num) hlen
  have h3 : (10 : Nat) ^ 15 < 2 ^ 53 := by norm_num
  omega

/-- Claim C5 as stated fails: the input `G9007199254740993` and the coverage
`G9007199254740992-9007199254740992` are non-empty ASCII strings and
`matchesPostcodeRange` returns true, because `parseInt` reads `2^53 + 1` as
`2^53`; but the only token neither equals the input nor starts with it, and
`2^53 + 1` does not lie between `2^53` and `2^53`. -/
theorem matchesPostcodeRange_not_iff :
    "G9007199254740993".toList ≠ [] ∧ "G9007199254740992-9007199254740992".toList ≠ []
      ∧ IsAscii "G9007199254740993".toList
      ∧ IsAscii "G9007199254740992-9007199254740992".toList
      ∧ matchesPostcodeRange "G9007199254740993".toList
          "G9007199254740992-9007199254740992".toList = true
      ∧ ¬ ∃ token ∈ coverageTokens "G9007199254740992-9007199254740992".toList,
          TokenCovers (cleanPostcode "G9007199254740993".toList) token := by
  refine ⟨by decide, by decide, by unfold IsAscii; decide, by unfold IsAscii; decide,
    matchesPostcodeRange_rounded.2, ?_⟩
  have htok : coverageTokens "G9007199254740992-9007199254740992".toList
      = ["G9007199254740992-9007199254740992".toList] := by decide
  have hclean : cleanPostcode "G9007199254740993".toList = "G9007199254740993".toList := by
    decide
  have hr : matchRange "G9007199254740992-9007199254740992".toList
      = some (['G'], "9007199254740992".toList, "9007199254740992".toList) := by decide
  have hs : matchSingle "G9007199254740993".toList
      = some (['G'], "9007199254740993".toList) := by decide
  rw [htok, hclean]
  rintro ⟨token, ht, hcov⟩
  rw [List.mem_singleton] at ht
  subst ht
  rcases hcov with h | h | h
  · revert h
    decide
  · revert h
    decide
  · obtain ⟨l, a, b, n, hl, ha, hb, hn, e1, e2, _, h2⟩ := h
    have m := (matchRange_eq_some_iff _ l a b).2 ⟨e1, hl.1, hl.2, ha.1, ha.2, hb.1, hb.2⟩
    have s := (matchSingle_eq_some_iff _ l n).2 ⟨e2, hl.1, hl.2, hn.1, hn.2⟩
    rw [hr] at m
    rw [hs] at s
    simp only [Option.some.injEq, Prod.mk.injEq] at m s
    obtain ⟨_, _, rfl⟩ := m
    obtain ⟨_, rfl⟩ := s
    revert h2
    decide

/-- Claim C5, amended: for a non-empty input whose number is below `2^53` and
a non-empty coverage string, both of ASCII characters, `matchesPostcodeRange`
returns true exactly when some token of the coverage (split on `;` or `,`,
trimmed, non-empty) equals the cleaned input ignoring case, or starts with it
ignoring case, or is a numeric range `LETTERS start-end` while the cleaned
input is the same `LETTERS` followed by a number between `start` and `end`,
compared as integers. -/
theorem matchesPostcodeRange_iff (inputPostcode coverageAreas : List Char)
    (hi : inputPostcode ≠ []) (hc : coverageAreas ≠ [])
    (hd : PostcodeDomain inputPostcode coverageAreas) :
    matchesPostcodeRange inputPostcode coverageAreas = true ↔
      ∃ token ∈ coverageTokens coverageAreas,
        TokenCovers (cleanPostcode inputPostcode) token := by
  constructor
  · intro h
    exact covers_of_matchesPostcodeRange hi hc hd.2.2 h
  · intro h
    exact matchesPostcodeRange_of_covers hi hc h

/-- Witness for claim C5 as amended, at a concrete input: the postcode `g 5` and coverage
`EH1-55 , G1-80`. -/
theorem matchesPostcodeRange_iff_witness :
    ['g', ' ', '5'] ≠ [] ∧ "EH1-55 , G1-80".toList ≠ []
      ∧ PostcodeDomain ['g', ' ', '5'] "EH1-55 , G1-80".toList
      ∧ (matchesPostcodeRange ['g', ' ', '5'] "EH1-55 , G1-80".toList = true ↔
          ∃ token ∈ coverageTokens "EH1-55 , G1-80".toList,
            TokenCovers (cleanPostcode ['g', ' ', '5']) token) :=
  ⟨by decide, by decide,
    ⟨by unfold IsAscii; decide, by unfold IsAscii; decide, safeInput_of_length (by decide)⟩,
    matchesPostcodeRange_iff _ _ (by decide) (by decide)
      ⟨by unfold IsAscii; decide, by unfold IsAscii; decide, safeInput_of_length (by decide)⟩⟩

/-! ## Cleaning an input that is already clean -/

theorem upperChar_of_upper_or_digit {c : Char} (h : isUpperAZ c = true ∨ isDigit c = true) :
    upperChar c = c ∧ isWhiteSpace c = false := by
  unfold isUpperAZ isDigit at h
  simp only [decide_eq_true_eq] at h
  unfold upperChar isWhiteSpace
  constructor
  · rw [if_neg (by omega)]
  · simp only [List.mem_cons, List.mem_singleton, Bool.or_eq_false_iff, decide_eq_false_iff_not,
      List.not_mem_nil, or_false]
    omega

theorem cleanPostcode_of_clean (s : List Char)
    (h : ∀ c ∈ s, isUpperAZ c = true ∨ isDigit c = true) : cleanPostcode s = s := by
  unfold cleanPostcode toUpperCase
  induction s with
  | nil => rfl
  | cons c s ih =>
    have hc := upperChar_of_upper_or_digit (h c (by simp))
    have := ih (fun x hx => h x (by simp [hx]))
    simp [List.filter_cons, hc.1, hc.2, this]

theorem coverageTokens_nil : coverageTokens [] = [] := by decide

/-- Claim C6: for every non-empty upper-case letter string `letters` and
natural numbers `a ≤ n ≤ b`, `matchesPostcodeRange` returns true on the input
`letters` followed by `n` in decimal and any coverage string one of whose
tokens is `letters` followed by `a-b`. -/
theorem matchesPostcodeRange_of_range (letters : List Char) (a n b : Nat)
    (coverageAreas : List Char) (hl : IsLetters letters) (han : a ≤ n) (hnb : n ≤ b)
    (htok : letters ++ Nat.toDigits 10 a ++ '-' :: Nat.toDigits 10 b
      ∈ coverageTokens coverageAreas) :
    matchesPostcodeRange (letters ++ Nat.toDigits 10 n) coverageAreas = true := by
  have hc : coverageAreas ≠ [] := by
    rintro rfl
    rw [coverageTokens_nil] at htok
    simp at htok
  have hi : letters ++ Nat.toDigits 10 n ≠ [] := by
    intro h
    exact hl.1 (List.append_eq_nil.1 h).1
  have hclean : cleanPostcode (letters ++ Nat.toDigits 10 n) = letters ++ Nat.toDigits 10 n := by
    apply cleanPostcode_of_clean
    intro c hc
    rcases List.mem_append.1 hc with h | h
    · exact Or.inl (hl.2 c h)
    · exact Or.inr ((toDigits_isNumber n).2 c h)
  apply matchesPostcodeRange_of_covers hi hc
  refine ⟨_, htok, Or.inr (Or.inr ?_)⟩
  rw [hclean]
  exact ⟨letters, Nat.toDigits 10 a, Nat.toDigits 10 b, Nat.toDigits 10 n, hl,
    toDigits_isNumber a, toDigits_isNumber b, toDigits_isNumber n, rfl, rfl,
    by simpa [decimalValue_toDigits] using han, by simpa [decimalValue_toDigits] using hnb⟩

/-- Witness for claim C6, at a concrete input: the letters `EH`, 1 ≤ 55 ≤ 55 and the
coverage `G1-80; EH1-55`. -/
theorem matchesPostcodeRange_of_range_witness :
    IsLetters ['E', 'H'] ∧ 1 ≤ 55 ∧ 55 ≤ 55
      ∧ ['E', 'H'] ++ Nat.toDigits 10 1 ++ '-' :: Nat.toDigits 10 55
          ∈ coverageTokens "G1-80; EH1-55".toList
      ∧ matchesPostcodeRange (['E', 'H'] ++ Nat.toDigits 10 55) "G1-80; EH1-55".toList = true :=
  ⟨⟨by decide, by decide⟩, by decide, by decide, by decide,
    matchesPostcodeRange_of_range ['E', 'H'] 1 55 55 "G1-80; EH1-55".toList
      ⟨by decide, by decide⟩ (by decide) (by decide) (by decide)⟩

theorem upperChar_isUpperAZ {c : Char} (h : isLetter c = true) : isUpperAZ (upperChar c) = true := by
  have hc : c = Char.ofNat c.toNat := (Char.ofNat_toNat c).symm
  unfold isLetter at h
  simp only [Bool.or_eq_true, decide_eq_true_eq] at h
  generalize c.toNat = k at *
  subst hc
  rcases h with ⟨h1, h2⟩ | ⟨h1, h2⟩ <;> interval_cases k <;> decide

theorem isWhiteSpace_of_isLetter {c : Char} (h : isLetter c = true) : isWhiteSpace c = false := by
  unfold isLetter at h
  simp only [Bool.or_eq_true, decide_eq_true_eq] at h
  unfold isWhiteSpace
  simp only [List.mem_cons, List.mem_singleton, Bool.or_eq_false_iff, decide_eq_false_iff_not,
    List.not_mem_nil, or_false]
  omega

theorem cleanPostcode_letters_digits (letters digits : List Char)
    (hl : ∀ c ∈ letters, isLetter c = true) (hd : ∀ c ∈ digits, isDigit c = true) :
    cleanPostcode (letters ++ digits) = toUpperCase letters ++ digits := by
  have h1 : (letters ++ digits).filter (fun c => !isWhiteSpace c) = letters ++ digits := by
    rw [List.filter_eq_self]
    intro c hc
    rcases List.mem_append.1 hc with h | h
    · simp [isWhiteSpace_of_isLetter (hl c h)]
    · simp [(upperChar_of_upper_or_digit (Or.inr (hd c h))).2]
  have h2 : toUpperCase digits = digits := by
    unfold toUpperCase
    conv_rhs => rw [← List.map_id digits]
    apply List.map_congr_left
    intro c hc
    exact (upperChar_of_upper_or_digit (Or.inr (hd c hc))).1
  unfold cleanPostcode
  rw [h1]
  unfold toUpperCase at *
  rw [List.map_append, h2]

theorem isLetters_toUpperCase {letters : List Char} (h0 : letters ≠ [])
    (hl : ∀ c ∈ letters, isLetter c = true) : IsLetters (toUpperCase letters) := by
  unfold toUpperCase
  refine ⟨by simpa using h0, ?_⟩
  intro c hc
  obtain ⟨x, hx, rfl⟩ := List.mem_map.1 hc
  exact upperChar_isUpperAZ (hl x hx)

/-- Claim C7 as stated fails: the input `G1` and the coverage `G10-20`, whose
only token is the range `G` 10-20, satisfy its hypotheses and
`matchesPostcodeRange` returns true, but 1 does not lie between 10 and 20.
The number of the input must also be below `2^53`: the input
`G9007199254740993` and the coverage `G9007199254740992-9007199254740992`
satisfy the hypotheses and give true, but the range token does not start
with the input and `2^53 + 1` does not lie between `2^53` and `2^53`. -/
theorem matchesPostcodeRange_outside_range :
    ((['G'] ≠ [] ∧ (∀ c ∈ ['G'], isLetter c = true) ∧ IsNumber ['1']
        ∧ (∀ r ∈ [(['G'], ['1', '0'], ['2', '0'])], IsRange r)
        ∧ coverageTokens "G10-20".toList = [(['G'], ['1', '0'], ['2', '0'])].map rangeToken
        ∧ matchesPostcodeRange (['G'] ++ ['1']) "G10-20".toList = true)
      ∧ ¬ ∃ r ∈ [(['G'], ['1', '0'], ['2', '0'])],
          r.1 = toUpperCase ['G'] ∧ decimalValue r.2.1 ≤ decimalValue ['1']
            ∧ decimalValue ['1'] ≤ decimalValue r.2.2)
    ∧ ((['G'] ≠ [] ∧ (∀ c ∈ ['G'], isLetter c = true) ∧ IsNumber "9007199254740993".toList
        ∧ (∀ r ∈ [(['G'], "9007199254740992".toList, "9007199254740992".toList)], IsRange r)
        ∧ coverageTokens "G9007199254740992-9007199254740992".toList
            = [(['G'], "9007199254740992".toList, "9007199254740992".toList)].map rangeToken
        ∧ matchesPostcodeRange (['G'] ++ "9007199254740993".toList)
            "G9007199254740992-9007199254740992".toList = true)
      ∧ ¬ ∃ r ∈ [(['G'], "9007199254740992".toList, "9007199254740992".toList)],
          (toUpperCase ['G'] ++ "9007199254740993".toList) <+: toUpperCase (rangeToken r)
            ∨ (r.1 = toUpperCase ['G']
                ∧ decimalValue r.2.1 ≤ decimalValue "9007199254740993".toList
                ∧ decimalValue "9007199254740993".toList ≤ decimalValue r.2.2)) := by
  refine ⟨by unfold IsRange IsLetters IsNumber; decide,
    ⟨by decide, by decide, by unfold IsNumber; decide,
      by unfold IsRange IsLetters IsNumber; decide, by decide, matchesPostcodeRange_rounded.2⟩,
    by decide⟩

/-- Claim C7, amended: for an input made of letters followed by a number `n`
below `2^53` and a coverage string whose tokens are all numeric ranges
`LETTERS start-end`, `matchesPostcodeRange` returns true only if some range
token starts with the cleaned input ignoring case, or has the letters of the
input (in upper case) and `start ≤ n ≤ end`. -/
theorem matchesPostcodeRange_only_if (letters digits : List Char)
    (ranges : List (List Char × List Char × List Char)) (coverageAreas : List Char)
    (h0 : letters ≠ []) (hl : ∀ c ∈ letters, isLetter c = true) (hd : IsNumber digits)
    (hsafe : decimalValue digits < 2 ^ 53)
    (hr : ∀ r ∈ ranges, IsRange r)
    (htok : coverageTokens coverageAreas = ranges.map rangeToken)
    (hm : matchesPostcodeRange (letters ++ digits) coverageAreas = true) :
    ∃ r ∈ ranges,
      (toUpperCase letters ++ digits) <+: toUpperCase (rangeToken r)
        ∨ (r.1 = toUpperCase letters ∧ decimalValue r.2.1 ≤ decimalValue digits
            ∧ decimalValue digits ≤ decimalValue r.2.2) := by
  have hi : letters ++ digits ≠ [] := by
    intro h
    exact h0 (List.append_eq_nil.1 h).1
  have hc : coverageAreas ≠ [] := by
    rintro rfl
    unfold matchesPostcodeRange at hm
    simp at hm
  have hU := isLetters_toUpperCase h0 hl
  have s1 := (matchSingle_eq_some_iff (toUpperCase letters ++ digits) (toUpperCase letters)
    digits).2 ⟨rfl, hU.1, hU.2, hd.1, hd.2⟩
  have hclean := cleanPostcode_letters_digits _ _ hl hd.2
  have hsafeInput : SafeInput (cleanPostcode (letters ++ digits)) := by
    intro l n hcut hl' hn
    rw [hclean] at hcut
    have s2 := (matchSingle_eq_some_iff (toUpperCase letters ++ digits) l n).2
      ⟨hcut, hl'.1, hl'.2, hn.1, hn.2⟩
    rw [s1] at s2
    simp only [Option.some.injEq, Prod.mk.injEq] at s2
    rw [← s2.2]
    exact hsafe
  have hcovers := covers_of_matchesPostcodeRange hi hc hsafeInput hm
  rw [hclean, htok] at hcovers
  obtain ⟨token, ht, hcov⟩ := hcovers
  obtain ⟨r, hrm, rfl⟩ := List.mem_map.1 ht
  refine ⟨r, hrm, ?_⟩
  rcases hcov with h | h | h
  · left
    rw [h]
  · exact Or.inl h
  · right
    obtain ⟨l, a, b, n, hl', ha, hb, hn, e1, e2, h1, h2⟩ := h
    have s2 := (matchSingle_eq_some_iff (toUpperCase letters ++ digits) l n).2
      ⟨e2, hl'.1, hl'.2, hn.1, hn.2⟩
    rw [s1] at s2
    simp only [Option.some.injEq, Prod.mk.injEq] at s2
    obtain ⟨rfl, rfl⟩ := s2
    obtain ⟨q1, q2, q3⟩ := hr r hrm
    have m1 := (matchRange_eq_some_iff (rangeToken r) r.1 r.2.1 r.2.2).2
      ⟨rfl, q1.1, q1.2, q2.1, q2.2, q3.1, q3.2⟩
    have m2 := (matchRange_eq_some_iff (rangeToken r) (toUpperCase letters) a b).2
      ⟨e1, hl'.1, hl'.2, ha.1, ha.2, hb.1, hb.2⟩
    rw [m1] at m2
    simp only [Option.some.injEq, Prod.mk.injEq] at m2
    obtain ⟨r1, r2, r3⟩ := m2
    rw [r1, r2, r3]
    exact ⟨rfl, h1, h2⟩

/-- Witness for claim C7 as amended, at a concrete input: the postcode `g5` and the
coverage `G1-80;EH1-55`. -/
theorem matchesPostcodeRange_only_if_witness :
    (['g'] ≠ [] ∧ (∀ c ∈ ['g'], isLetter c = true) ∧ IsNumber ['5']
      ∧ decimalValue ['5'] < 2 ^ 53
      ∧ (∀ r ∈ [(['G'], ['1'], ['8', '0']), (['E', 'H'], ['1'], ['5', '5'])], IsRange r)
      ∧ coverageTokens "G1-80;EH1-55".toList
          = [(['G'], ['1'], ['8', '0']), (['E', 'H'], ['1'], ['5', '5'])].map rangeToken
      ∧ matchesPostcodeRange (['g'] ++ ['5']) "G1-80;EH1-55".toList = true)
    ∧ ∃ r ∈ [(['G'], ['1'], ['8', '0']), (['E', 'H'], ['1'], ['5', '5'])],
        (toUpperCase ['g'] ++ ['5']) <+: toUpperCase (rangeToken r)
          ∨ (r.1 = toUpperCase ['g'] ∧ decimalValue r.2.1 ≤ decimalValue ['5']
              ∧ decimalValue ['5'] ≤ decimalValue r.2.2) :=
  ⟨⟨by decide, by decide, ⟨by decide, by decide⟩, by decide,
      by unfold IsRange IsLetters IsNumber; decide, by decide, by decide⟩,
    matchesPostcodeRange_only_if ['g'] ['5']
      [(['G'], ['1'], ['8', '0']), (['E', 'H'], ['1'], ['5', '5'])] "G1-80;EH1-55".toList
      (by decide) (by decide) ⟨by decide, by decide⟩ (by decide)
      (by unfold IsRange IsLetters IsNumber; decide) (by decide) (by decide)⟩

/-! ## Delimiters and padding of the coverage string -/

theorem splitDelimiters_ne_nil (s : List Char) : splitDelimiters s ≠ [] := by
  cases s with
  | nil => simp [splitDelimiters]
  | cons c cs =>
    unfold splitDelimiters
    split_ifs
    · simp
    · split <;> simp

theorem splitDelimiters_cons (c : Char) (cs : List Char) :
    splitDelimiters (c :: cs)
      = if isDelimiter c = true then [] :: splitDelimiters cs
        else (c :: (splitDelimiters cs).headD []) :: (splitDelimiters cs).tail := by
  have hne := splitDelimiters_ne_nil cs
  rw [splitDelimiters]
  cases hs : splitDelimiters cs with
  | nil => exact absurd hs hne
  | cons seg segs => simp

theorem splitDelimiters_append_delimiter (s t : List Char) (d : Char)
    (hd : isDelimiter d = true) :
    splitDelimiters (s ++ d :: t) = splitDelimiters s ++ splitDelimiters t := by
  induction s with
  | nil =>
    rw [List.nil_append, splitDelimiters_cons, if_pos hd]
    simp [splitDelimiters]
  | cons c cs ih =>
    have hne := splitDelimiters_ne_nil cs
    rw [List.cons_append, splitDelimiters_cons, splitDelimiters_cons, ih]
    split_ifs with hc
    · simp
    · cases hs : splitDelimiters cs with
      | nil => exact absurd hs hne
      | cons seg segs => simp

theorem splitDelimiters_padding_left (ws s : List Char)
    (hws : ∀ c ∈ ws, isDelimiter c = false) :
    splitDelimiters (ws ++ s)
      = (ws ++ (splitDelimiters s).headD []) :: (splitDelimiters s).tail := by
  induction ws with
  | nil =>
    have hne := splitDelimiters_ne_nil s
    rw [List.nil_append]
    cases hs : splitDelimiters s with
    | nil => exact absurd hs hne
    | cons seg segs => simp
  | cons c cs ih =>
    have hc : isDelimiter c = false := hws c (by simp)
    rw [List.cons_append, splitDelimiters_cons, ih (fun x hx => hws x (by simp [hx]))]
    simp [hc]

theorem splitDelimiters_padding_right (ws : List Char)
    (hws : ∀ c ∈ ws, isDelimiter c = false) :
    ∀ s : List Char, splitDelimiters (s ++ ws)
      = (splitDelimiters s).dropLast ++ [(splitDelimiters s).getLastD [] ++ ws] := by
  intro s
  induction s with
  | nil =>
    have := splitDelimiters_padding_left ws [] hws
    simpa [splitDelimiters] using this
  | cons c cs ih =>
    have hne := splitDelimiters_ne_nil cs
    rw [List.cons_append, splitDelimiters_cons, splitDelimiters_cons, ih]
    cases hs : splitDelimiters cs with
    | nil => exact absurd hs hne
    | cons seg segs =>
      split_ifs with hc
      · simp [List.dropLast]
      · cases segs with
        | nil => simp
        | cons seg2 segs2 => simp [List.dropLast]

theorem dropWhile_padding_left (p : Char → Bool) (ws s : List Char)
    (hws : ∀ c ∈ ws, p c = true) : (ws ++ s).dropWhile p = s.dropWhile p := by
  induction ws with
  | nil => rfl
  | cons c cs ih =>
    have hc : p c = true := hws c (by simp)
    simp only [List.cons_append, List.dropWhile_cons, hc, if_true]
    exact ih (fun x hx => hws x (by simp [hx]))

theorem dropWhile_padding_right (p : Char → Bool) (ws : List Char)
    (hws : ∀ c ∈ ws, p c = true) :
    ∀ s : List Char, (s ++ ws).dropWhile p
      = if s.dropWhile p = [] then [] else s.dropWhile p ++ ws := by
  intro s
  induction s with
  | nil =>
    have := dropWhile_padding_left p ws [] hws
    simpa using this
  | cons c cs ih =>
    simp only [List.cons_append, List.dropWhile_cons]
    by_cases hc : p c = true
    · simp only [hc, if_true]
      exact ih
    · simp [hc]

theorem trim_padding_left (ws s : List Char) (hws : ∀ c ∈ ws, isWhiteSpace c = true) :
    trim (ws ++ s) = trim s := by
  unfold trim
  rw [dropWhile_padding_left _ _ _ hws]

theorem trim_padding_right (ws s : List Char) (hws : ∀ c ∈ ws, isWhiteSpace c = true) :
    trim (s ++ ws) = trim s := by
  unfold trim
  rw [dropWhile_padding_right _ _ hws]
  split_ifs with h
  · simp [h]
  · rw [List.reverse_append, dropWhile_padding_left _ _ _ (by simpa using hws)]

theorem isDelimiter_of_isWhiteSpace {c : Char} (h : isWhiteSpace c = true) :
    isDelimiter c = false := by
  unfold isDelimiter
  have h1 : c ≠ ';' := by rintro rfl; revert h; decide
  have h2 : c ≠ ',' := by rintro rfl; revert h; decide
  simp [h1, h2]

theorem coverageTokens_append_delimiter (s t : List Char) (d : Char)
    (hd : isDelimiter d = true) :
    coverageTokens (s ++ d :: t) = coverageTokens s ++ coverageTokens t := by
  unfold coverageTokens
  rw [splitDelimiters_append_delimiter s t d hd, List.map_append, List.filter_append]

theorem coverageTokens_padding_left (ws s : List Char)
    (hws : ∀ c ∈ ws, isWhiteSpace c = true) : coverageTokens (ws ++ s) = coverageTokens s := by
  have hne := splitDelimiters_ne_nil s
  unfold coverageTokens
  rw [splitDelimiters_padding_left ws s (fun c hc => isDelimiter_of_isWhiteSpace (hws c hc))]
  cases hs : splitDelimiters s with
  | nil => exact absurd hs hne
  | cons seg segs => simp [trim_padding_left ws seg hws]

theorem coverageTokens_padding_right (ws s : List Char)
    (hws : ∀ c ∈ ws, isWhiteSpace c = true) : coverageTokens (s ++ ws) = coverageTokens s := by
  have hne := splitDelimiters_ne_nil s
  unfold coverageTokens
  rw [splitDelimiters_padding_right ws (fun c hc => isDelimiter_of_isWhiteSpace (hws c hc)) s]
  conv_rhs => rw [← List.dropLast_append_getLast hne]
  simp only [List.map_append, List.map_cons, List.map_nil, trim_padding_right _ _ hws]
  rw [List.getLastD_eq_getLast?, List.getLast?_eq_getLast _ hne]
  rfl

theorem matchesPostcodeRange_of_tokens (inputPostcode c1 c2 : List Char)
    (h : coverageTokens c1 = coverageTokens c2) :
    matchesPostcodeRange inputPostcode c1 = matchesPostcodeRange inputPostcode c2 := by
  have key : ∀ c : List Char, matchesPostcodeRange inputPostcode c
      = (decide (inputPostcode ≠ []) &&
          ((coverageTokens c).any
              (fun area => decide (cleanPostcode inputPostcode = toUpperCase area))
            || (coverageTokens c).any
              (fun area => (cleanPostcode inputPostcode).isPrefixOf (toUpperCase area))
            || (coverageTokens c).any
              (fun area => rangeCallback (cleanPostcode inputPostcode) area))) := by
    intro c
    by_cases hi : inputPostcode = []
    · simp [matchesPostcodeRange, hi]
    · by_cases hc : c = []
      · subst hc
        simp [matchesPostcodeRange, coverageTokens_nil]
      · rw [matchesPostcodeRange_eq _ _ hi hc]
        simp [hi]
  rw [key c1, key c2, h]

/-- Claim C8: the result of `matchesPostcodeRange` does not change when a
delimiter (`;` or `,`) of the coverage string is replaced by the other one,
nor when white space is added or removed on either side of it: any padding
`ws1`, `ws2` around the delimiter `d1` gives the same result as any padding
`ws3`, `ws4` around the delimiter `d2`. -/
theorem matchesPostcodeRange_delimiter_padding
    (inputPostcode before after ws1 ws2 ws3 ws4 : List Char) (d1 d2 : Char)
    (hd1 : isDelimiter d1 = true) (hd2 : isDelimiter d2 = true)
    (h1 : ∀ c ∈ ws1, isWhiteSpace c = true) (h2 : ∀ c ∈ ws2, isWhiteSpace c = true)
    (h3 : ∀ c ∈ ws3, isWhiteSpace c = true) (h4 : ∀ c ∈ ws4, isWhiteSpace c = true) :
    matchesPostcodeRange inputPostcode (before ++ ws1 ++ d1 :: (ws2 ++ after))
      = matchesPostcodeRange inputPostcode (before ++ ws3 ++ d2 :: (ws4 ++ after)) := by
  apply matchesPostcodeRange_of_tokens
  rw [coverageTokens_append_delimiter _ _ _ hd1, coverageTokens_append_delimiter _ _ _ hd2,
    coverageTokens_padding_right _ _ h1, coverageTokens_padding_right _ _ h3,
    coverageTokens_padding_left _ _ h2, coverageTokens_padding_left _ _ h4]

/-- Witness for claim C8, at a concrete input: the coverage
`G1-80;EH1-55` against `G1-80 ,  EH1-55`, for the input `EH7`. -/
theorem matchesPostcodeRange_delimiter_padding_witness :
    (isDelimiter ';' = true ∧ isDelimiter ',' = true
      ∧ (∀ c ∈ ([] : List Char), isWhiteSpace c = true)
      ∧ (∀ c ∈ [' '], isWhiteSpace c = true) ∧ (∀ c ∈ [' ', ' '], isWhiteSpace c = true))
    ∧ matchesPostcodeRange "EH7".toList ("G1-80".toList ++ [] ++ ';' :: ([] ++ "EH1-55".toList))
      = matchesPostcodeRange "EH7".toList
          ("G1-80".toList ++ [' '] ++ ',' :: ([' ', ' '] ++ "EH1-55".toList)) :=
  ⟨⟨by decide, by decide, by decide, by decide, by decide⟩,
    matchesPostcodeRange_delimiter_padding "EH7".toList "G1-80".toList "EH1-55".toList
      [] [] [' '] [' ', ' '] ';' ',' (by decide) (by decide) (by decide) (by decide)
      (by decide) (by decide)⟩

/-! ## Facts about the page loops -/

theorem pageLoop_false {α : Type} (host : CoqlHost α) (selectQuery : Nat → String)
    (failure : String) (allRecords : List α) (currentPage : Nat) (queries : List String) :
    (pageLoop host selectQuery failure allRecords currentPage false queries).queries
      = queries := by
  rw [pageLoop]
  simp

theorem queries_concat (selectQuery : Nat → String) (p : Nat) (queries : List String)
    (hq : queries.length + 1 = p)
    (hqs : ∀ k, k < queries.length → queries[k]? = some (selectQuery (k + 1))) :
    ∀ k, k < queries.length + 1 →
      (queries ++ [selectQuery p])[k]? = some (selectQuery (k + 1)) := by
  intro k hk
  by_cases hkq : k < queries.length
  · rw [List.getElem?_append_left hkq]; exact hqs k hkq
  · have : k = queries.length := by omega
    subst this
    rw [hq]
    simp

/-- The queries sent by a page loop entered at page `p` after `p - 1`
queries: at least one more and at most 50 in all, the query number `k` (from
0) is the one of page `k + 1`, and the loop sends nothing after an answer
that does not report more records. -/
theorem pageLoop_spec {α : Type} (host : CoqlHost α) (selectQuery : Nat → String)
    (failure : String) (n : Nat) :
    ∀ (p : Nat) (allRecords : List α) (queries : List String),
      p + n = 50 → queries.length + 1 = p →
      (∀ k, k < queries.length → queries[k]? = some (selectQuery (k + 1))) →
      queries.length
          < (pageLoop host selectQuery failure allRecords p true queries).queries.length
        ∧ (pageLoop host selectQuery failure allRecords p true queries).queries.length ≤ 50
        ∧ (∀ k, k < (pageLoop host selectQuery failure allRecords p true queries).queries.length →
            (pageLoop host selectQuery failure allRecords p true queries).queries[k]?
              = some (selectQuery (k + 1)))
        ∧ (∀ k, queries.length ≤ k →
            k < (pageLoop host selectQuery failure allRecords p true queries).queries.length →
            reportsMore (host k (selectQuery (k + 1))) = false →
            (pageLoop host selectQuery failure allRecords p true queries).queries.length
              = k + 1) := by
  induction n with
  | zero =>
    intro p allRecords queries hp hq hqs
    have hsingle := queries_concat selectQuery p queries hq hqs
    rw [pageLoop]
    simp only [if_true]
    cases hans : host queries.length (selectQuery p) with
    | error message =>
      simp only [List.length_append, List.length_singleton]
      exact ⟨by omega, by omega, hsingle, fun k h1 h2 _ => by omega⟩
    | ok response =>
      have hgt : p + 1 > 50 := by omega
      simp only [hgt, if_true, List.length_append, List.length_singleton]
      exact ⟨by omega, by omega, hsingle, fun k h1 h2 _ => by omega⟩
  | succ n ih =>
    intro p allRecords queries hp hq hqs
    have hsingle := queries_concat selectQuery p queries hq hqs
    rw [pageLoop]
    simp only [if_true]
    cases hans : host queries.length (selectQuery p) with
    | error message =>
      simp only [List.length_append, List.length_singleton]
      exact ⟨by omega, by omega, hsingle, fun k h1 h2 _ => by omega⟩
    | ok response =>
      have hle : ¬ p + 1 > 50 := by omega
      simp only [hle, if_false]
      cases hm : moreRecords response with
      | false =>
        rw [pageLoop_false]
        simp only [List.length_append, List.length_singleton]
        exact ⟨by omega, by omega, hsingle, fun k h1 h2 _ => by omega⟩
      | true =>
        obtain ⟨i1, i2, i3, i4⟩ := ih (p + 1) _ (queries ++ [selectQuery p]) (by omega)
          (by simp; omega) (by simpa using hsingle)
        simp only [List.length_append, List.length_singleton] at i1 i4
        refine ⟨by omega, i2, i3, ?_⟩
        intro k h1 h2 h3
        by_cases hk : k = queries.length
        · subst hk
          rw [hq, hans] at h3
          simp [reportsMore, hm] at h3
        · exact i4 k (by omega) h2 h3

theorem pageLoop_start {α : Type} (host : CoqlHost α) (selectQuery : Nat → String)
    (failure : String) :
    1 ≤ (pageLoop host selectQuery failure [] 1 true []).queries.length
      ∧ (pageLoop host selectQuery failure [] 1 true []).queries.length ≤ 50
      ∧ (∀ k, k < (pageLoop host selectQuery failure [] 1 true []).queries.length →
          (pageLoop host selectQuery failure [] 1 true []).queries[k]?
            = some (selectQuery (k + 1)))
      ∧ (∀ k, k < (pageLoop host selectQuery failure [] 1 true []).queries.length →
          reportsMore (host k (selectQuery (k + 1))) = false →
          (pageLoop host selectQuery failure [] 1 true []).queries.length = k + 1) := by
  obtain ⟨h1, h2, h3, h4⟩ := pageLoop_spec host selectQuery failure 49 1 [] [] (by norm_num)
    (by simp) (by simp)
  simp only [List.length_nil] at h1 h4
  exact ⟨by omega, h2, h3, fun k hk hr => h4 k (by omega) hk hr⟩

/-- Claim C9: whatever the host answers (also when every answer reports
`more_records = true`), `loadFitters` and `loadOrdersForDateRange` end after
at least one and at most 50 page queries, the query number `k` (from 0) being
the one of page `k + 1`, and they send no query after the first answer that
does not report `more_records`.  Both functions are total: the recursion of
`pageLoop` is well founded. -/
theorem load_queries_bounded {α : Type} (host : CoqlHost α) (startDate endDate : String) :
    (1 ≤ (loadFitters host).queries.length ∧ (loadFitters host).queries.length ≤ 50
      ∧ (∀ k, k < (loadFitters host).queries.length →
          (loadFitters host).queries[k]? = some (fittersQuery (k + 1)))
      ∧ (∀ k, k < (loadFitters host).queries.length →
          reportsMore (host k (fittersQuery (k + 1))) = false →
          (loadFitters host).queries.length = k + 1))
    ∧ (1 ≤ (loadOrdersForDateRange host startDate endDate).queries.length
      ∧ (loadOrdersForDateRange host startDate endDate).queries.length ≤ 50
      ∧ (∀ k, k < (loadOrdersForDateRange host startDate endDate).queries.length →
          (loadOrdersForDateRange host startDate endDate).queries[k]?
            = some (ordersQuery startDate endDate (k + 1)))
      ∧ (∀ k, k < (loadOrdersForDateRange host startDate endDate).queries.length →
          reportsMore (host k (ordersQuery startDate endDate (k + 1))) = false →
          (loadOrdersForDateRange host startDate endDate).queries.length = k + 1)) :=
  ⟨pageLoop_start host fittersQuery _, pageLoop_start host (ordersQuery startDate endDate) _⟩

/-! ## Facts about the processing of orders -/

/-- Claim C10: for every previous content of `orders` and every response
`r`, after `processOrdersData(r)` the array `orders` has one entry per record
of `r.data`, the entry number `i` being built from the record number `i` and
carrying its `id`; the result is the same whatever `orders` held before, and
it is empty when `r.data` is missing.  The array `fitters` is not changed. -/
theorem processOrdersData_orders (rt : Runtime) (s : State) (r : OrdersResponse) :
    (processOrdersData rt s r).orders.length = (r.data.getD []).length
      ∧ (processOrdersData rt s r).orders.map (fun o => o.id)
          = (r.data.getD []).map (fun record => record.id)
      ∧ (∀ i : Nat, (processOrdersData rt s r).orders[i]?
          = ((r.data.getD [])[i]?).map (processOrder rt s.fitters))
      ∧ (∀ previous : List Order,
          (processOrdersData rt { s with orders := previous } r).orders
            = (processOrdersData rt s r).orders)
      ∧ (r.data = none → (processOrdersData rt s r).orders = [])
      ∧ (processOrdersData rt s r).fitters = s.fitters := by
  refine ⟨?_, ?_, ?_, ?_, ?_, rfl⟩
  · simp [processOrdersData]
  · simp only [processOrdersData, List.map_map]
    apply List.map_congr_left
    intro record _
    rfl
  · intro i
    simp [processOrdersData]
  · intro previous
    rfl
  · intro h
    simp [processOrdersData, h]

/-! ## Facts about the skills shortage parser -/

theorem topLevelSegments_ne_nil (depth : Nat) (s : List Char) : topLevelSegments depth s ≠ [] := by
  cases s with
  | nil => simp [topLevelSegments]
  | cons c cs =>
    unfold topLevelSegments
    split_ifs
    · simp
    · split <;> simp

theorem topLevelSegments_cut (depth : Nat) (c : Char) (cs : List Char)
    (h : c = ',' ∧ depth = 0) :
    topLevelSegments depth (c :: cs) = [] :: topLevelSegments depth cs := by
  rw [topLevelSegments, if_pos h]

theorem topLevelSegments_keep (depth : Nat) (c : Char) (cs : List Char)
    (h : ¬ (c = ',' ∧ depth = 0)) :
    topLevelSegments depth (c :: cs)
      = (c :: (topLevelSegments (depthAfter depth c) cs).headD [])
          :: (topLevelSegments (depthAfter depth c) cs).tail := by
  have hne := topLevelSegments_ne_nil (depthAfter depth c) cs
  rw [topLevelSegments, if_neg h]
  cases hs : topLevelSegments (depthAfter depth c) cs with
  | nil => exact absurd hs hne
  | cons seg segs => simp

theorem parseLoop_open (rest : List Char) (result : List (List Char)) (current : List Char)
    (parenCount : Int) :
    parseLoop ('(' :: rest) result current parenCount
      = parseLoop rest result (current ++ ['(']) (parenCount + 1) := by
  rw [parseLoop, if_pos rfl]

theorem parseLoop_close (rest : List Char) (result : List (List Char)) (current : List Char)
    (parenCount : Int) :
    parseLoop (')' :: rest) result current parenCount
      = parseLoop rest result (current ++ [')']) (parenCount - 1) := by
  rw [parseLoop, if_neg (by decide), if_pos rfl]

theorem parseLoop_cut (rest : List Char) (result : List (List Char)) (current : List Char) :
    parseLoop (',' :: rest) result current 0
      = if trim current ≠ [] then parseLoop rest (result ++ [trim current]) [] 0
        else parseLoop rest result current 0 := by
  rw [parseLoop, if_neg (by decide), if_neg (by decide), if_pos ⟨rfl, rfl⟩]

theorem parseLoop_keep (c : Char) (rest : List Char) (result : List (List Char))
    (current : List Char) (parenCount : Int) (h1 : c ≠ '(') (h2 : c ≠ ')')
    (h3 : ¬ (c = ',' ∧ parenCount = 0)) :
    parseLoop (c :: rest) result current parenCount
      = parseLoop rest result (current ++ [c]) parenCount := by
  rw [parseLoop, if_neg h1, if_neg h2, if_neg h3]

theorem isWhiteSpace_of_trim_eq_nil {s : List Char} (h : trim s = []) :
    ∀ c ∈ s, isWhiteSpace c = true := by
  unfold trim at h
  rw [List.reverse_eq_nil_iff] at h
  by_cases hd : s.dropWhile isWhiteSpace = []
  · simpa [List.dropWhile_eq_nil_iff] using hd
  · exfalso
    have hhead := List.head_dropWhile_not isWhiteSpace s hd
    rw [List.dropWhile_eq_nil_iff] at h
    have := h ((s.dropWhile isWhiteSpace).head hd) (by simp [List.head_mem])
    simp [this] at hhead

theorem trimmedNonEmpty_cons (seg : List Char) (segs : List (List Char)) :
    trimmedNonEmpty (seg :: segs)
      = (if trim seg ≠ [] then [trim seg] else []) ++ trimmedNonEmpty segs := by
  unfold trimmedNonEmpty
  by_cases h : trim seg = [] <;> simp [List.filter_cons, h]

theorem headD_cons_tail {segs : List (List Char)} (h : segs ≠ []) :
    segs.headD [] :: segs.tail = segs := by
  cases segs with
  | nil => exact absurd rfl h
  | cons seg segs => rfl

/-- What the loop of `parseSkillsShortageString` computes from any state when
no closing parenthesis comes at depth 0: the items already in `result`, then
the trimmed non-empty segments of what is still to read, the first of them
continuing `current`. -/
theorem parseLoop_spec :
    ∀ (rest : List Char) (result : List (List Char)) (current : List Char) (depth : Nat),
      balancedFrom depth rest = true →
      pushCurrent (parseLoop rest result current depth).1 (parseLoop rest result current depth).2
        = result ++ trimmedNonEmpty
            ((current ++ (topLevelSegments depth rest).headD [])
              :: (topLevelSegments depth rest).tail) := by
  intro rest
  induction rest with
  | nil =>
    intro result current depth _
    simp only [parseLoop, topLevelSegments, List.headD_cons, List.tail_cons, List.append_nil,
      trimmedNonEmpty_cons, pushCurrent]
    by_cases h : trim current = [] <;> simp [h, trimmedNonEmpty]
  | cons c cs ih =>
    intro result current depth hb
    rw [balancedFrom] at hb
    by_cases h1 : c = '('
    · subst h1
      have hd : depthAfter depth '(' = depth + 1 := by simp [depthAfter]
      rw [if_neg (by simp), hd] at hb
      rw [parseLoop_open, topLevelSegments_keep _ _ _ (by simp), hd]
      have := ih result (current ++ ['(']) (depth + 1) hb
      rw [Nat.cast_add, Nat.cast_one] at this
      rw [this]
      simp
    · by_cases h2 : c = ')'
      · subst h2
        have hpos : depth ≠ 0 := by
          intro h0
          simp [h0] at hb
        have hd : depthAfter depth ')' = depth - 1 := by simp [depthAfter]
        rw [if_neg (by simp [hpos]), hd] at hb
        rw [parseLoop_close, topLevelSegments_keep _ _ _ (by simp), hd]
        have := ih result (current ++ [')']) (depth - 1) hb
        have hcast : ((depth - 1 : Nat) : Int) = (depth : Int) - 1 := by omega
        rw [hcast] at this
        rw [this]
        simp
      · have hd : depthAfter depth c = depth := by simp [depthAfter, h1, h2]
        rw [if_neg (by simp [h2]), hd] at hb
        have hne0 := topLevelSegments_ne_nil depth cs
        by_cases h3 : c = ',' ∧ depth = 0
        · obtain ⟨rfl, rfl⟩ := h3
          rw [topLevelSegments_cut _ _ _ ⟨rfl, rfl⟩, Nat.cast_zero, parseLoop_cut]
          simp only [List.headD_cons, List.tail_cons, List.append_nil]
          by_cases ht : trim current = []
          · rw [if_neg (by simp [ht])]
            have := ih result current 0 hb
            rw [Nat.cast_zero] at this
            rw [this]
            obtain ⟨seg, segs, hs⟩ := List.exists_cons_of_ne_nil hne0
            rw [hs]
            simp only [List.headD_cons, List.tail_cons, trimmedNonEmpty_cons,
              trim_padding_left _ _ (isWhiteSpace_of_trim_eq_nil ht), ht]
            simp
          · rw [if_pos ht]
            have := ih (result ++ [trim current]) [] 0 hb
            rw [Nat.cast_zero] at this
            rw [this, List.nil_append, headD_cons_tail hne0, trimmedNonEmpty_cons, if_pos ht,
              List.append_assoc]
        · have h3' : ¬ (c = ',' ∧ (depth : Int) = 0) := by
            intro h
            exact h3 ⟨h.1, by exact_mod_cast h.2⟩
          rw [parseLoop_keep c cs result current depth h1 h2 h3',
            topLevelSegments_keep _ _ _ h3, hd, ih result (current ++ [c]) depth hb]
          simp

theorem trimmedNonEmpty_filter (segments : List (List Char)) :
    (trimmedNonEmpty segments).filter (fun item => decide (item.length > 0))
      = trimmedNonEmpty segments := by
  rw [List.filter_eq_self]
  intro item hitem
  unfold trimmedNonEmpty at hitem
  have := (List.mem_filter.1 hitem).2
  simp only [decide_eq_true_eq] at this
  simpa [List.length_pos] using this

/-- Claim C17: for every string with balanced parentheses,
`parseSkillsShortageString` returns, in order, the trimmed non-empty segments
obtained by cutting the string at the commas at parenthesis depth 0; a comma
inside parentheses is never a cut. -/
theorem parseSkillsShortageString_segments (str : List Char)
    (h : balancedFrom 0 str = true) :
    parseSkillsShortageString str = trimmedNonEmpty (topLevelSegments 0 str) := by
  have hspec := parseLoop_spec str [] [] 0 h
  rw [Nat.cast_zero, List.nil_append, List.nil_append,
    headD_cons_tail (topLevelSegments_ne_nil 0 str)] at hspec
  unfold parseSkillsShortageString
  simp only
  rw [hspec, trimmedNonEmpty_filter]

/-- Witness for claim C17, at the string
`Complex (Pumps, Wetrooms), Tiling`, which gives two items. -/
theorem parseSkillsShortageString_segments_witness :
    balancedFrom 0 "Complex (Pumps, Wetrooms), Tiling".toList = true
      ∧ parseSkillsShortageString "Complex (Pumps, Wetrooms), Tiling".toList
          = trimmedNonEmpty (topLevelSegments 0 "Complex (Pumps, Wetrooms), Tiling".toList)
      ∧ parseSkillsShortageString "Complex (Pumps, Wetrooms), Tiling".toList
          = ["Complex (Pumps, Wetrooms)".toList, "Tiling".toList] :=
  ⟨by decide, parseSkillsShortageString_segments _ (by decide), by decide⟩

/-! ## Facts about navigation -/

theorem gridStart_add_98 (tza currentDate weekOffset : Int) :
    gridStart tza currentDate (weekOffset + 98)
        = gridStart tza currentDate weekOffset + 98 * msPerDay
      ∧ gridStart tza currentDate (weekOffset - 98)
        = gridStart tza currentDate weekOffset - 98 * msPerDay := by
  simp only [gridStart_eq]
  unfold msPerDay
  constructor <;> omega

/-- The date strings of the descriptor of loop variable `i`, as day numbers
in UTC, and the date of its label, a local date. -/
theorem weekDescriptor_dates (tza today start i : Int) :
    (weekDescriptor tza today start i).weekStart.toDay = day (start + i * 7 * msPerDay)
      ∧ (weekDescriptor tza today start i).weekEnd.toDay = day (start + i * 7 * msPerDay) + 6
      ∧ (weekDescriptor tza today start i).date = (weekDescriptor tza today start i).weekStart
      ∧ (weekDescriptor tza today start i).labelDate
          = civilOfDay (day (localTime tza (start + i * 7 * msPerDay))) := by
  unfold weekDescriptor
  simp only [setDate_getDate_add, toISODate, toLocaleDate, civilOfDay_toDay, day_add_mul]
  exact ⟨trivial, trivial, trivial, trivial⟩

/-- Claim C18: after `goToNextWeek` the first week of the new grid starts 7
days after the start of the last week of the previous grid (its `weekStart`
is the day after the previous `weekEnd`); after `goToPreviousWeek` the last
week of the new grid starts 7 days before the first week of the previous
grid; and `goToPreviousWeek` after `goToNextWeek` gives back the state, hence
the grid. -/
theorem navigation_adjacent (tza today today' : Int) (s : State) :
    (∃ first last, (gridOf tza today' (goToNextWeek s))[0]? = some first
        ∧ (gridOf tza today s)[13]? = some last
        ∧ first.fullDate = last.fullDate + 7 * msPerDay
        ∧ first.weekStart.toDay = last.weekEnd.toDay + 1)
      ∧ (∃ last first, (gridOf tza today' (goToPreviousWeek s))[13]? = some last
        ∧ (gridOf tza today s)[0]? = some first
        ∧ first.fullDate = last.fullDate + 7 * msPerDay
        ∧ first.weekStart.toDay = last.weekEnd.toDay + 1)
      ∧ goToPreviousWeek (goToNextWeek s) = s
      ∧ gridOf tza today (goToPreviousWeek (goToNextWeek s)) = gridOf tza today s := by
  have hback : goToPreviousWeek (goToNextWeek s) = s := by
    cases s
    simp [goToPreviousWeek, goToNextWeek]
  refine ⟨?_, ?_, hback, by rw [hback]⟩
  · refine ⟨_, _, getThreeWeekDays_getElem tza _ _ today' 0 (by norm_num),
      getThreeWeekDays_getElem tza _ _ today 13 (by norm_num), ?_, ?_⟩
    · simp only [(weekDescriptor_fullDate _ _ _ _).1, goToNextWeek, (gridStart_add_98 _ _ _).1]
      unfold msPerDay
      push_cast
      omega
    · simp only [(weekDescriptor_dates _ _ _ _).1, (weekDescriptor_dates _ _ _ _).2.1,
        goToNextWeek, (gridStart_add_98 _ _ _).1]
      unfold day msPerDay
      push_cast
      omega
  · refine ⟨_, _, getThreeWeekDays_getElem tza _ _ today' 13 (by norm_num),
      getThreeWeekDays_getElem tza _ _ today 0 (by norm_num), ?_, ?_⟩
    · simp only [(weekDescriptor_fullDate _ _ _ _).1, goToPreviousWeek, (gridStart_add_98 _ _ _).2]
      unfold msPerDay
      push_cast
      omega
    · simp only [(weekDescriptor_dates _ _ _ _).1, (weekDescriptor_dates _ _ _ _).2.1,
        goToPreviousWeek, (gridStart_add_98 _ _ _).2]
      unfold day msPerDay
      push_cast
      omega

/-- Claim C19: with `weekOffset = 0` the descriptor at index 1 is the week of
the reference date: its `fullDate` is a local Monday, the local calendar day
of `currentDate` is that Monday or one of the six days after it, and its
label carries the date of that Monday; the descriptor at index 0 is the week
before, 7 days earlier.  The strings `weekStart` and `weekEnd` of the
descriptor at index 1 span 7 days that contain the UTC day of `currentDate`,
and follow those of the descriptor at index 0. -/
theorem current_week_second (tza currentDate today : Int) :
    ∃ w0 w1, (getThreeWeekDays tza currentDate 0 today)[0]? = some w0
      ∧ (getThreeWeekDays tza currentDate 0 today)[1]? = some w1
      ∧ getDay tza w1.fullDate = 1
      ∧ day (localTime tza w1.fullDate) = mondayOfWeek (day (localTime tza currentDate))
      ∧ day (localTime tza w1.fullDate) ≤ day (localTime tza currentDate)
      ∧ day (localTime tza currentDate) ≤ day (localTime tza w1.fullDate) + 6
      ∧ w1.labelDate = civilOfDay (mondayOfWeek (day (localTime tza currentDate)))
      ∧ w1.fullDate = w0.fullDate + 7 * msPerDay
      ∧ w0.labelDate = civilOfDay (mondayOfWeek (day (localTime tza currentDate)) - 7)
      ∧ w1.weekStart.toDay ≤ day currentDate ∧ day currentDate ≤ w1.weekEnd.toDay
      ∧ w1.weekEnd.toDay = w1.weekStart.toDay + 6
      ∧ w1.weekStart.toDay = w0.weekEnd.toDay + 1 := by
  refine ⟨_, _, getThreeWeekDays_getElem tza _ _ today 0 (by norm_num),
    getThreeWeekDays_getElem tza _ _ today 1 (by norm_num), ?_⟩
  have hstart := gridStart_eq tza currentDate 0
  have hday : day (localTime tza (gridStart tza currentDate 0))
      = mondayOfWeek (day (localTime tza currentDate)) := by
    rw [hstart]
    unfold mondayOfWeek localTime day msPerDay
    omega
  have hday0 : day (localTime tza (gridStart tza currentDate 0 + -(7 * msPerDay)))
      = mondayOfWeek (day (localTime tza currentDate)) - 7 := by
    rw [← hday]
    unfold localTime day msPerDay
    omega
  simp only [(weekDescriptor_fullDate _ _ _ _).1, (weekDescriptor_dates _ _ _ _).1,
    (weekDescriptor_dates _ _ _ _).2.1, (weekDescriptor_dates _ _ _ _).2.2.2]
  norm_num
  rw [hday, hday0]
  and_intros
  all_goals first
    | rfl
    | exact getDay_gridStart tza currentDate 0
    | (unfold mondayOfWeek; omega)
    | (rw [hstart]; unfold day msPerDay localTime; omega)

/-! ## Facts about holidays and the demo data -/

theorem allBooked_filter (holidays : List Holiday) :
    AllBooked (holidays.filter (fun holiday => holiday.activeStatus = "Booked")) := by
  intro holiday h
  simpa using (List.mem_filter.1 h).2

theorem allBooked_loadHolidaysData (host : RelatedHost) (s : State)
    (h : AllBooked s.holidays) : AllBooked (loadHolidaysData host s).holidays := by
  unfold loadHolidaysData
  split_ifs
  · exact h
  · exact allBooked_filter _

/-- Claim C20: the array `holidays` is empty at the start, and when every
holiday in it has `activeStatus` equal to `Booked`, the same holds after
`loadHolidaysData`, whatever the host answers, and after `deleteHoliday`,
whatever the dialog and the host answer. -/
theorem holidays_booked (host : RelatedHost) (confirmed : Bool)
    (updateAnswer : Except String (Option UpdateResponse)) (holidayId : String) (s : State)
    (h : AllBooked s.holidays) :
    (∀ now : Int, AllBooked (initialState now).holidays)
      ∧ AllBooked (loadHolidaysData host s).holidays
      ∧ AllBooked (deleteHoliday confirmed updateAnswer host holidayId s).holidays := by
  refine ⟨by intro now holiday hm; simp [initialState] at hm,
    allBooked_loadHolidaysData host s h, ?_⟩
  unfold deleteHoliday
  split_ifs
  · exact h
  · split
    · exact h
    · exact h
    · split
      · split_ifs
        · apply allBooked_loadHolidaysData
          intro holiday hm
          exact h holiday (List.mem_of_mem_filter hm)
        · exact h
      · exact h

/-- Witness for claim C20, at a state with the demo fitters and one booked
holiday, a host that answers one cancelled holiday for every fitter, and a
confirmed deletion that the host accepts. -/
theorem holidays_booked_witness :
    AllBooked ({ initialState 0 with
        fitters := demoFitters
        holidays := [⟨"1", "Aaron Cartwright", "h1", "Holiday", "On Holiday", "Booked",
          some "2024-07-01", none, none⟩] } : State).holidays
      ∧ ((∀ now : Int, AllBooked (initialState now).holidays)
        ∧ AllBooked (loadHolidaysData
            (fun _ _ => .ok (some ⟨some [⟨"h2", none, none, none, none, some "Cancelled", none,
              some "2024-07-08", none, none⟩]⟩))
            { initialState 0 with
              fitters := demoFitters
              holidays := [⟨"1", "Aaron Cartwright", "h1", "Holiday", "On Holiday", "Booked",
                some "2024-07-01", none, none⟩] }).holidays
        ∧ AllBooked (deleteHoliday true (.ok (some ⟨some [⟨some "success"⟩]⟩))
            (fun _ _ => .ok (some ⟨some [⟨"h2", none, none, none, none, some "Cancelled", none,
              some "2024-07-08", none, none⟩]⟩)) "h1"
            { initialState 0 with
              fitters := demoFitters
              holidays := [⟨"1", "Aaron Cartwright", "h1", "Holiday", "On Holiday", "Booked",
                some "2024-07-01", none, none⟩] }).holidays) :=
  ⟨by unfold AllBooked; decide, holidays_booked _ _ _ _ _ (by unfold AllBooked; decide)⟩

/-- Claim C11: `loadCalendarData` takes the demo data exactly when the host
SDK is unavailable (`ZOHO` undefined, or `embeddedApp` or `CRM.API.coql`
missing).  In that case `fitters` becomes the 10 demo fitters and `orders`
the 3 demo orders; otherwise `loadRealData` is called and the state is left
as it was when `loadCalendarData` returns.  Every demo order has the `id` of
a demo fitter as `fitterId`. -/
theorem loadCalendarData_demo (zoho : Option ZohoSdk) (tza today : Int) (s : State) :
    ((loadCalendarData zoho tza today s).realDataRequested = false ↔ SdkUnavailable zoho)
      ∧ (SdkUnavailable zoho →
          (loadCalendarData zoho tza today s).state.fitters = demoFitters
            ∧ (loadCalendarData zoho tza today s).state.orders = demoOrders tza today)
      ∧ (¬ SdkUnavailable zoho →
          (loadCalendarData zoho tza today s).state = s
            ∧ (loadCalendarData zoho tza today s).realDataRequested = true)
      ∧ demoFitters.length = 10 ∧ (demoOrders tza today).length = 3
      ∧ (∀ order ∈ demoOrders tza today, ∃ fitter ∈ demoFitters,
          order.fitterId = FieldValue.text fitter.id) := by
  have hready : sdkReady zoho = false ↔ SdkUnavailable zoho := by
    unfold sdkReady SdkUnavailable
    cases zoho with
    | none => simp
    | some sdk =>
      cases hc : sdk.CRM with
      | none => simp [hc]
      | some crm =>
        cases ha : crm.API with
        | none => simp [hc, ha]
        | some api =>
          cases he : sdk.embeddedApp <;> cases hq : api.coql <;> simp [hc, ha, he, hq]
  refine ⟨?_, ?_, ?_, rfl, rfl, ?_⟩
  · rw [← hready]
    unfold loadCalendarData
    cases sdkReady zoho <;> simp
  · intro h
    rw [← hready] at h
    simp [loadCalendarData, h, loadDemoData]
  · intro h
    rw [← hready] at h
    simp only [Bool.not_eq_false] at h
    simp [loadCalendarData, h]
  · intro order horder
    simp only [demoOrders, List.mem_cons, List.mem_singleton, List.not_mem_nil, or_false]
      at horder
    rcases horder with rfl | rfl | rfl
    · exact ⟨demoFitter "1" "Aaron Cartwright" "Tiled Bathrooms, Wetwall Bathrooms"
        "Complex (Pumps, Wetrooms)" "G1-80" "High", by simp [demoFitters], rfl⟩
    · exact ⟨demoFitter "2" "David Hamilton" "Tiled Bathrooms" "" "EH1-55" "Medium",
        by simp [demoFitters], rfl⟩
    · exact ⟨demoFitter "3" "Stephen Clark" "Laminate Kitchens, Mistral Kitchens"
        "Painting (Painting, Wallpapering)" "FK1-20" "High", by simp [demoFitters], rfl⟩

/-! ## Facts about the audit status -/

theorem trim_eq_nil_iff (s : List Char) : trim s = [] ↔ ∀ c ∈ s, isWhiteSpace c = true := by
  constructor
  · exact isWhiteSpace_of_trim_eq_nil
  · intro h
    have : s.dropWhile isWhiteSpace = [] := by simpa [List.dropWhile_eq_nil_iff] using h
    simp [trim, this]

theorem isDataAvailable_iff (value : Option String) :
    isDataAvailable value = true ↔ IsPresent value := by
  unfold isDataAvailable IsPresent missingDataTexts
  cases value with
  | none => simp
  | some v => simp [and_assoc]

theorem hasSkillset_iff (skillset : FieldData) :
    (match skillset with
      | .list items => decide (items.length > 0)
      | .text s =>
        if s ≠ "" then decide (trim s.toList ≠ []) && decide (s ≠ "Missing Data") else false
      | _ => false) = true ↔ NonEmptySkillset skillset := by
  unfold NonEmptySkillset
  cases skillset with
  | undefined => simp
  | null => simp
  | list items => simp [List.length_pos]
  | text s =>
    have ht : trim s.toList ≠ [] ↔ ∃ c ∈ s.toList, isWhiteSpace c = false := by
      rw [ne_eq, trim_eq_nil_iff]
      simp
    by_cases hs : s = ""
    · subst hs
      simp
    · simp only [hs, ne_eq, not_false_eq_true, if_true, Bool.and_eq_true, decide_eq_true_eq]
      rw [← ht]

theorem hasSkillsShortage_iff (skillsShortage : FieldData) :
    (match skillsShortage with
      | .list _ => true
      | .text s => decide (s ≠ "Missing Data")
      | _ => false) = true ↔ ShortageFieldPresent skillsShortage := by
  unfold ShortageFieldPresent
  cases skillsShortage <;> simp

/-- Claim C16: `calculateAuditStatus` returns `complete` exactly when all
seven audited items are present (a non-empty skillset, a postcode area, a
skills-shortage field, for which an empty list and an empty string count as
present, work consistency, terms and conditions, insurance status, and both
the PL insurance number and the PL date), and `incomplete` exactly when one
of them is missing. -/
theorem calculateAuditStatus_complete_iff (fitter : FitterRecord) :
    (calculateAuditStatus fitter = "complete" ↔ AllItemsPresent fitter)
      ∧ (calculateAuditStatus fitter = "incomplete" ↔ ¬ AllItemsPresent fitter)
      ∧ ShortageFieldPresent (.list []) ∧ ShortageFieldPresent (.text "") := by
  have hs := hasSkillset_iff fitter.skillset
  have hh := hasSkillsShortage_iff fitter.skillsShortage
  have h1 := isDataAvailable_iff fitter.postcodesCovered
  have h2 := isDataAvailable_iff fitter.workConsistency
  have h3 := isDataAvailable_iff fitter.termsMasdouk
  have h4 := isDataAvailable_iff fitter.insuranceStatus
  have h5 := isDataAvailable_iff fitter.plInsuranceNo
  have h6 := isDataAvailable_iff fitter.plDate
  unfold AllItemsPresent
  rw [← hs, ← hh, ← h1, ← h2, ← h3, ← h4, ← h5, ← h6]
  unfold calculateAuditStatus
  simp only
  generalize (match fitter.skillset with
    | .list items => decide (items.length > 0)
    | .text s =>
      if s ≠ "" then decide (trim s.toList ≠ []) && decide (s ≠ "Missing Data") else false
    | _ => false) = b1
  generalize (match fitter.skillsShortage with
    | .list _ => true
    | .text s => decide (s ≠ "Missing Data")
    | _ => false) = b2
  generalize isDataAvailable fitter.postcodesCovered = b3
  generalize isDataAvailable fitter.workConsistency = b4
  generalize isDataAvailable fitter.termsMasdouk = b5
  generalize isDataAvailable fitter.insuranceStatus = b6
  generalize isDataAvailable fitter.plInsuranceNo = b7
  generalize isDataAvailable fitter.plDate = b8
  refine ⟨?_, ?_, trivial, by simp [ShortageFieldPresent]⟩
  · cases b1 <;> cases b2 <;> cases b3 <;> cases b4 <;> cases b5 <;> cases b6 <;> cases b7 <;>
      cases b8 <;> decide
  · cases b1 <;> cases b2 <;> cases b3 <;> cases b4 <;> cases b5 <;> cases b6 <;> cases b7 <;>
      cases b8 <;> decide

/-! ## Facts about the filters -/

theorem lowerChar_idem (c : Char) : lowerChar (lowerChar c) = lowerChar c := by
  unfold lowerChar
  by_cases h : 65 ≤ c.toNat ∧ c.toNat ≤ 90
  · rw [if_pos h]
    have hc : c = Char.ofNat c.toNat := (Char.ofNat_toNat c).symm
    generalize c.toNat = k at *
    obtain ⟨h1, h2⟩ := h
    interval_cases k <;> decide
  · rw [if_neg h, if_neg h]

theorem toLowerCase_idem (s : List Char) : toLowerCase (toLowerCase s) = toLowerCase s := by
  unfold toLowerCase
  rw [List.map_map]
  apply List.map_congr_left
  intro c _
  exact lowerChar_idem c

theorem includes_self (s : List Char) : includes s s = true := by
  unfold includes
  cases s with
  | nil => simp
  | cons c cs => simp [List.tails]

theorem passesFilters_shortage {s : State} {fitter : Fitter}
    (h : passesFilters s fitter = true) (hsel : s.filters.skillsShortage ≠ []) :
    hasAnySelectedShortage s.filters.skillsShortage (shortagesOf fitter.skillsShortage)
      = false := by
  unfold passesFilters at h
  have hlen : s.filters.skillsShortage.length > 0 := List.length_pos.2 hsel
  split_ifs at h with h1 h2 h3
  simp only [hlen, true_and] at h3
  simpa using h3

theorem passesFilters_postcode {s : State} {fitter : Fitter}
    (h : passesFilters s fitter = true) (hp : s.filters.postcode ≠ "") :
    matchesPostcodeRange s.filters.postcode.toList fitter.postcodesCovered.toList = true := by
  unfold passesFilters at h
  split_ifs at h with h1 h2 h3 h4
  simp only [hp, ne_eq, not_false_eq_true, true_and] at h4
  simpa using h4

/-- Claim C14: with a non-empty selection of skills shortages,
`filterFitters` returns no fitter whose skills shortage is a
comma/semicolon-delimited string with an item that is equal, ignoring case, to
a selected value. -/
theorem filterFitters_excludes_selected (s : State) (fitter : Fitter) (text : String)
    (item : List Char) (selected : String)
    (hf : fitter ∈ filterFitters s) (htext : fitter.skillsShortage = .text text)
    (hitem : item ∈ delimitedItems text.toList)
    (hselected : selected ∈ s.filters.skillsShortage) :
    toLowerCase item ≠ toLowerCase selected.toList := by
  intro heq
  have hpass : passesFilters s fitter = true := (List.mem_filter.1 hf).2
  have hnone := passesFilters_shortage hpass (List.ne_nil_of_mem hselected)
  rw [htext] at hnone
  have hmem : toLowerCase item ∈ shortagesOf (.text text) := by
    unfold delimitedItems trimmedNonEmpty at hitem
    obtain ⟨h1, h2⟩ := List.mem_filter.1 hitem
    obtain ⟨seg, hseg, rfl⟩ := List.mem_map.1 h1
    unfold shortagesOf shortagesOfText
    refine List.mem_filter.2 ⟨List.mem_map.2 ⟨seg, hseg, rfl⟩, ?_⟩
    simp only [decide_eq_true_eq] at h2
    simpa [toLowerCase, List.length_pos] using h2
  have : hasAnySelectedShortage s.filters.skillsShortage (shortagesOf (.text text)) = true := by
    unfold hasAnySelectedShortage
    rw [List.any_eq_true]
    refine ⟨selected, hselected, ?_⟩
    rw [List.any_eq_true]
    refine ⟨toLowerCase item, hmem, ?_⟩
    rw [toLowerCase_idem, ← heq, includes_self]
    rfl
  rw [this] at hnone
  exact Bool.noConfusion hnone

/-- Witness for claim C14, at the demo data with the selection `tiling`: the
fitter `Stephen Clark` is returned, and `Wallpapering)` is an item of his
skills shortage `Painting (Painting, Wallpapering)`. -/
theorem filterFitters_excludes_selected_witness :
    (demoFitter "3" "Stephen Clark" "Laminate Kitchens, Mistral Kitchens"
          "Painting (Painting, Wallpapering)" "FK1-20" "High"
        ∈ filterFitters { loadDemoData 0 1720346400000 (initialState 1720346400000) with
            filters := { noFilters with skillsShortage := ["tiling"] } }
      ∧ (demoFitter "3" "Stephen Clark" "Laminate Kitchens, Mistral Kitchens"
          "Painting (Painting, Wallpapering)" "FK1-20" "High").skillsShortage
          = .text "Painting (Painting, Wallpapering)"
      ∧ "Wallpapering)".toList ∈ delimitedItems "Painting (Painting, Wallpapering)".toList
      ∧ "tiling" ∈ ({ loadDemoData 0 1720346400000 (initialState 1720346400000) with
            filters := { noFilters with skillsShortage := ["tiling"] } } : State).filters.skillsShortage)
      ∧ toLowerCase "Wallpapering)".toList ≠ toLowerCase "tiling".toList :=
  ⟨⟨by decide, rfl, by decide, by decide⟩,
    filterFitters_excludes_selected
      { loadDemoData 0 1720346400000 (initialState 1720346400000) with
        filters := { noFilters with skillsShortage := ["tiling"] } }
      (demoFitter "3" "Stephen Clark" "Laminate Kitchens, Mistral Kitchens"
        "Painting (Painting, Wallpapering)" "FK1-20" "High")
      "Painting (Painting, Wallpapering)" "Wallpapering)".toList "tiling"
      (by decide) rfl (by decide) (by decide)⟩

theorem mem_sortBy {α : Type} (compare : α → α → Int) (l : List α) (x : α) :
    x ∈ sortBy compare l ↔ x ∈ l :=
  (List.perm_insertionSort _ l).mem_iff

theorem mem_createWeekCell {parseDate : String → Option Int}
    {localeCompare : String → String → Int} {s : State} {fitter : Fitter}
    {week : WeekDescriptor} {order : Order}
    (h : order ∈ createWeekCell parseDate localeCompare s fitter week) :
    order ∈ s.orders ∧ order.fitterId = FieldValue.text fitter.id := by
  unfold createWeekCell at h
  rw [mem_sortBy] at h
  obtain ⟨h1, h2⟩ := List.mem_filter.1 h
  refine ⟨h1, ?_⟩
  by_contra hne
  simp [hne] at h2

/-- Claim C13: with a non-empty postcode filter, every order put into the
calendar body by `updateCalendarBody` is an order of the fitter of its row,
and the coverage of that fitter matches the filter according to
`matchesPostcodeRange`. -/
theorem updateCalendarBody_postcode (parseDate : String → Option Int)
    (localeCompare : String → String → Int) (s : State) (weeks : List WeekDescriptor)
    (hp : s.filters.postcode ≠ "") :
    ∀ row ∈ updateCalendarBody parseDate localeCompare s weeks,
      ∀ cell ∈ row.2, ∀ order ∈ cell,
        order ∈ s.orders ∧ row.1 ∈ s.fitters ∧ order.fitterId = FieldValue.text row.1.id
          ∧ matchesPostcodeRange s.filters.postcode.toList row.1.postcodesCovered.toList
              = true := by
  intro row hrow cell hcell order horder
  unfold updateCalendarBody at hrow
  obtain ⟨fitter, hfitter, rfl⟩ := List.mem_map.1 hrow
  rw [mem_sortBy] at hfitter
  obtain ⟨hmem, hpass⟩ := List.mem_filter.1 hfitter
  obtain ⟨week, _, rfl⟩ := List.mem_map.1 hcell
  obtain ⟨h1, h2⟩ := mem_createWeekCell horder
  exact ⟨h1, hmem, h2, passesFilters_postcode hpass hp⟩

/-- Witness for claim C13, at the demo data with the postcode filter `EH5`
and the grid of 7 July 2024. -/
theorem updateCalendarBody_postcode_witness :
    ({ loadDemoData 0 1720346400000 (initialState 1720346400000) with
        filters := { noFilters with postcode := "EH5" } } : State).filters.postcode ≠ ""
      ∧ ∀ row ∈ updateCalendarBody (fun _ => some 1721001600000) compareText
          { loadDemoData 0 1720346400000 (initialState 1720346400000) with
            filters := { noFilters with postcode := "EH5" } }
          (getThreeWeekDays 0 1720346400000 0 1720346400000),
        ∀ cell ∈ row.2, ∀ order ∈ cell,
          order ∈ ({ loadDemoData 0 1720346400000 (initialState 1720346400000) with
              filters := { noFilters with postcode := "EH5" } } : State).orders
            ∧ row.1 ∈ ({ loadDemoData 0 1720346400000 (initialState 1720346400000) with
              filters := { noFilters with postcode := "EH5" } } : State).fitters
            ∧ order.fitterId = FieldValue.text row.1.id
            ∧ matchesPostcodeRange
                ({ loadDemoData 0 1720346400000 (initialState 1720346400000) with
                  filters := { noFilters with postcode := "EH5" } } : State).filters.postcode.toList
                row.1.postcodesCovered.toList = true :=
  ⟨by decide, updateCalendarBody_postcode (fun _ => some 1721001600000) compareText
    { loadDemoData 0 1720346400000 (initialState 1720346400000) with
      filters := { noFilters with postcode := "EH5" } }
    (getThreeWeekDays 0 1720346400000 0 1720346400000) (by decide)⟩

/-- Claim C12, evaluated where the code departs from it: with the demo data
and the postcode filter `EH5`, `filterFitters` keeps the two fitters who
cover `EH1-55`, but `updateCounts` shows `3 orders`: it counts all three
orders, among them the order `1`, whose fitter covers `G1-80`, which does not
match the filter. -/
theorem updateCounts_ignores_postcode :
    updateCounts { loadDemoData 0 1720346400000 (initialState 1720346400000) with
        filters := { noFilters with postcode := "EH5" } } = "3 orders"
      ∧ (countedOrders { loadDemoData 0 1720346400000 (initialState 1720346400000) with
          filters := { noFilters with postcode := "EH5" } }).map (fun order => order.id)
          = ["1", "2", "3"]
      ∧ (filterFitters { loadDemoData 0 1720346400000 (initialState 1720346400000) with
          filters := { noFilters with postcode := "EH5" } }).map (fun fitter => fitter.id)
          = ["2", "8"]
      ∧ ∃ order ∈ countedOrders { loadDemoData 0 1720346400000 (initialState 1720346400000) with
          filters := { noFilters with postcode := "EH5" } },
          order.id = "1"
            ∧ ∀ fitter ∈ demoFitters, order.fitterId = FieldValue.text fitter.id →
              fitter.postcodesCovered = "G1-80"
                ∧ matchesPostcodeRange "EH5".toList fitter.postcodesCovered.toList = false := by
  refine ⟨by decide, by decide, by decide, ?_⟩
  decide

/-! ## Facts about the order of the rows -/

theorem ConsistentComparator.refl {α : Type} {compare : α → α → Int}
    (h : ConsistentComparator compare) (a : α) : compare a a = 0 := by
  have := h.1 a a
  omega

theorem ConsistentComparator.total {α : Type} {compare : α → α → Int}
    (h : ConsistentComparator compare) (a b : α) : compare a b ≤ 0 ∨ compare b a ≤ 0 := by
  have := h.1 b a
  omega

theorem sortBy_sorted {α : Type} {compare : α → α → Int} (h : ConsistentComparator compare)
    (l : List α) : (sortBy compare l).Pairwise (fun a b => compare a b ≤ 0) := by
  haveI : IsTotal α (fun a b => compare a b ≤ 0) := ⟨h.total⟩
  haveI : IsTrans α (fun a b => compare a b ≤ 0) := ⟨h.2⟩
  exact List.sorted_insertionSort (fun a b => compare a b ≤ 0) l

theorem compareFitters_consistent {localeCompare : String → String → Int}
    (h : ConsistentComparator localeCompare) :
    ConsistentComparator (compareFitters localeCompare) := by
  have hrefl := h.refl
  constructor
  · intro a b
    have hab := h.1 a.name b.name
    unfold compareFitters
    by_cases ha1 : a.name = "Unassigned Fitter" <;> by_cases hb1 : b.name = "Unassigned Fitter"
      <;> by_cases ha2 : a.name = "Supply Only" <;> by_cases hb2 : b.name = "Supply Only"
      <;> simp_all
  · intro a b c hab hbc
    have habc := h.2 a.name b.name c.name
    unfold compareFitters at *
    by_cases ha1 : a.name = "Unassigned Fitter" <;> by_cases hb1 : b.name = "Unassigned Fitter"
      <;> by_cases hc1 : c.name = "Unassigned Fitter"
      <;> by_cases ha2 : a.name = "Supply Only" <;> by_cases hb2 : b.name = "Supply Only"
      <;> by_cases hc2 : c.name = "Supply Only"
      <;> simp_all

theorem compareText_consistent : ConsistentComparator compareText := by
  constructor
  · intro a b
    unfold compareText
    rcases lt_trichotomy a b with h | h | h
    · have h1 : ¬ b < a := lt_asymm h
      have h2 : b ≠ a := (ne_of_lt h).symm
      simp [h, h1, h2]
    · subst h
      simp
    · have h1 : ¬ a < b := lt_asymm h
      have h2 : a ≠ b := (ne_of_lt h).symm
      simp [h, h1, h2]
  · intro a b c hab hbc
    have key : ∀ x y : String, compareText x y ≤ 0 ↔ x ≤ y := by
      intro x y
      unfold compareText
      rcases lt_trichotomy x y with h | h | h
      · simp [h, le_of_lt h]
      · subst h
        simp
      · have h1 : ¬ x < y := lt_asymm h
        have h2 : x ≠ y := (ne_of_lt h).symm
        simp [h1, h2, not_le.2 h]
    rw [key] at *
    exact le_trans hab hbc

/-- Claim C15: when `localeCompare` is a consistent comparator, so is the
comparator of `updateCalendarBody`, and the sorted array is a rearrangement
of the filtered fitters in which no fitter with another name comes before a
fitter named `Unassigned Fitter`, only fitters named `Unassigned Fitter` or
`Supply Only` come before a fitter named `Supply Only`, and the names of the
other fitters ascend by `localeCompare`. -/
theorem sortedFitters_order (localeCompare : String → String → Int)
    (h : ConsistentComparator localeCompare) (filteredFitters : List Fitter) :
    ConsistentComparator (compareFitters localeCompare)
      ∧ (sortBy (compareFitters localeCompare) filteredFitters).Perm filteredFitters
      ∧ (sortBy (compareFitters localeCompare) filteredFitters).Pairwise (fun a b =>
          (b.name = "Unassigned Fitter" → a.name = "Unassigned Fitter")
            ∧ (b.name = "Supply Only" →
                a.name = "Unassigned Fitter" ∨ a.name = "Supply Only")
            ∧ (a.name ≠ "Unassigned Fitter" → a.name ≠ "Supply Only" →
                b.name ≠ "Unassigned Fitter" → b.name ≠ "Supply Only" →
                localeCompare a.name b.name ≤ 0)) := by
  refine ⟨compareFitters_consistent h, List.perm_insertionSort _ _, ?_⟩
  refine List.Pairwise.imp ?_ (sortBy_sorted (compareFitters_consistent h) filteredFitters)
  intro a b hab
  unfold compareFitters at hab
  by_cases ha1 : a.name = "Unassigned Fitter" <;> by_cases hb1 : b.name = "Unassigned Fitter"
    <;> by_cases ha2 : a.name = "Supply Only" <;> by_cases hb2 : b.name = "Supply Only"
    <;> simp_all

/-- Witness for claim C15, with the comparison of strings by characters and
the demo fitters. -/
theorem sortedFitters_order_witness :
    ConsistentComparator compareText
      ∧ (ConsistentComparator (compareFitters compareText)
        ∧ (sortBy (compareFitters compareText) demoFitters).Perm demoFitters
        ∧ (sortBy (compareFitters compareText) demoFitters).Pairwise (fun a b =>
            (b.name = "Unassigned Fitter" → a.name = "Unassigned Fitter")
              ∧ (b.name = "Supply Only" →
                  a.name = "Unassigned Fitter" ∨ a.name = "Supply Only")
              ∧ (a.name ≠ "Unassigned Fitter" → a.name ≠ "Supply Only" →
                  b.name ≠ "Unassigned Fitter" → b.name ≠ "Supply Only" →
                  compareText a.name b.name ≤ 0))) :=
  ⟨compareText_consistent, sortedFitters_order compareText compareText_consistent demoFitters⟩

/-! ## Creating a holiday -/

/-- A character has at least one code unit. -/
theorem one_le_codeUnits (c : Char) : 1 ≤ codeUnits c := by
  unfold codeUnits
  split <;> omega

/-- A string has at most as many characters as code units. -/
theorem length_le_jsLength (s : List Char) : s.length ≤ jsLength s := by
  induction s with
  | nil => simp [jsLength]
  | cons c rest ih =>
    have h := one_le_codeUnits c
    simp only [jsLength, List.map_cons, List.sum_cons, List.length_cons] at ih ⊢
    omega

/-- What the code accepts satisfies the condition of the claim. -/
theorem validSubmission_of_accepted (form : HolidayForm) (h : AcceptedSubmission form) :
    ValidSubmission form := by
  obtain ⟨modal, value, hm, hv, hne, hlen, hf, hw, _⟩ := h
  exact ⟨modal, value, hm, hv, hne, le_trans (length_le_jsLength _) hlen, hf, hw⟩

/-- The run of `handleCreateHolidaySubmit` on a submission that the code does
not accept: nothing is called and the global variables are unchanged. -/
theorem handleCreateHolidaySubmit_of_not_accepted (insertRecord : InsertHost)
    (typeError : String) (host : RelatedHost) (form : HolidayForm) (s : State)
    (h : ¬ AcceptedSubmission form) :
    (handleCreateHolidaySubmit insertRecord typeError host form s).calls = []
      ∧ (handleCreateHolidaySubmit insertRecord typeError host form s).inserted = []
      ∧ (handleCreateHolidaySubmit insertRecord typeError host form s).modalClosed = false
      ∧ (handleCreateHolidaySubmit insertRecord typeError host form s).state = s := by
  unfold handleCreateHolidaySubmit
  cases hm : form.createHolidayModal with
  | none => simp
  | some modal =>
    cases hv : form.holidayTitle with
    | none => simp
    | some value =>
      simp only []
      by_cases he : trim value.data = []
      · simp [he]
      · by_cases hl : jsLength (trim value.data) > 30
        · simp [he, hl]
        · cases hf : modal.fitterId with
          | none => simp [he, hl]
          | some fitterId =>
            cases hw : modal.weekStart with
            | none => simp [he, hl]
            | some weekStart =>
              by_cases hg : fitterId = "" ∨ weekStart = ""
              · simp [he, hl, hg]
              · cases hb : form.saveCreateHoliday with
                | false => simp [he, hl, hg]
                | true =>
                  exfalso
                  apply h
                  refine ⟨modal, value, hm, hv, ?_, Nat.le_of_not_lt hl, ⟨fitterId, hf, ?_⟩,
                    ⟨weekStart, hw, ?_⟩, hb⟩
                  · exact he
                  · exact fun hh => hg (Or.inl hh)
                  · exact fun hh => hg (Or.inr hh)

/-- The run of `handleCreateHolidaySubmit` on a submission that the code
accepts: `createHolidayRecord` is called once, with the trimmed title and the
entries of the dataset. -/
theorem handleCreateHolidaySubmit_of_accepted (insertRecord : InsertHost)
    (typeError : String) (host : RelatedHost) (form : HolidayForm) (s : State)
    (modal : ModalDataset) (value fitterId weekStart : String)
    (hm : form.createHolidayModal = some modal) (hv : form.holidayTitle = some value)
    (hne : trim value.toList ≠ []) (hlen : jsLength (trim value.toList) ≤ 30)
    (hf : modal.fitterId = some fitterId) (hfe : fitterId ≠ "")
    (hw : modal.weekStart = some weekStart) (hwe : weekStart ≠ "")
    (hb : form.saveCreateHoliday = true) :
    (handleCreateHolidaySubmit insertRecord typeError host form s).calls
        = [⟨fitterId, modal.fitterName, weekStart, trim value.toList⟩]
      ∧ (handleCreateHolidaySubmit insertRecord typeError host form s).inserted
        = [⟨String.mk (trim value.toList), fitterId, weekStart, "Booked"⟩] := by
  have hl : ¬ jsLength (trim value.data) > 30 := Nat.not_lt.mpr hlen
  have hne2 : trim value.data ≠ [] := hne
  unfold handleCreateHolidaySubmit
  simp only [hm, hv]
  simp [hne2, hl, hf, hw, hb, hfe, hwe, recordDataOf]
  constructor <;> split <;> simp

/-- Claim C21: `handleCreateHolidaySubmit` calls `createHolidayRecord` only
if the title, after trimming, is not empty and has at most 30 characters and
`fitterId` and `weekStart` are both present; for every other input it calls
nothing, sends no record to the host and leaves the global variables as they
were.  The test of the code is exactly `AcceptedSubmission` (length in UTF-16
code units, button `saveCreateHoliday` in the document), and a call that is
made is the only one, with the trimmed title and the entries of the dataset
as arguments and one record with `Active_Status` equal to `Booked` sent to
the host. -/
theorem handleCreateHolidaySubmit_only_if (insertRecord : InsertHost) (typeError : String)
    (host : RelatedHost) (form : HolidayForm) (s : State) :
    ((handleCreateHolidaySubmit insertRecord typeError host form s).calls ≠ []
        → ValidSubmission form)
      ∧ (¬ ValidSubmission form →
          (handleCreateHolidaySubmit insertRecord typeError host form s).calls = []
            ∧ (handleCreateHolidaySubmit insertRecord typeError host form s).inserted = []
            ∧ (handleCreateHolidaySubmit insertRecord typeError host form s).state = s)
      ∧ ((handleCreateHolidaySubmit insertRecord typeError host form s).calls ≠ []
          ↔ AcceptedSubmission form)
      ∧ ((handleCreateHolidaySubmit insertRecord typeError host form s).inserted ≠ []
          ↔ AcceptedSubmission form)
      ∧ (∀ call ∈ (handleCreateHolidaySubmit insertRecord typeError host form s).calls,
          (handleCreateHolidaySubmit insertRecord typeError host form s).calls = [call]
            ∧ (handleCreateHolidaySubmit insertRecord typeError host form s).inserted
              = [⟨String.mk call.holidayTitle, call.fitterId, call.weekStart, "Booked"⟩]
            ∧ ∃ modal value, form.createHolidayModal = some modal
                ∧ form.holidayTitle = some value
                ∧ call.holidayTitle = trim value.toList
                ∧ modal.fitterId = some call.fitterId
                ∧ modal.weekStart = some call.weekStart
                ∧ call.fitterName = modal.fitterName) := by
  have hno := handleCreateHolidaySubmit_of_not_accepted insertRecord typeError host form s
  have hyes : AcceptedSubmission form →
      ∃ modal value fitterId weekStart, form.createHolidayModal = some modal
        ∧ form.holidayTitle = some value ∧ modal.fitterId = some fitterId
        ∧ modal.weekStart = some weekStart
        ∧ (handleCreateHolidaySubmit insertRecord typeError host form s).calls
            = [⟨fitterId, modal.fitterName, weekStart, trim value.toList⟩]
        ∧ (handleCreateHolidaySubmit insertRecord typeError host form s).inserted
            = [⟨String.mk (trim value.toList), fitterId, weekStart, "Booked"⟩] := by
    rintro ⟨modal, value, hm, hv, hne, hlen, ⟨fitterId, hf, hfe⟩, ⟨weekStart, hw, hwe⟩, hb⟩
    have h := handleCreateHolidaySubmit_of_accepted insertRecord typeError host form s modal
      value fitterId weekStart hm hv hne hlen hf hfe hw hwe hb
    exact ⟨modal, value, fitterId, weekStart, hm, hv, hf, hw, h.1, h.2⟩
  have hcalls : (handleCreateHolidaySubmit insertRecord typeError host form s).calls ≠ []
      → AcceptedSubmission form := by
    intro hne
    by_contra hacc
    exact hne (hno hacc).1
  refine ⟨fun hne => validSubmission_of_accepted form (hcalls hne), ?_, ⟨hcalls, ?_⟩, ⟨?_, ?_⟩,
    ?_⟩
  · intro hinv
    have hacc : ¬ AcceptedSubmission form := fun h => hinv (validSubmission_of_accepted form h)
    exact ⟨(hno hacc).1, (hno hacc).2.1, (hno hacc).2.2.2⟩
  · intro hacc
    obtain ⟨_, _, _, _, _, _, _, _, hc, _⟩ := hyes hacc
    rw [hc]
    exact List.cons_ne_nil _ _
  · intro hne
    by_contra hacc
    exact hne (hno hacc).2.1
  · intro hacc
    obtain ⟨_, _, _, _, _, _, _, _, _, hi⟩ := hyes hacc
    rw [hi]
    exact List.cons_ne_nil _ _
  · intro call hcall
    obtain ⟨modal, value, fitterId, weekStart, hm, hv, hf, hw, hc, hi⟩ :=
      hyes (hcalls (List.ne_nil_of_mem hcall))
    rw [hc, List.mem_singleton] at hcall
    subst hcall
    exact ⟨hc, hi, modal, value, hm, hv, rfl, hf, hw, rfl⟩

/-- Witness for claim C21: the title `  Summer break ` for fitter `1` and
the week of 1 July 2024 is submitted, the host accepts the record; one call
is made with the trimmed title, and the condition of the claim holds. -/
theorem handleCreateHolidaySubmit_only_if_witness :
    (handleCreateHolidaySubmit
        (fun _ => .ok (some ⟨some [⟨some "success", none, some ⟨some "h9"⟩⟩]⟩)) ""
        (fun _ _ => .ok none)
        ⟨some ⟨some "1", some "Aaron Cartwright", some "2024-07-01"⟩, some "  Summer break ", true⟩
        (initialState 0)).calls
        = [⟨"1", some "Aaron Cartwright", "2024-07-01", "Summer break".toList⟩]
      ∧ ValidSubmission
          ⟨some ⟨some "1", some "Aaron Cartwright", some "2024-07-01"⟩, some "  Summer break ",
            true⟩ :=
  ⟨by decide,
    (handleCreateHolidaySubmit_only_if
      (fun _ => .ok (some ⟨some [⟨some "success", none, some ⟨some "h9"⟩⟩]⟩)) ""
      (fun _ _ => .ok none)
      ⟨some ⟨some "1", some "Aaron Cartwright", some "2024-07-01"⟩, some "  Summer break ", true⟩
      (initialState 0)).1 (by decide)⟩

/-- Examples of submissions for which nothing is created: a title of blanks,
a title of 31 letters, an empty `fitterId`, a missing `weekStart`; and a
title of 16 characters outside the basic plane, which has 32 code units. -/
theorem handleCreateHolidaySubmit_rejected_examples :
    (∀ (modal : ModalDataset) (value : String),
        (modal, value) ∈
          [(⟨some "1", some "Aaron Cartwright", some "2024-07-01"⟩, " \t "),
            (⟨some "1", some "Aaron Cartwright", some "2024-07-01"⟩,
              "abcdefghijklmnopqrstuvwxyzabcde"),
            (⟨some "", some "Aaron Cartwright", some "2024-07-01"⟩, "Summer break"),
            (⟨some "1", some "Aaron Cartwright", none⟩, "Summer break"),
            (⟨some "1", some "Aaron Cartwright", some "2024-07-01"⟩,
              String.mk (List.replicate 16 (Char.ofNat 0x1F600)))] →
        (handleCreateHolidaySubmit
          (fun _ => .ok (some ⟨some [⟨some "success", none, some ⟨some "h9"⟩⟩]⟩)) ""
          (fun _ _ => .ok none) ⟨some modal, some value, true⟩ (initialState 0)).calls = [])
      ∧ (trim (List.replicate 16 (Char.ofNat 0x1F600))).length = 16
      ∧ jsLength (trim (List.replicate 16 (Char.ofNat 0x1F600))) = 32 := by
  refine ⟨?_, by decide, by decide⟩
  intro modal value hmem
  simp only [List.mem_cons, List.mem_singleton, List.not_mem_nil, or_false, Prod.mk.injEq]
    at hmem
  rcases hmem with ⟨rfl, rfl⟩ | ⟨rfl, rfl⟩ | ⟨rfl, rfl⟩ | ⟨rfl, rfl⟩ | ⟨rfl, rfl⟩ <;> decide

end CalendarWidget
